import Mathlib

/-! Host side of the nxdumptool USB protocol (`src/usbmanager.cpp`, `src/usbcommands.h`).

A shallow embedding of the `UsbManager` worker: the bulk transport wrappers
(`usbRead`, `usbWrite`, `usbSendStatus`), the command handlers, the command
dispatcher loop and the NSP bookkeeping, followed by theorems about them.

Modelling conventions.

* A `QByteArray` is a list of bytes, a byte is a `Fin 256`.
* The object's member variables are the fields of the structure `UsbManager`;
  every member function takes the object and returns the updated object.
* The outside world is part of the state: the filesystem, the queue of outcomes
  of the successive `libusb_bulk_transfer` calls on each endpoint, and the trace
  of what the worker did (bulk reads, bulk writes, progress signals).
* `m_stopRequested` is written by another thread (`stopServer`).  Each bulk
  transfer outcome says whether `stopServer` ran while the worker was blocked
  in that transfer; the flag changes at no other point.
* A read through a pointer past the end of a block, or through a null
  `QFile*`, has no defined behaviour: the handler returns `Except.error`.
* `emit logMessage` is not recorded, and the members that only feed log lines
  (`m_nxdtGitCommit`, `m_usbVersion`) or libusb itself (`m_context`, `m_epIn`,
  `m_epOut`) are not kept.  Integer widths are those of a 64-bit target
  (`size_t` and `qint64` are 64 bits, `int` is 32 bits, `qsizetype` is 64 bits).
* A file holds what has been written to it: the buffering of `QFile` and the
  failure of a write are not modelled.
* The source function `handleSendFileProperties` is cut into `enableNspTransferMode`,
  `openOutputFile`, `finishOrReceive`, `receiveFile` and `receiveLoop`, and an
  iteration of `commandHandler` into `readCommand`, `routeCommand` and
  `processCommand`; each piece carries the statements of the source in order.
-/

namespace NxdtHost

/-! ## Bytes and little-endian fields -/

abbrev Byte := Fin 256

abbrev QByteArray := List Byte

/-- A `QString`, kept as the bytes it was decoded from. -/
abbrev QString := List Byte

/-- Conversion of a C++ `mid(pos, len)` call. -/
def mid (b : QByteArray) (pos len : Nat) : QByteArray := (b.drop pos).take len

/-- Value of `static_cast<int>(n)` for an unsigned `n`. -/
def toInt32 (n : Nat) : Int :=
  if n % 2 ^ 32 < 2 ^ 31 then ((n % 2 ^ 32 : Nat) : Int) else ((n % 2 ^ 32 : Nat) : Int) - 2 ^ 32

/-- Value of a signed 64-bit integer after conversion to `size_t`. -/
def toU64 (x : Int) : Nat := (x % 2 ^ 64).toNat

/-- The byte at index `i` as a number (0 past the end, which callers exclude). -/
def byteAt (b : QByteArray) (i : Nat) : Nat := (b.getD i 0).val

/-- Read of a `uint32_t` at byte offset `off` (little-endian, packed). -/
def readU32 (b : QByteArray) (off : Nat) : Nat :=
  byteAt b off + 2 ^ 8 * byteAt b (off + 1) + 2 ^ 16 * byteAt b (off + 2)
    + 2 ^ 24 * byteAt b (off + 3)

/-- Read of a `uint64_t` at byte offset `off`. -/
def readU64 (b : QByteArray) (off : Nat) : Nat :=
  readU32 b off + 2 ^ 32 * readU32 b (off + 4)

/-- Read of a `qint64` at byte offset `off` (two's complement). -/
def readI64 (b : QByteArray) (off : Nat) : Int :=
  if readU64 b off < 2 ^ 63 then (readU64 b off : Int) else (readU64 b off : Int) - 2 ^ 64

/-- Little-endian bytes of a `uint32_t`. -/
def u32Bytes (n : Nat) : QByteArray :=
  [Fin.ofNat (n % 256), Fin.ofNat (n / 2 ^ 8 % 256), Fin.ofNat (n / 2 ^ 16 % 256),
   Fin.ofNat (n / 2 ^ 24 % 256)]

/-- Little-endian bytes of a `uint16_t`. -/
def u16Bytes (n : Nat) : QByteArray :=
  [Fin.ofNat (n % 256), Fin.ofNat (n / 2 ^ 8 % 256)]

/-! ## Constants of `usbcommands.h` -/

def USB_TRANSFER_TIMEOUT : Int := 10000
def USB_TRANSFER_BLOCK_SIZE : Nat := 0x800000
def USB_TRANSFER_THRESHOLD : Nat := USB_TRANSFER_BLOCK_SIZE * 4
def USB_MAGIC_WORD : QByteArray := [0x4E, 0x58, 0x44, 0x54]
def USB_ABI_VERSION_MAJOR : Nat := 1
def USB_ABI_VERSION_MINOR : Nat := 2
def USB_CMD_HEADER_SIZE : Nat := 0x10

def USB_CMD_START_SESSION : Nat := 0
def USB_CMD_SEND_FILE_PROPERTIES : Nat := 1
def USB_CMD_CANCEL_FILE_TRANSFER : Nat := 2
def USB_CMD_SEND_NSP_HEADER : Nat := 3
def USB_CMD_END_SESSION : Nat := 4
def USB_CMD_START_EXTRACTED_FS_DUMP : Nat := 5
def USB_CMD_END_EXTRACTED_FS_DUMP : Nat := 6

def USB_STATUS_SUCCESS : Nat := 0
def USB_STATUS_INVALID_MAGIC_WORD : Nat := 4
def USB_STATUS_UNSUPPORTED_CMD : Nat := 5
def USB_STATUS_UNSUPPORTED_ABI_VERSION : Nat := 6
def USB_STATUS_MALFORMED_CMD : Nat := 7
def USB_STATUS_HOST_IO_ERROR : Nat := 8

/-- The libusb return code for a timed out transfer. -/
def LIBUSB_ERROR_TIMEOUT : Int := -7

/-! ## The world: files, bulk transfers, trace -/

/-- An open `QFile` object: the path it was opened on and its write position. -/
structure QFile where
  path : QString
  pos : Nat
  deriving DecidableEq, Repr

/-- The part of the filesystem the worker looks at.  `files p` is the content of
the regular file at `p`; `isDir`, `bytesAvailable` and `canOpen` answer
`QFileInfo::isDir` (of an existing entry), `QStorageInfo::bytesAvailable` and
`QFile::open(WriteOnly)`.  Directories made by `mkpath` are not tracked. -/
structure FileSystem where
  files : QString → Option QByteArray
  isDir : QString → Bool
  bytesAvailable : QString → Int
  canOpen : QString → Bool

/-- Outcome of one `libusb_bulk_transfer` call on the IN endpoint: the return
code, the bytes that arrived (`transferred` is their number), whether the
overall timer has expired when the call returns, and whether `stopServer` ran
while the call was blocked. -/
structure BulkIn where
  result : Int
  data : QByteArray
  expired : Bool
  stop : Bool
  deriving DecidableEq, Repr

/-- Outcome of one `libusb_bulk_transfer` call on the OUT endpoint. -/
structure BulkOut where
  result : Int
  transferred : Nat
  expired : Bool
  stop : Bool
  deriving DecidableEq, Repr

/-- What the worker did, in order. -/
inductive Event where
  | usbRead (size : Nat) (got : QByteArray)
  | usbWrite (data : QByteArray) (ok : Bool)
  | startOffset (total : Int) (filename : QString)
  | progressUpdate (current total : Int) (filename : QString)
  | progressEnd
  deriving DecidableEq, Repr

/-- The `UsbManager` object together with the world it acts on. -/
structure UsbManager where
  m_deviceHandle : Bool
  m_epMaxPacketSize : Nat
  m_outputDir : QString
  m_stopRequested : Bool
  m_disableFreeSpaceCheck : Bool
  m_nxdtVersionMajor : Nat
  m_nxdtVersionMinor : Nat
  m_nxdtVersionMicro : Nat
  m_nxdtAbiVersionMajor : Nat
  m_nxdtAbiVersionMinor : Nat
  m_nspTransferMode : Bool
  m_nspSize : Int
  m_nspHeaderSize : Int
  m_nspRemainingSize : Int
  m_nspFile : Option QFile
  m_nspFilePath : QString
  fs : FileSystem
  usbIn : List BulkIn
  usbOut : List BulkOut
  trace : List Event

/-- Why a handler has no defined result. -/
inductive Fault where
  | outOfBounds
  | nullFile
  | fuel
  deriving DecidableEq, Repr

/-! ## Files -/

/-- Content of a file after `data` is written at position `pos`. -/
def writeAt (content : QByteArray) (pos : Nat) (data : QByteArray) : QByteArray :=
  content.take pos ++ List.replicate (pos - content.length) 0 ++ data
    ++ content.drop (pos + data.length)

/-- Replace (or remove, with `none`) the file at `p`. -/
def FileSystem.set (fs : FileSystem) (p : QString) (c : Option QByteArray) : FileSystem :=
  { fs with files := fun q => if q = p then c else fs.files q }

/-- Effect of `QFile::write(data)`: the bytes land at the handle position, which advances. -/
def QFile.write (fs : FileSystem) (f : QFile) (data : QByteArray) : FileSystem × QFile :=
  (fs.set f.path (some (writeAt ((fs.files f.path).getD []) f.pos data)),
   { f with pos := f.pos + data.length })

/-- Effect of `QFile::remove(path)`. -/
def QFile.remove (fs : FileSystem) (p : QString) : FileSystem := fs.set p none

/-- Model of `QDir(dir).filePath(name)`: an absolute `name` is returned as it is,
otherwise it is appended to `dir` with one separator. -/
def filePath (dir name : QString) : QString :=
  if name.head? = some 0x2F then name
  else if name = [] then dir
  else if dir ≠ [] ∧ dir.getLast? ≠ some 0x2F then dir ++ [0x2F] ++ name
  else dir ++ name

/-! ## Bulk transport -/

/-- The polling loop of `usbRead`: `stop` is `m_stopRequested`, the list holds the
outcomes of the transfers still to come (an exhausted list is a vanished device).
Returns the array handed back, the outcomes left and the stop flag. -/
def usbReadPoll (size : Nat) (timeout : Int) :
    List BulkIn → Bool → QByteArray × List BulkIn × Bool
  | [], stop => ([], [], stop)
  | t :: rest, stop =>
    if stop then ([], t :: rest, stop)
    else if t.result = LIBUSB_ERROR_TIMEOUT then
      if 0 ≤ timeout ∧ t.expired = true then ([], rest, t.stop)
      else usbReadPoll size timeout rest t.stop
    else if t.stop = true then ([], rest, t.stop)
    else if t.result < 0 ∨ (t.data.length : Int) ≠ toInt32 size then ([], rest, t.stop)
    else (t.data ++ List.replicate (size - t.data.length) 0, rest, t.stop)

/-- Model of `UsbManager::usbRead(size, timeout)`. -/
def usbRead (s : UsbManager) (size : Nat) (timeout : Int) : QByteArray × UsbManager :=
  if s.m_deviceHandle = false then
    ([], { s with trace := s.trace ++ [Event.usbRead size []] })
  else
    let r := usbReadPoll size timeout s.usbIn s.m_stopRequested
    (r.1, { s with usbIn := r.2.1, m_stopRequested := r.2.2,
                   trace := s.trace ++ [Event.usbRead size r.1] })

/-- The polling loop of `usbWrite` for an array of `len` bytes. -/
def usbWritePoll (len : Nat) (timeout : Int) :
    List BulkOut → Bool → Bool × List BulkOut × Bool
  | [], stop => (false, [], stop)
  | t :: rest, stop =>
    if stop then (false, t :: rest, stop)
    else if t.result = LIBUSB_ERROR_TIMEOUT then
      if 0 ≤ timeout ∧ t.expired = true then (false, rest, t.stop)
      else usbWritePoll len timeout rest t.stop
    else if t.stop = true then (false, rest, t.stop)
    else if t.result < 0 ∨ t.transferred ≠ len then (false, rest, t.stop)
    else (true, rest, t.stop)

/-- Model of `UsbManager::usbWrite(data, timeout)`. -/
def usbWrite (s : UsbManager) (data : QByteArray) (timeout : Int) : Bool × UsbManager :=
  if s.m_deviceHandle = false then
    (false, { s with trace := s.trace ++ [Event.usbWrite data false] })
  else
    let r := usbWritePoll data.length timeout s.usbOut s.m_stopRequested
    (r.1, { s with usbOut := r.2.1, m_stopRequested := r.2.2,
                   trace := s.trace ++ [Event.usbWrite data r.1] })

/-- The 16 bytes of a `UsbStatusResponse`. -/
def statusPacket (code maxPacketSize : Nat) : QByteArray :=
  USB_MAGIC_WORD ++ u32Bytes code ++ u16Bytes maxPacketSize ++ List.replicate 6 0

/-- Model of `UsbManager::usbSendStatus(code)`. -/
def usbSendStatus (s : UsbManager) (code : Nat) : Bool × UsbManager :=
  usbWrite s (statusPacket code s.m_epMaxPacketSize) USB_TRANSFER_TIMEOUT

/-! ## NSP bookkeeping -/

/-- Model of `UsbManager::resetNspInfo(deleteFile)`. -/
def resetNspInfo (s : UsbManager) (deleteFile : Bool) : UsbManager :=
  let s1 : UsbManager :=
    match s.m_nspFile with
    | some _ =>
      if deleteFile = true ∧ s.m_nspFilePath ≠ [] then
        { s with fs := QFile.remove s.fs s.m_nspFilePath, m_nspFile := none }
      else { s with m_nspFile := none }
    | none => s
  { s1 with m_nspTransferMode := false, m_nspSize := 0, m_nspHeaderSize := 0,
            m_nspRemainingSize := 0, m_nspFilePath := [] }

/-- Model of `UsbManager::isValueAlignedToEndpointPacketSize(value)`: the mask is
`m_epMaxPacketSize - 1` computed in `int` and converted to `size_t`. -/
def isValueAlignedToEndpointPacketSize (s : UsbManager) (value : Nat) : Bool :=
  value &&& toU64 ((s.m_epMaxPacketSize : Int) - 1) == 0

/-! ## Command handlers -/

/-- Model of `UsbManager::handleStartSession(cmdBlock)`. -/
def handleStartSession (s : UsbManager) (cmdBlock : QByteArray) :
    Except Fault (Nat × UsbManager) :=
  if cmdBlock.length < 4 then Except.error Fault.outOfBounds
  else
    let abiVersion := byteAt cmdBlock 3
    let s1 : UsbManager :=
      { s with m_nxdtVersionMajor := byteAt cmdBlock 0,
               m_nxdtVersionMinor := byteAt cmdBlock 1,
               m_nxdtVersionMicro := byteAt cmdBlock 2,
               m_nxdtAbiVersionMajor := (abiVersion >>> 4) &&& 0x0F,
               m_nxdtAbiVersionMinor := abiVersion &&& 0x0F }
    if s1.m_nxdtAbiVersionMajor ≠ USB_ABI_VERSION_MAJOR ∨
        s1.m_nxdtAbiVersionMinor ≠ USB_ABI_VERSION_MINOR then
      Except.ok (USB_STATUS_UNSUPPORTED_ABI_VERSION, s1)
    else Except.ok (USB_STATUS_SUCCESS, s1)

/-- Model of `UsbManager::handleCancelFileTransfer(cmdBlock)`. -/
def handleCancelFileTransfer (s : UsbManager) (_cmdBlock : QByteArray) :
    Except Fault (Nat × UsbManager) :=
  if s.m_nspTransferMode = true then Except.ok (USB_STATUS_SUCCESS, resetNspInfo s true)
  else Except.ok (USB_STATUS_MALFORMED_CMD, s)

/-- Model of `UsbManager::handleSendNspHeader(cmdBlock)`. -/
def handleSendNspHeader (s : UsbManager) (cmdBlock : QByteArray) :
    Except Fault (Nat × UsbManager) :=
  if s.m_nspTransferMode = false then Except.ok (USB_STATUS_MALFORMED_CMD, s)
  else if s.m_nspRemainingSize ≠ 0 then Except.ok (USB_STATUS_MALFORMED_CMD, s)
  else if (cmdBlock.length : Int) ≠ s.m_nspHeaderSize then
    Except.ok (USB_STATUS_MALFORMED_CMD, s)
  else
    match s.m_nspFile with
    | none => Except.error Fault.nullFile
    | some f =>
      let w := QFile.write s.fs { f with pos := 0 } cmdBlock
      Except.ok (USB_STATUS_SUCCESS,
        resetNspInfo { s with fs := w.1, m_nspFile := some w.2 } false)

/-- Model of `UsbManager::handleEndSession(cmdBlock)`. -/
def handleEndSession (s : UsbManager) (_cmdBlock : QByteArray) :
    Except Fault (Nat × UsbManager) :=
  Except.ok (USB_STATUS_SUCCESS, s)

/-- Model of `UsbManager::handleStartExtractedFsDump(cmdBlock)`. -/
def handleStartExtractedFsDump (s : UsbManager) (cmdBlock : QByteArray) :
    Except Fault (Nat × UsbManager) :=
  if s.m_nspTransferMode = true then Except.ok (USB_STATUS_MALFORMED_CMD, s)
  else if cmdBlock.length < 8 then Except.error Fault.outOfBounds
  else Except.ok (USB_STATUS_SUCCESS, s)

/-- Model of `UsbManager::handleEndExtractedFsDump(cmdBlock)`. -/
def handleEndExtractedFsDump (s : UsbManager) (_cmdBlock : QByteArray) :
    Except Fault (Nat × UsbManager) :=
  Except.ok (USB_STATUS_SUCCESS, s)

/-! ## SendFileProperties: the reception engine -/

/-- How the receive loop was left: by a `return` inside it, or by its condition. -/
inductive LoopExit where
  | returned (status : Nat)
  | completed
  deriving DecidableEq, Repr

/-- The cleanup that both early exits of the receive loop perform (the failed
read and the in-band cancel): drop the NSP file and state in NSP mode, else
close and remove the output file; then `progressEnd` if progress was started. -/
def discardPartialFile (s : UsbManager) (fullPath : QString) (useProgressBar : Bool) :
    UsbManager :=
  let s1 : UsbManager :=
    if s.m_nspTransferMode = true then resetNspInfo s true
    else { s with fs := QFile.remove s.fs fullPath }
  if useProgressBar = true then { s1 with trace := s1.trace ++ [Event.progressEnd] } else s1

/-- The test for an in-band cancel on a received chunk. -/
def isCancelChunk (chunk : QByteArray) : Bool :=
  chunk.length = USB_CMD_HEADER_SIZE ∧ chunk.take 4 = USB_MAGIC_WORD ∧
    readU32 chunk 4 = USB_CMD_CANCEL_FILE_TRANSFER

/-- The `while (offset < fileSize)` loop of `handleSendFileProperties`.  The first
argument bounds the number of iterations; `file` is the `QFile` behind the local
pointer, which in NSP mode is the object `m_nspFile` points to. -/
def receiveLoop (fileSize : Int) (filename fullPath : QString) (useProgressBar : Bool) :
    Nat → UsbManager → QFile → Int → Nat → Except Fault (LoopExit × UsbManager)
  | 0, s, _, offset, _ =>
    if offset < fileSize then Except.error Fault.fuel else Except.ok (LoopExit.completed, s)
  | fuel + 1, s, file, offset, blockSize =>
    if offset < fileSize then
      let remaining := fileSize - offset
      let blockSize := if blockSize > toU64 remaining then toU64 remaining else blockSize
      let readSize :=
        if toU64 (offset + blockSize) ≥ toU64 fileSize ∧
            isValueAlignedToEndpointPacketSize s blockSize = true then blockSize + 1
        else blockSize
      let r := usbRead s readSize USB_TRANSFER_TIMEOUT
      let chunk := r.1
      let s1 := r.2
      if chunk = [] then
        Except.ok (LoopExit.returned USB_STATUS_HOST_IO_ERROR,
          discardPartialFile s1 fullPath useProgressBar)
      else if isCancelChunk chunk = true then
        Except.ok (LoopExit.returned USB_STATUS_SUCCESS,
          discardPartialFile s1 fullPath useProgressBar)
      else
        let w := QFile.write s1.fs file chunk
        let offset1 := offset + chunk.length
        let s2 : UsbManager :=
          if s1.m_nspTransferMode = true then
            { s1 with fs := w.1, m_nspFile := some w.2,
                      m_nspRemainingSize := s1.m_nspRemainingSize - chunk.length }
          else { s1 with fs := w.1 }
        let s3 : UsbManager :=
          if useProgressBar = true then
            { s2 with trace := s2.trace ++ [Event.progressUpdate offset1 fileSize filename] }
          else s2
        receiveLoop fileSize filename fullPath useProgressBar fuel s3 w.2 offset1 blockSize
    else Except.ok (LoopExit.completed, s)

/-- The data phase of `handleSendFileProperties`: from the status sent before the
data to the final `return`. -/
def receiveFile (s : UsbManager) (fileSize : Int) (filename fullPath : QString)
    (file : QFile) : Except Fault (Nat × UsbManager) :=
  let s1 := (usbSendStatus s USB_STATUS_SUCCESS).2
  let useProgressBar : Bool :=
    (s1.m_nspTransferMode = false ∧ toU64 fileSize > USB_TRANSFER_THRESHOLD) ∨
    (s1.m_nspTransferMode = true ∧ toU64 s1.m_nspSize > USB_TRANSFER_THRESHOLD)
  let progressTotal := if s1.m_nspTransferMode = true then s1.m_nspSize else fileSize
  let s2 : UsbManager :=
    if useProgressBar = true then
      { s1 with trace := s1.trace ++ [Event.startOffset progressTotal filename] }
    else s1
  match receiveLoop fileSize filename fullPath useProgressBar fileSize.toNat s2 file 0
      USB_TRANSFER_BLOCK_SIZE with
  | Except.error e => Except.error e
  | Except.ok (LoopExit.returned status, s3) => Except.ok (status, s3)
  | Except.ok (LoopExit.completed, s3) =>
    if useProgressBar = true ∧
        (s3.m_nspTransferMode = false ∨ s3.m_nspRemainingSize = 0) then
      Except.ok (USB_STATUS_SUCCESS, { s3 with trace := s3.trace ++ [Event.progressEnd] })
    else Except.ok (USB_STATUS_SUCCESS, s3)

/-- The end of `handleSendFileProperties`, once the output file is known: the
early `return` for an empty file or for the record that announces the whole
NSP, else the data phase.  (Closing a `QFile` does not change what the file
holds, so the `close` of the single-file case leaves the state as it is.) -/
def finishOrReceive (s : UsbManager) (fileSize : Int) (filename fullPath : QString)
    (file : QFile) : Except Fault (Nat × UsbManager) :=
  if fileSize = 0 ∨ (s.m_nspTransferMode = true ∧ fileSize = s.m_nspSize) then
    Except.ok (USB_STATUS_SUCCESS, s)
  else receiveFile s fileSize filename fullPath file

/-- The step "enable NSP transfer mode if needed" of `handleSendFileProperties`. -/
def enableNspTransferMode (s : UsbManager) (fileSize : Int) (nspHeaderSize : Nat) :
    UsbManager :=
  if s.m_nspTransferMode = false ∧ fileSize ≠ 0 ∧ nspHeaderSize ≠ 0 then
    { s with m_nspTransferMode := true, m_nspSize := fileSize,
             m_nspHeaderSize := nspHeaderSize,
             m_nspRemainingSize := fileSize - nspHeaderSize }
  else s

/-- What `handleSendFileProperties` does after `file->open(WriteOnly)` succeeded
on `fullPath`: the file is created empty; in NSP mode the handle becomes
`m_nspFile` and the header padding is written.  Returns the local `file` too. -/
def openOutputFile (s : UsbManager) (fullPath : QString) : UsbManager × QFile :=
  let file0 : QFile := { path := fullPath, pos := 0 }
  let s1 : UsbManager := { s with fs := s.fs.set fullPath (some []) }
  if s1.m_nspTransferMode = true then
    let w := QFile.write s1.fs file0 (List.replicate s1.m_nspHeaderSize.toNat 0)
    ({ s1 with m_nspFile := some w.2, m_nspFilePath := fullPath, fs := w.1 }, w.2)
  else (s1, file0)

/-- Model of `UsbManager::handleSendFileProperties(cmdBlock)`. -/
def handleSendFileProperties (s : UsbManager) (cmdBlock : QByteArray) :
    Except Fault (Nat × UsbManager) :=
  if cmdBlock.length < 16 then Except.error Fault.outOfBounds
  else
    let fileSize := readI64 cmdBlock 0
    let filenameLength := readU32 cmdBlock 8
    let nspHeaderSize := readU32 cmdBlock 12
    let filename := mid cmdBlock 16 filenameLength
    if s.m_nspTransferMode = false ∧ fileSize ≠ 0 ∧ (nspHeaderSize : Int) ≥ fileSize then
      Except.ok (USB_STATUS_MALFORMED_CMD, s)
    else if s.m_nspTransferMode = true ∧ nspHeaderSize ≠ 0 then
      Except.ok (USB_STATUS_MALFORMED_CMD, s)
    else
      let s1 := enableNspTransferMode s fileSize nspHeaderSize
      if s1.m_nspTransferMode = false ∨ s1.m_nspFile = none then
        let fullPath := filePath s1.m_outputDir filename
        if s1.fs.isDir fullPath = true then
          Except.ok (USB_STATUS_HOST_IO_ERROR, resetNspInfo s1 false)
        else if s1.fs.bytesAvailable fullPath < fileSize then
          Except.ok (USB_STATUS_HOST_IO_ERROR, resetNspInfo s1 false)
        else if s1.fs.canOpen fullPath = false then
          Except.ok (USB_STATUS_HOST_IO_ERROR, resetNspInfo s1 false)
        else
          let o := openOutputFile s1 fullPath
          finishOrReceive o.1 fileSize filename fullPath o.2
      else
        match s1.m_nspFile with
        | none => Except.error Fault.nullFile
        | some file => finishOrReceive s1 fileSize filename s1.m_nspFilePath file

/-! ## The command dispatcher -/

/-- How an iteration of the dispatcher loop ends: at its closing brace or by
`continue` (`next`), or by `break` (`stop`). -/
inductive LoopCtl where
  | next
  | stop
  deriving DecidableEq, Repr

/-- The `switch (hdr->cmdId)` of `commandHandler`. -/
def routeCommand (s : UsbManager) (cmdId : Nat) (cmdBlock : QByteArray) :
    Except Fault (Nat × UsbManager) :=
  if cmdId = USB_CMD_START_SESSION then handleStartSession s cmdBlock
  else if cmdId = USB_CMD_SEND_FILE_PROPERTIES then handleSendFileProperties s cmdBlock
  else if cmdId = USB_CMD_CANCEL_FILE_TRANSFER then handleCancelFileTransfer s cmdBlock
  else if cmdId = USB_CMD_SEND_NSP_HEADER then handleSendNspHeader s cmdBlock
  else if cmdId = USB_CMD_END_SESSION then handleEndSession s cmdBlock
  else if cmdId = USB_CMD_START_EXTRACTED_FS_DUMP then handleStartExtractedFsDump s cmdBlock
  else if cmdId = USB_CMD_END_EXTRACTED_FS_DUMP then handleEndExtractedFsDump s cmdBlock
  else Except.ok (USB_STATUS_UNSUPPORTED_CMD, s)

/-- The part of a dispatcher iteration after the header and block were read: the
magic check, the routing, the status write and the decision to go on. -/
def processCommand (s : UsbManager) (cmdHeader cmdBlock : QByteArray) :
    Except Fault (LoopCtl × UsbManager) :=
  if cmdHeader.take 4 ≠ USB_MAGIC_WORD then
    Except.ok (LoopCtl.next, (usbSendStatus s USB_STATUS_INVALID_MAGIC_WORD).2)
  else
    match routeCommand s (readU32 cmdHeader 4) cmdBlock with
    | Except.error e => Except.error e
    | Except.ok (status, s1) =>
      let r := usbSendStatus s1 status
      if r.1 = false ∨ readU32 cmdHeader 4 = USB_CMD_END_SESSION ∨
          status = USB_STATUS_UNSUPPORTED_ABI_VERSION then
        Except.ok (LoopCtl.stop, r.2)
      else Except.ok (LoopCtl.next, r.2)

/-- The first part of a dispatcher iteration: the read of the 16-byte header and
of the block it declares.  `none` stands for the `break` after a failed read. -/
def readCommand (s : UsbManager) : Option (QByteArray × QByteArray) × UsbManager :=
  let h := usbRead s USB_CMD_HEADER_SIZE (-1)
  let cmdHeader := h.1
  if cmdHeader = [] then (none, h.2)
  else
    let cmdBlockSize := readU32 cmdHeader 8
    if cmdBlockSize > 0 then
      let readSize :=
        if isValueAlignedToEndpointPacketSize h.2 cmdBlockSize = true then cmdBlockSize + 1
        else cmdBlockSize
      let b := usbRead h.2 readSize USB_TRANSFER_TIMEOUT
      if b.1 = [] ∨ (b.1.length : Int) ≠ toInt32 cmdBlockSize then (none, b.2)
      else (some (cmdHeader, b.1), b.2)
    else (some (cmdHeader, []), h.2)

/-- One iteration of the `while (!m_stopRequested)` loop of `commandHandler`. -/
def commandHandlerIteration (s : UsbManager) : Except Fault (LoopCtl × UsbManager) :=
  match readCommand s with
  | (none, s1) => Except.ok (LoopCtl.stop, s1)
  | (some (cmdHeader, cmdBlock), s1) => processCommand s1 cmdHeader cmdBlock

/-- The `while (!m_stopRequested)` loop of `commandHandler`, for at most the given
number of iterations. -/
def commandHandlerLoop : Nat → UsbManager → Except Fault UsbManager
  | 0, s => if s.m_stopRequested = true then Except.ok s else Except.error Fault.fuel
  | fuel + 1, s =>
    if s.m_stopRequested = true then Except.ok s
    else
      match commandHandlerIteration s with
      | Except.error e => Except.error e
      | Except.ok (LoopCtl.stop, s1) => Except.ok s1
      | Except.ok (LoopCtl.next, s1) => commandHandlerLoop fuel s1

/-- Model of `UsbManager::getDeviceEndpoints()`.  The enumeration itself is left
to the environment: `found` is the max packet size of the IN endpoint of the
device that was claimed, or `none` when a stop was requested before any device
matched. -/
def getDeviceEndpoints (s : UsbManager) (found : Option Nat) : Bool × UsbManager :=
  match found with
  | some m => (true, { s with m_deviceHandle := true, m_epMaxPacketSize := m })
  | none => (false, { s with m_stopRequested := true })

/-- Model of `UsbManager::commandHandler()`.  Every iteration that goes on has
consumed a bulk IN outcome, so one more iteration than there are outcomes is
enough. -/
def commandHandler (s : UsbManager) (found : Option Nat) : Except Fault UsbManager :=
  let g := getDeviceEndpoints s found
  if g.1 = false then Except.ok g.2
  else
    let s1 := resetNspInfo g.2 false
    commandHandlerLoop (s1.usbIn.length + 1) s1

/-! ## Observations and concrete sessions -/

/-- The NSP transfer state of the session: mode, total, reserve, remaining, file
handle and path. -/
def UsbManager.nspState (s : UsbManager) :
    Bool × Int × Int × Int × Option QFile × QString :=
  (s.m_nspTransferMode, s.m_nspSize, s.m_nspHeaderSize, s.m_nspRemainingSize, s.m_nspFile,
   s.m_nspFilePath)

/-- The status a handler returned, if it returned. -/
def statusOf (r : Except Fault (Nat × UsbManager)) : Option Nat :=
  match r with
  | Except.ok (st, _) => some st
  | Except.error _ => none

/-- The object a handler left behind, if it returned. -/
def stateOf {α : Type} (r : Except Fault (α × UsbManager)) : Option UsbManager :=
  match r with
  | Except.ok (_, s) => some s
  | Except.error _ => none

/-- How a dispatcher iteration ended, if it did. -/
def ctlOf (r : Except Fault (LoopCtl × UsbManager)) : Option LoopCtl :=
  match r with
  | Except.ok (c, _) => some c
  | Except.error _ => none

/-- The bulk writes in a trace, oldest first. -/
def writesOf : List Event → List (QByteArray × Bool)
  | [] => []
  | Event.usbWrite d ok :: es => (d, ok) :: writesOf es
  | _ :: es => writesOf es

/-- The sizes of the bulk reads requested in a trace, oldest first. -/
def readsOf : List Event → List Nat
  | [] => []
  | Event.usbRead n _ :: es => n :: readsOf es
  | _ :: es => readsOf es

/-- A disk with no file on it, nothing in the way and ample free space. -/
def emptyDisk : FileSystem :=
  { files := fun _ => none, isDir := fun _ => false, bytesAvailable := fun _ => 2 ^ 40,
    canOpen := fun _ => true }

/-- A connected worker outside NSP mode, writing below the directory `/o`. -/
def idleManager (maxPacketSize : Nat) (usbIn : List BulkIn) (usbOut : List BulkOut) :
    UsbManager :=
  { m_deviceHandle := true, m_epMaxPacketSize := maxPacketSize, m_outputDir := [0x2F, 0x6F],
    m_stopRequested := false, m_disableFreeSpaceCheck := false, m_nxdtVersionMajor := 0,
    m_nxdtVersionMinor := 0, m_nxdtVersionMicro := 0, m_nxdtAbiVersionMajor := 0,
    m_nxdtAbiVersionMinor := 0, m_nspTransferMode := false, m_nspSize := 0,
    m_nspHeaderSize := 0, m_nspRemainingSize := 0, m_nspFile := none, m_nspFilePath := [],
    fs := emptyDisk, usbIn := usbIn, usbOut := usbOut, trace := [] }

/-- The same worker in the middle of an NSP transfer into `/o/g`: the file holds
the zero padding and `received` bytes of entries. -/
def nspManager (maxPacketSize : Nat) (total reserve received : Nat) (usbIn : List BulkIn)
    (usbOut : List BulkOut) : UsbManager :=
  { idleManager maxPacketSize usbIn usbOut with
    m_nspTransferMode := true, m_nspSize := total, m_nspHeaderSize := reserve,
    m_nspRemainingSize := (total : Int) - reserve - received,
    m_nspFile := some { path := [0x2F, 0x6F, 0x2F, 0x67], pos := reserve + received },
    m_nspFilePath := [0x2F, 0x6F, 0x2F, 0x67],
    fs := emptyDisk.set [0x2F, 0x6F, 0x2F, 0x67]
      (some (List.replicate reserve 0 ++ List.replicate received 0x55)) }

/-- A bulk IN transfer that completes with the bytes `d`. -/
def delivered (d : QByteArray) : BulkIn :=
  { result := 0, data := d, expired := false, stop := false }

/-- A bulk OUT transfer that takes the 16 bytes of a status response. -/
def accepted : BulkOut :=
  { result := 0, transferred := 16, expired := false, stop := false }

/-- A bulk OUT transfer that fails. -/
def refused : BulkOut :=
  { result := -1, transferred := 0, expired := false, stop := false }

/-- The 16 bytes of a command header. -/
def commandHeaderBytes (magic : QByteArray) (cmdId cmdBlockSize : Nat) : QByteArray :=
  magic ++ u32Bytes cmdId ++ u32Bytes cmdBlockSize ++ [0, 0, 0, 0]

/-- A SendFileProperties block: `fileSize` (as an unsigned 64-bit pattern), the
name length, `nspHeaderSize` and the name. -/
def filePropertiesBlock (fileSize nspHeaderSize : Nat) (name : QByteArray) : QByteArray :=
  u32Bytes (fileSize % 2 ^ 32) ++ u32Bytes (fileSize / 2 ^ 32) ++ u32Bytes name.length
    ++ u32Bytes nspHeaderSize ++ name

/-- The in-band cancel packet `NXDT | 2 | 0 | 0`. -/
def cancelPacket : QByteArray :=
  commandHeaderBytes USB_MAGIC_WORD USB_CMD_CANCEL_FILE_TRANSFER 0

/-- The StartSession block `1 2 3 abi "abcdef12" 0 0 0 0`. -/
def startSessionBlock (abi : Byte) : QByteArray :=
  [1, 2, 3, abi, 0x61, 0x62, 0x63, 0x64, 0x65, 0x66, 0x31, 0x32, 0, 0, 0, 0]

/-- A bulk IN transfer during which `stopServer` runs: the poll times out with
nothing received and the flag is found set. -/
def stopDuringRead : BulkIn :=
  { result := LIBUSB_ERROR_TIMEOUT, data := [], expired := false, stop := true }

/-- A disk on which nothing can be stored: no free byte at any path. -/
def fullDisk : FileSystem :=
  { files := fun _ => none, isDir := fun _ => false, bytesAvailable := fun _ => 0,
    canOpen := fun _ => true }

/-- A connected worker outside NSP mode that was configured with the
disable-free-space-check flag set, on the disk `fs`. -/
def noSpaceCheckManager (fs : FileSystem) (usbIn : List BulkIn) (usbOut : List BulkOut) :
    UsbManager :=
  { idleManager 512 usbIn usbOut with m_disableFreeSpaceCheck := true, fs := fs }

/-- Why a handler or the dispatcher has no defined result, if so. -/
def faultOf {α : Type} (r : Except Fault α) : Option Fault :=
  match r with
  | Except.ok _ => none
  | Except.error e => some e

/-- The progress lifecycle events of a trace, oldest first: `true` for a
progress start (signal `startOffset`), `false` for `progressEnd`. -/
def progressMarks : List Event → List Bool
  | [] => []
  | Event.startOffset _ _ :: es => true :: progressMarks es
  | Event.progressEnd :: es => false :: progressMarks es
  | _ :: es => progressMarks es

/-- Strict alternation of progress starts and ends, beginning with a start. -/
def alternates : List Bool → Bool
  | [] => true
  | [true] => true
  | true :: false :: rest => alternates rest
  | _ => false

/-- What the bulk reads of a trace handed back, oldest first (`[]` for a failed
read). -/
def chunksOf : List Event → List QByteArray
  | [] => []
  | Event.usbRead _ got :: es => got :: chunksOf es
  | _ :: es => chunksOf es

/-- The object after a chunk was received in the receive loop: the statements of
the loop body from `file->write(chunk)` to `progressUpdate`, applied to the
object `s1` the read left behind. -/
def chunkReceived (fileSize : Int) (filename : QString) (useProgressBar : Bool)
    (s1 : UsbManager) (file : QFile) (chunk : QByteArray) (offset1 : Int) : UsbManager :=
  let w := QFile.write s1.fs file chunk
  let s2 : UsbManager :=
    if s1.m_nspTransferMode = true then
      { s1 with fs := w.1, m_nspFile := some w.2,
                m_nspRemainingSize := s1.m_nspRemainingSize - chunk.length }
    else { s1 with fs := w.1 }
  if useProgressBar = true then
    { s2 with trace := s2.trace ++ [Event.progressUpdate offset1 fileSize filename] }
  else s2

/-- The value of `blockSize` after the adjustment at the head of the loop body. -/
def nextBlockSize (fileSize offset : Int) (blockSize : Nat) : Nat :=
  if blockSize > toU64 (fileSize - offset) then toU64 (fileSize - offset) else blockSize

/-- The value of `readSize` in the loop body entered with `offset` and `blockSize`. -/
def chunkReadSize (s : UsbManager) (fileSize offset : Int) (blockSize : Nat) : Nat :=
  if toU64 (offset + nextBlockSize fileSize offset blockSize) ≥ toU64 fileSize ∧
      isValueAlignedToEndpointPacketSize s (nextBlockSize fileSize offset blockSize) = true
  then nextBlockSize fileSize offset blockSize + 1
  else nextBlockSize fileSize offset blockSize

/-- The value of `useProgressBar` in the data phase entered from `s`. -/
def progressWanted (s : UsbManager) (fileSize : Int) : Bool :=
  (s.m_nspTransferMode = false ∧ toU64 fileSize > USB_TRANSFER_THRESHOLD) ∨
  (s.m_nspTransferMode = true ∧ toU64 s.m_nspSize > USB_TRANSFER_THRESHOLD)

/-- The object at the head of the receive loop: the data phase entered from `s`
has sent its first status and, when progress is wanted, emitted `startOffset`. -/
def dataPhaseStart (s : UsbManager) (fileSize : Int) (filename : QString) : UsbManager :=
  let s1 := (usbSendStatus s USB_STATUS_SUCCESS).2
  if progressWanted s1 fileSize = true then
    { s1 with trace := s1.trace ++
        [Event.startOffset (if s1.m_nspTransferMode = true then s1.m_nspSize else fileSize)
          filename] }
  else s1

/-- The object, the path and the file with which `handleSendFileProperties`
reaches the end of its file resolution, when the resolution succeeds. -/
def resolvedFile (s : UsbManager) (cmdBlock : QByteArray) : UsbManager × QString × QFile :=
  let s1 := enableNspTransferMode s (readI64 cmdBlock 0) (readU32 cmdBlock 12)
  let fullPath := filePath s1.m_outputDir (mid cmdBlock 16 (readU32 cmdBlock 8))
  if s1.m_nspTransferMode = false ∨ s1.m_nspFile = none then
    ((openOutputFile s1 fullPath).1, fullPath, (openOutputFile s1 fullPath).2)
  else
    match s1.m_nspFile with
    | some file => (s1, s1.m_nspFilePath, file)
    | none => (s1, s1.m_nspFilePath, { path := s1.m_nspFilePath, pos := 0 })

/-- The condition under which a SendFileProperties block leads to a data phase:
it passes both validation checks, the output file is resolved (the NSP file is
reused, or the path is no directory, has room and opens), `fileSize` is not 0 and
the block is not the record announcing the whole NSP. -/
def entersDataPhase (s : UsbManager) (cmdBlock : QByteArray) : Bool :=
  let fileSize := readI64 cmdBlock 0
  let nspHeaderSize := readU32 cmdBlock 12
  let fullPath := filePath s.m_outputDir (mid cmdBlock 16 (readU32 cmdBlock 8))
  let s1 := enableNspTransferMode s fileSize nspHeaderSize
  ¬ (s.m_nspTransferMode = false ∧ fileSize ≠ 0 ∧ (nspHeaderSize : Int) ≥ fileSize) ∧
  ¬ (s.m_nspTransferMode = true ∧ nspHeaderSize ≠ 0) ∧
  ((s1.m_nspTransferMode = false ∨ s1.m_nspFile = none) →
    (s1.fs.isDir fullPath = false ∧ fileSize ≤ s1.fs.bytesAvailable fullPath ∧
      s1.fs.canOpen fullPath = true)) ∧
  fileSize ≠ 0 ∧ ¬ (s1.m_nspTransferMode = true ∧ fileSize = s1.m_nspSize)

/-- The block is long enough for the fixed-offset fields the handler of `cmdId`
reads. -/
def blockLongEnough (cmdId : Nat) (cmdBlock : QByteArray) : Prop :=
  (cmdId = USB_CMD_START_SESSION → 4 ≤ cmdBlock.length) ∧
  (cmdId = USB_CMD_SEND_FILE_PROPERTIES → 16 ≤ cmdBlock.length) ∧
  (cmdId = USB_CMD_START_EXTRACTED_FS_DUMP → 8 ≤ cmdBlock.length)

/-- The invariant of the NSP state: NSP mode exactly when the NSP file is held;
in NSP mode `0 < reserve < total`; outside it total, reserve and remaining are 0
and the path is empty. -/
def NspInvariant (s : UsbManager) : Prop :=
  (s.m_nspTransferMode = true ↔ s.m_nspFile ≠ none) ∧
  (s.m_nspTransferMode = true → 0 < s.m_nspHeaderSize ∧ s.m_nspHeaderSize < s.m_nspSize) ∧
  (s.m_nspTransferMode = false → s.m_nspSize = 0 ∧ s.m_nspHeaderSize = 0 ∧
    s.m_nspRemainingSize = 0 ∧ s.m_nspFilePath = [])

/-- The read sizes the specification gives for a file of `N > 0` bytes at max
packet size `m`: full blocks of 0x800000 bytes for all chunks but the last, then
the rest `L`, plus one byte when `N` is a multiple of `m`. -/
def chunkReads (m N : Nat) : List Nat :=
  List.replicate ((N - 1) / USB_TRANSFER_BLOCK_SIZE) USB_TRANSFER_BLOCK_SIZE ++
    [N - USB_TRANSFER_BLOCK_SIZE * ((N - 1) / USB_TRANSFER_BLOCK_SIZE) +
      (if N % m = 0 then 1 else 0)]

/-! # Theorems -/

set_option maxRecDepth 1000000

/-! ## Transport lemmas -/

theorem toInt32_le (n : Nat) : toInt32 n ≤ (n : Int) := by
  unfold toInt32
  have h := Nat.mod_le n (2 ^ 32)
  split_ifs <;> omega

theorem usbReadPoll_length (size : Nat) (timeout : Int) (q : List BulkIn) :
    ∀ stop, (usbReadPoll size timeout q stop).1 = [] ∨
      (usbReadPoll size timeout q stop).1.length = size := by
  induction q with
  | nil => intro stop; exact Or.inl rfl
  | cons t rest ih =>
    intro stop
    unfold usbReadPoll
    split_ifs with h1 h2 h3 h4 h5
    · exact Or.inl rfl
    · exact Or.inl rfl
    · exact ih _
    · exact Or.inl rfl
    · exact Or.inl rfl
    · right
      have hle := toInt32_le size
      have heq : (t.data.length : Int) = toInt32 size := by
        by_contra hne
        exact h5 (Or.inr hne)
      simp only [List.length_append, List.length_replicate]
      omega

theorem usbRead_length (s : UsbManager) (size : Nat) (timeout : Int) :
    (usbRead s size timeout).1 = [] ∨ (usbRead s size timeout).1.length = size := by
  unfold usbRead
  split_ifs
  · exact Or.inl rfl
  · exact usbReadPoll_length size timeout s.usbIn s.m_stopRequested

theorem usbRead_nspState (s : UsbManager) (size : Nat) (timeout : Int) :
    (usbRead s size timeout).2.nspState = s.nspState := by
  unfold usbRead
  split_ifs <;> rfl

theorem usbRead_fs (s : UsbManager) (size : Nat) (timeout : Int) :
    (usbRead s size timeout).2.fs = s.fs := by
  unfold usbRead
  split_ifs <;> rfl

theorem usbRead_usbOut (s : UsbManager) (size : Nat) (timeout : Int) :
    (usbRead s size timeout).2.usbOut = s.usbOut := by
  unfold usbRead
  split_ifs <;> rfl

theorem usbRead_maxPacketSize (s : UsbManager) (size : Nat) (timeout : Int) :
    (usbRead s size timeout).2.m_epMaxPacketSize = s.m_epMaxPacketSize := by
  unfold usbRead
  split_ifs <;> rfl

theorem usbRead_trace (s : UsbManager) (size : Nat) (timeout : Int) :
    (usbRead s size timeout).2.trace =
      s.trace ++ [Event.usbRead size (usbRead s size timeout).1] := by
  unfold usbRead
  split_ifs <;> rfl

theorem writesOf_append (a b : List Event) : writesOf (a ++ b) = writesOf a ++ writesOf b := by
  induction a with
  | nil => rfl
  | cons e es ih => cases e <;> simp [writesOf, ih]

theorem usbWritePoll_true (len : Nat) (timeout : Int) (q : List BulkOut) :
    ∀ stop, (usbWritePoll len timeout q stop).1 = true →
      (usbWritePoll len timeout q stop).2.2 = false := by
  induction q with
  | nil => intro stop h; cases h
  | cons t rest ih =>
    intro stop
    unfold usbWritePoll
    split_ifs with h1 h2 h3 h4 h5
    · intro h; cases h
    · intro h; cases h
    · exact ih _
    · intro h; cases h
    · intro h; cases h
    · intro _
      simpa using h4

theorem usbWrite_true_no_stop (s : UsbManager) (data : QByteArray) (timeout : Int)
    (h : (usbWrite s data timeout).1 = true) :
    (usbWrite s data timeout).2.m_stopRequested = false := by
  by_cases hd : s.m_deviceHandle = false
  · simp [usbWrite, hd] at h
  · simp only [usbWrite, hd, if_false] at h ⊢
    exact usbWritePoll_true _ _ _ _ h

theorem usbWrite_nspState (s : UsbManager) (data : QByteArray) (timeout : Int) :
    (usbWrite s data timeout).2.nspState = s.nspState := by
  unfold usbWrite
  split_ifs <;> rfl

theorem usbWrite_fs (s : UsbManager) (data : QByteArray) (timeout : Int) :
    (usbWrite s data timeout).2.fs = s.fs := by
  unfold usbWrite
  split_ifs <;> rfl

theorem usbWrite_usbIn (s : UsbManager) (data : QByteArray) (timeout : Int) :
    (usbWrite s data timeout).2.usbIn = s.usbIn := by
  unfold usbWrite
  split_ifs <;> rfl

theorem usbWrite_trace (s : UsbManager) (data : QByteArray) (timeout : Int) :
    (usbWrite s data timeout).2.trace =
      s.trace ++ [Event.usbWrite data (usbWrite s data timeout).1] := by
  unfold usbWrite
  split_ifs <;> rfl

/-! ## The read of a command -/

/-- A header that declares a packet-aligned block never gets past the block read:
the array `usbRead` hands back has one byte more than `cmdBlockSize`. -/
theorem readCommand_aligned_block (s : UsbManager)
    (hhdr : (usbRead s USB_CMD_HEADER_SIZE (-1)).1 ≠ [])
    (hpos : 0 < readU32 (usbRead s USB_CMD_HEADER_SIZE (-1)).1 8)
    (hal : isValueAlignedToEndpointPacketSize (usbRead s USB_CMD_HEADER_SIZE (-1)).2
      (readU32 (usbRead s USB_CMD_HEADER_SIZE (-1)).1 8) = true) :
    (readCommand s).1 = none := by
  unfold readCommand
  dsimp only
  rw [if_neg hhdr, if_pos hpos, if_pos hal]
  generalize hb : usbRead _ _ USB_TRANSFER_TIMEOUT = b
  have hlen := usbRead_length (usbRead s USB_CMD_HEADER_SIZE (-1)).2
    (readU32 (usbRead s USB_CMD_HEADER_SIZE (-1)).1 8 + 1) USB_TRANSFER_TIMEOUT
  rw [hb] at hlen
  rw [if_pos]
  rcases hlen with h | h
  · exact Or.inl h
  · right
    have := toInt32_le (readU32 (usbRead s USB_CMD_HEADER_SIZE (-1)).1 8)
    omega

theorem readCommand_frame (s : UsbManager) :
    (readCommand s).2.nspState = s.nspState ∧ (readCommand s).2.fs = s.fs ∧
    (readCommand s).2.usbOut = s.usbOut ∧
    (readCommand s).2.m_epMaxPacketSize = s.m_epMaxPacketSize ∧
    writesOf (readCommand s).2.trace = writesOf s.trace := by
  unfold readCommand
  dsimp only
  split_ifs <;>
    simp [usbRead_nspState, usbRead_fs, usbRead_usbOut, usbRead_maxPacketSize, usbRead_trace,
      writesOf_append, writesOf]

/-! ## The reception engine always returns -/

theorem receiveLoop_total (fileSize : Int) (filename fullPath : QString) (useProgressBar : Bool) :
    ∀ (fuel : Nat) (s : UsbManager) (file : QFile) (offset : Int) (blockSize : Nat),
      (fileSize - offset).toNat ≤ fuel →
      ∃ e s1, receiveLoop fileSize filename fullPath useProgressBar fuel s file offset blockSize
          = Except.ok (e, s1) ∧
        (e = LoopExit.completed ∨ e = LoopExit.returned USB_STATUS_SUCCESS ∨
          e = LoopExit.returned USB_STATUS_HOST_IO_ERROR) := by
  intro fuel
  induction fuel with
  | zero =>
    intro s file offset blockSize hf
    have : ¬ offset < fileSize := by omega
    exact ⟨LoopExit.completed, s, by simp [receiveLoop, this], Or.inl rfl⟩
  | succ n ih =>
    intro s file offset blockSize hf
    unfold receiveLoop
    by_cases hlt : offset < fileSize
    · rw [if_pos hlt]
      dsimp only
      generalize usbRead s _ USB_TRANSFER_TIMEOUT = r
      by_cases hc : r.1 = []
      · rw [if_pos hc]
        exact ⟨_, _, rfl, Or.inr (Or.inr rfl)⟩
      · rw [if_neg hc]
        by_cases hk : isCancelChunk r.1 = true
        · rw [if_pos hk]
          exact ⟨_, _, rfl, Or.inr (Or.inl rfl)⟩
        · rw [if_neg hk]
          apply ih
          have : 0 < r.1.length := List.length_pos.mpr hc
          omega
    · rw [if_neg hlt]
      exact ⟨_, _, rfl, Or.inl rfl⟩

theorem receiveFile_total (s : UsbManager) (fileSize : Int) (filename fullPath : QString)
    (file : QFile) :
    ∃ st s1, receiveFile s fileSize filename fullPath file = Except.ok (st, s1) ∧
      (st = USB_STATUS_SUCCESS ∨ st = USB_STATUS_HOST_IO_ERROR) := by
  unfold receiveFile
  dsimp only
  generalize hres : receiveLoop _ _ _ _ _ _ _ _ _ = res
  have hres1 : ∃ e s1, res = Except.ok (e, s1) ∧
      (e = LoopExit.completed ∨ e = LoopExit.returned USB_STATUS_SUCCESS ∨
        e = LoopExit.returned USB_STATUS_HOST_IO_ERROR) := by
    rw [← hres]
    exact receiveLoop_total _ _ _ _ _ _ _ _ _ (by omega)
  obtain ⟨e, s3, he, hcase⟩ := hres1
  subst he
  rcases hcase with h | h | h
  · subst h
    dsimp only
    split_ifs
    · exact ⟨_, _, rfl, Or.inl rfl⟩
    · exact ⟨_, _, rfl, Or.inl rfl⟩
  · subst h; exact ⟨_, _, rfl, Or.inl rfl⟩
  · subst h; exact ⟨_, _, rfl, Or.inr rfl⟩

theorem finishOrReceive_total (s : UsbManager) (fileSize : Int) (filename fullPath : QString)
    (file : QFile) :
    ∃ st s1, finishOrReceive s fileSize filename fullPath file = Except.ok (st, s1) ∧
      (st = USB_STATUS_SUCCESS ∨ st = USB_STATUS_HOST_IO_ERROR) := by
  unfold finishOrReceive
  split_ifs
  · exact ⟨_, _, rfl, Or.inl rfl⟩
  · exact receiveFile_total _ _ _ _ _

theorem handleSendFileProperties_cases (s : UsbManager) (cmdBlock : QByteArray)
    (h : 16 ≤ cmdBlock.length) :
    (((s.m_nspTransferMode = false ∧ readI64 cmdBlock 0 ≠ 0 ∧
          (readU32 cmdBlock 12 : Int) ≥ readI64 cmdBlock 0) ∨
        (s.m_nspTransferMode = true ∧ readU32 cmdBlock 12 ≠ 0)) →
      handleSendFileProperties s cmdBlock = Except.ok (USB_STATUS_MALFORMED_CMD, s)) ∧
    (¬ ((s.m_nspTransferMode = false ∧ readI64 cmdBlock 0 ≠ 0 ∧
          (readU32 cmdBlock 12 : Int) ≥ readI64 cmdBlock 0) ∨
        (s.m_nspTransferMode = true ∧ readU32 cmdBlock 12 ≠ 0)) →
      ∃ st s1, handleSendFileProperties s cmdBlock = Except.ok (st, s1) ∧
        (st = USB_STATUS_SUCCESS ∨ st = USB_STATUS_HOST_IO_ERROR)) := by
  have hlen : ¬ cmdBlock.length < 16 := by omega
  constructor
  · intro hc
    unfold handleSendFileProperties
    rw [if_neg hlen]
    dsimp only
    by_cases h1 : s.m_nspTransferMode = false ∧ readI64 cmdBlock 0 ≠ 0 ∧
          (readU32 cmdBlock 12 : Int) ≥ readI64 cmdBlock 0
    · rw [if_pos h1]
    · rw [if_neg h1, if_pos (hc.resolve_left h1)]
  · intro hc
    rw [not_or] at hc
    unfold handleSendFileProperties
    rw [if_neg hlen]
    dsimp only
    rw [if_neg hc.1, if_neg hc.2]
    generalize enableNspTransferMode s _ _ = s1
    by_cases hr : s1.m_nspTransferMode = false ∨ s1.m_nspFile = none
    · rw [if_pos hr]
      split_ifs
      · exact ⟨_, _, rfl, Or.inr rfl⟩
      · exact ⟨_, _, rfl, Or.inr rfl⟩
      · exact ⟨_, _, rfl, Or.inr rfl⟩
      · exact finishOrReceive_total _ _ _ _ _
    · rw [if_neg hr]
      rw [not_or] at hr
      cases hf : s1.m_nspFile with
      | none => exact absurd hf hr.2
      | some f => exact finishOrReceive_total _ _ _ _ _

/-! ## C1 – C3: the extra byte of packet-aligned reads, and short reads -/

/-- C1 (the code departs from the claim). A single file of 512 bytes at max packet
size 512: the console streams the 512 payload bytes `0xAA` followed by the sentinel
byte `0xFF`.  The handler requests 513 bytes in one read, returns SUCCESS, and the
output file `/o/p` holds all 513 bytes, the sentinel included, instead of exactly
the 512 payload bytes. -/
theorem handleSendFileProperties_aligned_file_keeps_sentinel :
    statusOf (handleSendFileProperties
        (idleManager 512 [delivered (List.replicate 512 0xAA ++ [0xFF])] [accepted])
        (filePropertiesBlock 512 0 [0x70])) = some USB_STATUS_SUCCESS ∧
    (stateOf (handleSendFileProperties
        (idleManager 512 [delivered (List.replicate 512 0xAA ++ [0xFF])] [accepted])
        (filePropertiesBlock 512 0 [0x70]))).map
      (fun s => (readsOf s.trace, s.fs.files [0x2F, 0x6F, 0x2F, 0x70])) =
      some ([513], some (List.replicate 512 0xAA ++ [0xFF])) := by
  decide

/-- C2 (the code departs from the claim). In an NSP transfer with all entries
received (reserve 0x200), the console sends the header `NXDT | 3 | 0x200 | 0` at max
packet size 512 and the transport delivers the 0x201 bytes requested.  The
iteration ends by `break` at the block read: no status is written and the NSP
header is not patched (the session is still in NSP mode). -/
theorem commandHandlerIteration_aligned_block_breaks :
    (readCommand (nspManager 512 0x400 0x200 0x200
        [delivered (commandHeaderBytes USB_MAGIC_WORD USB_CMD_SEND_NSP_HEADER 0x200),
         delivered (List.replicate 0x201 0x11)] [accepted])).1 = none ∧
    ctlOf (commandHandlerIteration (nspManager 512 0x400 0x200 0x200
        [delivered (commandHeaderBytes USB_MAGIC_WORD USB_CMD_SEND_NSP_HEADER 0x200),
         delivered (List.replicate 0x201 0x11)] [accepted])) = some LoopCtl.stop ∧
    (stateOf (commandHandlerIteration (nspManager 512 0x400 0x200 0x200
        [delivered (commandHeaderBytes USB_MAGIC_WORD USB_CMD_SEND_NSP_HEADER 0x200),
         delivered (List.replicate 0x201 0x11)] [accepted]))).map
      (fun s => (readsOf s.trace, writesOf s.trace, s.m_nspTransferMode)) =
      some ([16, 0x201], [], true) := by
  decide

/-- C3 (the code departs from the claim). A single file of 8 MiB at max packet size
512: the only chunk is requested as 0x800001 bytes and the console answers with the
16-byte packet `NXDT | 2 | 0 | 0`.  `usbRead` rejects the short transfer, so the
handler removes the partial file `/o/p` and returns HOST_IO_ERROR (8), not
SUCCESS. -/
theorem handleSendFileProperties_inband_cancel_is_io_error :
    statusOf (handleSendFileProperties
        (idleManager 512 [delivered cancelPacket] [accepted])
        (filePropertiesBlock 0x800000 0 [0x70])) = some USB_STATUS_HOST_IO_ERROR ∧
    (stateOf (handleSendFileProperties
        (idleManager 512 [delivered cancelPacket] [accepted])
        (filePropertiesBlock 0x800000 0 [0x70]))).map
      (fun s => (readsOf s.trace, s.fs.files [0x2F, 0x6F, 0x2F, 0x70])) =
      some ([0x800001], none) := by
  decide

/-! ## C4 – C6: validation, entering NSP mode, the NSP header -/

/-- C4, counterexample to the claim as stated. Outside NSP mode a block with
`fileSize = -1` and `nspHeaderSize = 0` is answered MALFORMED_CMD although
`fileSize > 0` fails: the stated condition is not necessary. -/
theorem handleSendFileProperties_negative_size_refutes :
    readI64 (filePropertiesBlock (2 ^ 64 - 1) 0 [0x70]) 0 = -1 ∧
    ¬ (statusOf (handleSendFileProperties (idleManager 512 [] [])
          (filePropertiesBlock (2 ^ 64 - 1) 0 [0x70])) = some USB_STATUS_MALFORMED_CMD ↔
        (((idleManager 512 [] []).m_nspTransferMode = false ∧
            0 < readI64 (filePropertiesBlock (2 ^ 64 - 1) 0 [0x70]) 0 ∧
            (readU32 (filePropertiesBlock (2 ^ 64 - 1) 0 [0x70]) 12 : Int) ≥
              readI64 (filePropertiesBlock (2 ^ 64 - 1) 0 [0x70]) 0) ∨
          ((idleManager 512 [] []).m_nspTransferMode = true ∧
            readU32 (filePropertiesBlock (2 ^ 64 - 1) 0 [0x70]) 12 ≠ 0))) := by
  decide

/-- C4, amended. For every state and every block of at least 16 bytes,
`handleSendFileProperties` returns, and it returns MALFORMED_CMD (7) exactly when
(not in NSP mode and `fileSize != 0` and `nspHeaderSize >= fileSize`) or (in NSP
mode and `nspHeaderSize != 0`); whenever it returns MALFORMED_CMD the whole state
is the one it was called in: NSP state, files, bulk queues and trace (no status
sent, nothing read). -/
theorem handleSendFileProperties_malformed_iff (s : UsbManager) (cmdBlock : QByteArray)
    (h : 16 ≤ cmdBlock.length) :
    ∃ st s1, handleSendFileProperties s cmdBlock = Except.ok (st, s1) ∧
      (st = USB_STATUS_MALFORMED_CMD ↔
        ((s.m_nspTransferMode = false ∧ readI64 cmdBlock 0 ≠ 0 ∧
            (readU32 cmdBlock 12 : Int) ≥ readI64 cmdBlock 0) ∨
          (s.m_nspTransferMode = true ∧ readU32 cmdBlock 12 ≠ 0))) ∧
      (st = USB_STATUS_MALFORMED_CMD → s1 = s) := by
  obtain ⟨hbad, hgood⟩ := handleSendFileProperties_cases s cmdBlock h
  by_cases hc : (s.m_nspTransferMode = false ∧ readI64 cmdBlock 0 ≠ 0 ∧
            (readU32 cmdBlock 12 : Int) ≥ readI64 cmdBlock 0) ∨
          (s.m_nspTransferMode = true ∧ readU32 cmdBlock 12 ≠ 0)
  · exact ⟨_, _, hbad hc, ⟨fun _ => hc, fun _ => rfl⟩, fun _ => rfl⟩
  · obtain ⟨st, s1, hr, hst⟩ := hgood hc
    have hne : st ≠ USB_STATUS_MALFORMED_CMD := by
      rcases hst with h0 | h8 <;> subst_vars <;> decide
    exact ⟨st, s1, hr, ⟨fun h7 => absurd h7 hne, fun h7 => absurd h7 hc⟩,
      fun h7 => absurd h7 hne⟩

/-- C4, the amended statement at a concrete input: outside NSP mode the block
`fileSize = 5`, `nspHeaderSize = 5` is refused and nothing changes. -/
theorem handleSendFileProperties_malformed_iff_witness :
    16 ≤ (filePropertiesBlock 5 5 [0x70]).length ∧
    handleSendFileProperties (idleManager 512 [] []) (filePropertiesBlock 5 5 [0x70]) =
      Except.ok (USB_STATUS_MALFORMED_CMD, idleManager 512 [] []) := by
  refine ⟨by decide, ?_⟩
  obtain ⟨st, s1, hr, hiff, hsame⟩ := handleSendFileProperties_malformed_iff
    (idleManager 512 [] []) (filePropertiesBlock 5 5 [0x70]) (by decide)
  have hst : st = USB_STATUS_MALFORMED_CMD := hiff.2 (Or.inl (by decide))
  rw [hr, hst, hsame hst]

/-- C5. A SendFileProperties block with `0 < nspHeaderSize < fileSize`, received
outside NSP mode (mode off, no NSP file held), whose path is not a directory, has
enough free space and can be opened: the handler returns SUCCESS; it sends no
status and reads nothing (trace and both bulk queues are as before); the output
file holds exactly `nspHeaderSize` zero bytes and no other file changes; and the
NSP state is mode = true, total = `fileSize`, reserve = `nspHeaderSize`,
remaining = `fileSize - nspHeaderSize`, with the handle of the output file (at
position `nspHeaderSize`) and its path retained. -/
theorem handleSendFileProperties_enters_nsp_mode (s : UsbManager) (cmdBlock : QByteArray)
    (hlen : 16 ≤ cmdBlock.length)
    (hmode : s.m_nspTransferMode = false) (hfile : s.m_nspFile = none)
    (hpos : 0 < readU32 cmdBlock 12)
    (hlt : (readU32 cmdBlock 12 : Int) < readI64 cmdBlock 0)
    (hdir : s.fs.isDir (filePath s.m_outputDir (mid cmdBlock 16 (readU32 cmdBlock 8))) = false)
    (hspace : readI64 cmdBlock 0 ≤
      s.fs.bytesAvailable (filePath s.m_outputDir (mid cmdBlock 16 (readU32 cmdBlock 8))))
    (hopen : s.fs.canOpen (filePath s.m_outputDir (mid cmdBlock 16 (readU32 cmdBlock 8))) = true) :
    ∃ s1, handleSendFileProperties s cmdBlock = Except.ok (USB_STATUS_SUCCESS, s1) ∧
      s1.trace = s.trace ∧ s1.usbIn = s.usbIn ∧ s1.usbOut = s.usbOut ∧
      s1.fs.files (filePath s.m_outputDir (mid cmdBlock 16 (readU32 cmdBlock 8))) =
        some (List.replicate (readU32 cmdBlock 12) 0) ∧
      (∀ q, q ≠ filePath s.m_outputDir (mid cmdBlock 16 (readU32 cmdBlock 8)) →
        s1.fs.files q = s.fs.files q) ∧
      s1.nspState = (true, readI64 cmdBlock 0, (readU32 cmdBlock 12 : Int),
        readI64 cmdBlock 0 - readU32 cmdBlock 12,
        some { path := filePath s.m_outputDir (mid cmdBlock 16 (readU32 cmdBlock 8)),
               pos := readU32 cmdBlock 12 },
        filePath s.m_outputDir (mid cmdBlock 16 (readU32 cmdBlock 8))) := by
  have h16 : ¬ cmdBlock.length < 16 := by omega
  have hfs : readI64 cmdBlock 0 ≠ 0 := by omega
  have hh : readU32 cmdBlock 12 ≠ 0 := by omega
  have hv1 : ¬ (s.m_nspTransferMode = false ∧ readI64 cmdBlock 0 ≠ 0 ∧
      (readU32 cmdBlock 12 : Int) ≥ readI64 cmdBlock 0) := by
    rintro ⟨-, -, h⟩; omega
  have hv2 : ¬ (s.m_nspTransferMode = true ∧ readU32 cmdBlock 12 ≠ 0) := by
    rintro ⟨h, -⟩; rw [hmode] at h; cases h
  have hen : enableNspTransferMode s (readI64 cmdBlock 0) (readU32 cmdBlock 12) =
      { s with m_nspTransferMode := true, m_nspSize := readI64 cmdBlock 0,
               m_nspHeaderSize := readU32 cmdBlock 12,
               m_nspRemainingSize := readI64 cmdBlock 0 - readU32 cmdBlock 12 } := by
    unfold enableNspTransferMode
    rw [if_pos ⟨hmode, hfs, hh⟩]
  unfold handleSendFileProperties
  rw [if_neg h16]
  dsimp only
  rw [if_neg hv1, if_neg hv2, hen]
  dsimp only
  rw [if_pos (Or.inr hfile), if_neg (by rw [hdir]; simp), if_neg (by omega),
    if_neg (by rw [hopen]; simp)]
  unfold openOutputFile finishOrReceive
  dsimp only
  rw [if_pos rfl]
  dsimp only
  rw [if_pos (Or.inr ⟨rfl, rfl⟩)]
  refine ⟨_, rfl, rfl, rfl, rfl, ?_, ?_, ?_⟩
  · simp [QFile.write, FileSystem.set, writeAt]
  · intro q hq
    simp [QFile.write, FileSystem.set, hq]
  · simp [UsbManager.nspState, QFile.write]

/-- C5 at a concrete input: scenario 4 of the specification, `fileSize = 0x1000`,
`nspHeaderSize = 0x200`, name `g`, on an empty disk. -/
theorem handleSendFileProperties_enters_nsp_mode_witness :
    16 ≤ (filePropertiesBlock 0x1000 0x200 [0x67]).length ∧
    (idleManager 512 [] []).m_nspTransferMode = false ∧
    statusOf (handleSendFileProperties (idleManager 512 [] [])
      (filePropertiesBlock 0x1000 0x200 [0x67])) = some USB_STATUS_SUCCESS := by
  refine ⟨by decide, by decide, ?_⟩
  obtain ⟨s1, hr, -⟩ := handleSendFileProperties_enters_nsp_mode
    (idleManager 512 [] []) (filePropertiesBlock 0x1000 0x200 [0x67])
    (by decide) (by decide) (by decide) (by decide) (by decide) (by decide) (by decide)
    (by decide)
  rw [hr]
  rfl

/-- C6. In every state in which NSP mode implies that the NSP file is held,
`handleSendNspHeader` returns; the status is SUCCESS exactly when the session is
in NSP mode, `remaining == 0` and the block length equals `reserve`, and
MALFORMED_CMD (7) with the state untouched in every other case.  On SUCCESS the
NSP file starts with the block, everything in it from offset `reserve` on is as
before, no other file changes, nothing is sent or read, and the NSP state is
cleared: mode false, total = reserve = remaining = 0, no file, empty path. -/
theorem handleSendNspHeader_spec (s : UsbManager) (cmdBlock : QByteArray)
    (hwf : s.m_nspTransferMode = true → s.m_nspFile ≠ none) :
    ∃ st s1, handleSendNspHeader s cmdBlock = Except.ok (st, s1) ∧
      (st = USB_STATUS_SUCCESS ↔
        (s.m_nspTransferMode = true ∧ s.m_nspRemainingSize = 0 ∧
          (cmdBlock.length : Int) = s.m_nspHeaderSize)) ∧
      (st ≠ USB_STATUS_SUCCESS → st = USB_STATUS_MALFORMED_CMD ∧ s1 = s) ∧
      (st = USB_STATUS_SUCCESS →
        s1.nspState = (false, 0, 0, 0, none, []) ∧ s1.trace = s.trace ∧
        s1.usbIn = s.usbIn ∧ s1.usbOut = s.usbOut ∧
        ∀ f, s.m_nspFile = some f →
          (∃ c, s1.fs.files f.path = some c ∧ c.take cmdBlock.length = cmdBlock ∧
            c.drop cmdBlock.length =
              ((s.fs.files f.path).getD []).drop cmdBlock.length) ∧
          ∀ q, q ≠ f.path → s1.fs.files q = s.fs.files q) := by
  unfold handleSendNspHeader
  by_cases hm : s.m_nspTransferMode = false
  · rw [if_pos hm]
    refine ⟨_, _, rfl, ⟨fun h => absurd h (by decide), fun h => ?_⟩,
      fun _ => ⟨rfl, rfl⟩, fun h => absurd h (by decide)⟩
    rw [hm] at h
    exact absurd h.1 (by decide)
  · rw [if_neg hm]
    have hmt : s.m_nspTransferMode = true := by
      cases hb : s.m_nspTransferMode
      · exact absurd hb hm
      · rfl
    by_cases hr : s.m_nspRemainingSize ≠ 0
    · rw [if_pos hr]
      exact ⟨_, _, rfl, ⟨fun h => absurd h (by decide), fun h => absurd h.2.1 hr⟩,
        fun _ => ⟨rfl, rfl⟩, fun h => absurd h (by decide)⟩
    · rw [if_neg hr]
      by_cases hl : (cmdBlock.length : Int) ≠ s.m_nspHeaderSize
      · rw [if_pos hl]
        exact ⟨_, _, rfl, ⟨fun h => absurd h (by decide), fun h => absurd h.2.2 hl⟩,
          fun _ => ⟨rfl, rfl⟩, fun h => absurd h (by decide)⟩
      · rw [if_neg hl]
        cases hf : s.m_nspFile with
        | none => exact absurd hf (hwf hmt)
        | some f =>
          dsimp only
          refine ⟨_, _, rfl, ⟨fun _ => ⟨hmt, not_not.mp hr, not_not.mp hl⟩, fun _ => rfl⟩,
            fun h => absurd rfl h, fun _ => ⟨?_, ?_, ?_, ?_, ?_⟩⟩
          · simp [resetNspInfo, UsbManager.nspState]
          · simp [resetNspInfo]
          · simp [resetNspInfo]
          · simp [resetNspInfo]
          · intro g hg
            cases hg
            refine ⟨⟨writeAt ((s.fs.files f.path).getD []) 0 cmdBlock, ?_, ?_, ?_⟩, ?_⟩
            · simp [resetNspInfo, QFile.write, FileSystem.set]
            · simp [writeAt]
            · simp [writeAt]
            · intro q hq
              simp [resetNspInfo, QFile.write, FileSystem.set, hq]

/-- C6 at a concrete input: an NSP transfer into `/o/g` with reserve 0x200 and all
0x200 payload bytes received accepts a 0x200-byte header block. -/
theorem handleSendNspHeader_spec_witness :
    ((nspManager 512 0x400 0x200 0x200 [] []).m_nspTransferMode = true →
      (nspManager 512 0x400 0x200 0x200 [] []).m_nspFile ≠ none) ∧
    statusOf (handleSendNspHeader (nspManager 512 0x400 0x200 0x200 [] [])
      (List.replicate 0x200 0x22)) = some USB_STATUS_SUCCESS := by
  refine ⟨by decide, ?_⟩
  obtain ⟨st, s1, hr, hiff, -⟩ := handleSendNspHeader_spec
    (nspManager 512 0x400 0x200 0x200 [] []) (List.replicate 0x200 0x22) (by decide)
  have hst : st = USB_STATUS_SUCCESS := hiff.2 (by decide)
  rw [hr, hst]
  rfl

/-! ## C7 – C8: NSP accounting, the ABI check -/

/-- C7 (the code departs from the claim). An NSP transfer with total 0x400 and
reserve 0x200 (remaining 0x200) receives one entry of `fileSize = 0x200` at max
packet size 512; every read succeeds.  The handler reads 0x201 bytes and subtracts
the size of the chunk, so `remaining` ends at -1 instead of `0x200 - 0x200 = 0`,
and the SendNspHeader that follows, with a block of `reserve` bytes, is refused
with MALFORMED_CMD although the entry sizes sum to total - reserve. -/
theorem handleSendFileProperties_aligned_entry_overcounts :
    (nspManager 512 0x400 0x200 0 [delivered (List.replicate 0x201 0x11)]
        [accepted]).m_nspRemainingSize = 0x200 ∧
    statusOf (handleSendFileProperties
        (nspManager 512 0x400 0x200 0 [delivered (List.replicate 0x201 0x11)] [accepted])
        (filePropertiesBlock 0x200 0 [0x65])) = some USB_STATUS_SUCCESS ∧
    (stateOf (handleSendFileProperties
        (nspManager 512 0x400 0x200 0 [delivered (List.replicate 0x201 0x11)] [accepted])
        (filePropertiesBlock 0x200 0 [0x65]))).map
      (fun s => (readsOf s.trace, s.m_nspRemainingSize,
        statusOf (handleSendNspHeader s (List.replicate 0x200 0x22)))) =
      some ([0x201], -1, some USB_STATUS_MALFORMED_CMD) := by
  decide

theorem abi_byte (b : Byte) :
    ((b.val >>> 4) &&& 0x0F = 1 ∧ b.val &&& 0x0F = 2) ↔ b = 0x12 := by
  revert b
  decide

theorem handleStartSession_eq (s : UsbManager) (cmdBlock : QByteArray)
    (h : 16 ≤ cmdBlock.length) :
    handleStartSession s cmdBlock =
      Except.ok (if cmdBlock.getD 3 0 = 0x12 then USB_STATUS_SUCCESS
                 else USB_STATUS_UNSUPPORTED_ABI_VERSION,
        { s with m_nxdtVersionMajor := byteAt cmdBlock 0,
                 m_nxdtVersionMinor := byteAt cmdBlock 1,
                 m_nxdtVersionMicro := byteAt cmdBlock 2,
                 m_nxdtAbiVersionMajor := (byteAt cmdBlock 3 >>> 4) &&& 0x0F,
                 m_nxdtAbiVersionMinor := byteAt cmdBlock 3 &&& 0x0F }) := by
  have hlen : ¬ cmdBlock.length < 4 := by omega
  have hb := abi_byte (cmdBlock.getD 3 0)
  unfold handleStartSession
  rw [if_neg hlen]
  simp only [byteAt, USB_ABI_VERSION_MAJOR, USB_ABI_VERSION_MINOR, ne_eq] at hb ⊢
  by_cases h3 : cmdBlock.getD 3 0 = 0x12
  · rw [if_neg (by rw [not_or, not_not, not_not]; exact hb.2 h3), if_pos h3]
  · rw [if_pos (by
      by_contra hc
      rw [not_or, not_not, not_not] at hc
      exact h3 (hb.1 hc)), if_neg h3]

/-- C8. For every command block of at least 16 bytes `handleStartSession` returns;
it records ABI major `(b >> 4) & 0x0F` and minor `b & 0x0F` of byte 3; the status
is SUCCESS (0) when byte 3 is 0x12, that is exactly when major is 1 and minor is 2,
and UNSUPPORTED_ABI_VERSION (6) otherwise; two blocks with the same byte 3 get the
same status; the NSP state, the files and the trace are unchanged. -/
theorem handleStartSession_abi_check (s : UsbManager) (cmdBlock : QByteArray)
    (h : 16 ≤ cmdBlock.length) :
    ∃ s1, handleStartSession s cmdBlock =
        Except.ok (if cmdBlock.getD 3 0 = 0x12 then USB_STATUS_SUCCESS
                   else USB_STATUS_UNSUPPORTED_ABI_VERSION, s1) ∧
      s1.m_nxdtAbiVersionMajor = (byteAt cmdBlock 3 >>> 4) &&& 0x0F ∧
      s1.m_nxdtAbiVersionMinor = byteAt cmdBlock 3 &&& 0x0F ∧
      (cmdBlock.getD 3 0 = 0x12 ↔
        (s1.m_nxdtAbiVersionMajor = USB_ABI_VERSION_MAJOR ∧
          s1.m_nxdtAbiVersionMinor = USB_ABI_VERSION_MINOR)) ∧
      (∀ other : QByteArray, 16 ≤ other.length → other.getD 3 0 = cmdBlock.getD 3 0 →
        statusOf (handleStartSession s other) = statusOf (handleStartSession s cmdBlock)) ∧
      s1.nspState = s.nspState ∧ s1.fs = s.fs ∧ s1.trace = s.trace := by
  refine ⟨_, handleStartSession_eq s cmdBlock h, rfl, rfl, ?_, ?_, rfl, rfl, rfl⟩
  · exact (abi_byte (cmdBlock.getD 3 0)).symm
  · intro other ho h3
    rw [handleStartSession_eq s other ho, handleStartSession_eq s cmdBlock h, h3]
    rfl

/-- C8 at the inputs of scenario 1: the block `1 2 3 0x12 "abcdef12" 0 0 0 0` is
accepted, the same block with byte 3 = 0x13 is refused with status 6. -/
theorem handleStartSession_abi_check_witness :
    16 ≤ (startSessionBlock 0x12).length ∧ 16 ≤ (startSessionBlock 0x13).length ∧
    statusOf (handleStartSession (idleManager 512 [] []) (startSessionBlock 0x12)) =
      some USB_STATUS_SUCCESS ∧
    statusOf (handleStartSession (idleManager 512 [] []) (startSessionBlock 0x13)) =
      some USB_STATUS_UNSUPPORTED_ABI_VERSION := by
  refine ⟨by decide, by decide, ?_, ?_⟩
  · obtain ⟨s1, hr, -⟩ := handleStartSession_abi_check (idleManager 512 [] [])
      (startSessionBlock 0x12) (by decide)
    rw [hr]
    rfl
  · obtain ⟨s1, hr, -⟩ := handleStartSession_abi_check (idleManager 512 [] [])
      (startSessionBlock 0x13) (by decide)
    rw [hr]
    rfl

/-! ## C9 – C10: when the dispatcher loop goes on -/

theorem usbSendStatus_true_no_stop (s : UsbManager) (code : Nat)
    (h : (usbSendStatus s code).1 = true) :
    (usbSendStatus s code).2.m_stopRequested = false :=
  usbWrite_true_no_stop s _ _ h

theorem commandHandlerIteration_of_read (s : UsbManager) (cmdHeader cmdBlock : QByteArray)
    (hread : (readCommand s).1 = some (cmdHeader, cmdBlock)) :
    commandHandlerIteration s = processCommand (readCommand s).2 cmdHeader cmdBlock := by
  unfold commandHandlerIteration
  generalize readCommand s = r at hread ⊢
  obtain ⟨r1, r2⟩ := r
  dsimp only at hread
  subst hread
  rfl

/-- C9, counterexample to the claim as stated. The header `00 00 00 00 | 4 | 0 | 0`
(wrong magic, cmdId EndSession, no block) is read and answered with a status that
is written successfully.  The claim has the loop terminate, the cmdId being 4; the
iteration ends without `break`, no stop is pending, and the loop goes on to read
the next header (a second 16-byte read is made). -/
theorem commandHandlerIteration_bad_magic_end_session_goes_on :
    (readCommand (idleManager 512 [delivered (commandHeaderBytes [0, 0, 0, 0] 4 0)]
        [accepted])).1 = some (commandHeaderBytes [0, 0, 0, 0] 4 0, []) ∧
    readU32 (commandHeaderBytes [0, 0, 0, 0] 4 0) 4 = USB_CMD_END_SESSION ∧
    ctlOf (commandHandlerIteration (idleManager 512
        [delivered (commandHeaderBytes [0, 0, 0, 0] 4 0)] [accepted])) = some LoopCtl.next ∧
    (stateOf (commandHandlerIteration (idleManager 512
        [delivered (commandHeaderBytes [0, 0, 0, 0] 4 0)] [accepted]))).map
      (fun s => (s.m_stopRequested, writesOf s.trace)) =
      some (false, [(statusPacket USB_STATUS_INVALID_MAGIC_WORD 512, true)]) ∧
    (commandHandlerLoop 2 (idleManager 512
        [delivered (commandHeaderBytes [0, 0, 0, 0] 4 0)] [accepted])).toOption.map
      (fun s => readsOf s.trace) = some [16, 16] := by
  decide

/-- C9, amended. Take an iteration of the dispatcher loop in which the header and
its block were read.  If the magic is `NXDT` and the routed handler returns a
status, the iteration writes that status and the loop terminates after it (by
`break`, or at the loop condition because a stop is pending) if and only if the
status write failed, or cmdId is EndSession (4), or the status is
UNSUPPORTED_ABI_VERSION (6).  If the magic is not `NXDT`, the iteration never ends
by `break`, whatever the cmdId, and when its status write succeeded no stop is
pending, so the loop goes on. -/
theorem commandHandlerIteration_terminates_iff (s : UsbManager)
    (cmdHeader cmdBlock : QByteArray)
    (hread : (readCommand s).1 = some (cmdHeader, cmdBlock)) :
    (cmdHeader.take 4 = USB_MAGIC_WORD →
      ∀ st s1, routeCommand (readCommand s).2 (readU32 cmdHeader 4) cmdBlock
          = Except.ok (st, s1) →
        ∃ c, commandHandlerIteration s = Except.ok (c, (usbSendStatus s1 st).2) ∧
          ((c = LoopCtl.stop ∨ (usbSendStatus s1 st).2.m_stopRequested = true) ↔
            ((usbSendStatus s1 st).1 = false ∨ readU32 cmdHeader 4 = USB_CMD_END_SESSION ∨
              st = USB_STATUS_UNSUPPORTED_ABI_VERSION))) ∧
    (cmdHeader.take 4 ≠ USB_MAGIC_WORD →
      commandHandlerIteration s = Except.ok (LoopCtl.next,
        (usbSendStatus (readCommand s).2 USB_STATUS_INVALID_MAGIC_WORD).2) ∧
      ((usbSendStatus (readCommand s).2 USB_STATUS_INVALID_MAGIC_WORD).1 = true →
        (usbSendStatus (readCommand s).2 USB_STATUS_INVALID_MAGIC_WORD).2.m_stopRequested
          = false)) := by
  rw [commandHandlerIteration_of_read s cmdHeader cmdBlock hread]
  constructor
  · intro hmagic st s1 hroute
    unfold processCommand
    rw [if_neg (not_not.mpr hmagic), hroute]
    dsimp only
    by_cases hc : (usbSendStatus s1 st).1 = false ∨
        readU32 cmdHeader 4 = USB_CMD_END_SESSION ∨ st = USB_STATUS_UNSUPPORTED_ABI_VERSION
    · rw [if_pos hc]
      exact ⟨_, rfl, fun _ => hc, fun _ => Or.inl rfl⟩
    · rw [if_neg hc]
      refine ⟨_, rfl, fun h => ?_, fun h => absurd h hc⟩
      have hok : (usbSendStatus s1 st).1 = true := by
        cases hb : (usbSendStatus s1 st).1
        · exact absurd (Or.inl hb) hc
        · rfl
      have hns := usbSendStatus_true_no_stop s1 st hok
      rcases h with h | h
      · cases h
      · rw [hns] at h
        cases h
  · intro hmagic
    unfold processCommand
    rw [if_pos hmagic]
    exact ⟨rfl, usbSendStatus_true_no_stop _ _⟩

/-- C9, the amended statement at a concrete input: the header `NXDT | 4 | 0 | 0` is
read, EndSession returns SUCCESS, and the loop terminates after the status. -/
theorem commandHandlerIteration_terminates_iff_witness :
    (readCommand (idleManager 512
        [delivered (commandHeaderBytes USB_MAGIC_WORD USB_CMD_END_SESSION 0)]
        [accepted])).1 = some (commandHeaderBytes USB_MAGIC_WORD USB_CMD_END_SESSION 0, []) ∧
    ∃ c s2, commandHandlerIteration (idleManager 512
        [delivered (commandHeaderBytes USB_MAGIC_WORD USB_CMD_END_SESSION 0)]
        [accepted]) = Except.ok (c, s2) ∧
      (c = LoopCtl.stop ∨ s2.m_stopRequested = true) := by
  refine ⟨by decide, ?_⟩
  obtain ⟨c, hc, hiff⟩ := (commandHandlerIteration_terminates_iff
    (idleManager 512 [delivered (commandHeaderBytes USB_MAGIC_WORD USB_CMD_END_SESSION 0)]
      [accepted])
    (commandHeaderBytes USB_MAGIC_WORD USB_CMD_END_SESSION 0) [] (by decide)).1 (by decide)
    USB_STATUS_SUCCESS _ rfl
  exact ⟨c, _, hc, hiff.2 (Or.inr (Or.inl (by decide)))⟩

/-- C10. Take an iteration of the dispatcher loop that read a header whose first
four bytes are not `NXDT` (whatever its cmdId) and the block it declares.  The
iteration ends without `break`; after the reads it does one thing only, the write
of one status with code INVALID_MAGIC_WORD (4), so no handler runs: NSP state and
files are as before.  The loop therefore continues from the state reached, and
unless a stop request arrived meanwhile (none has when the status write
succeeded) its next step is another iteration, which starts with the read of the
next header. -/
theorem commandHandlerIteration_invalid_magic (s : UsbManager)
    (cmdHeader cmdBlock : QByteArray)
    (hread : (readCommand s).1 = some (cmdHeader, cmdBlock))
    (hmagic : cmdHeader.take 4 ≠ USB_MAGIC_WORD) :
    ∃ ok s1, commandHandlerIteration s = Except.ok (LoopCtl.next, s1) ∧
      s1.trace = (readCommand s).2.trace ++
        [Event.usbWrite (statusPacket USB_STATUS_INVALID_MAGIC_WORD s.m_epMaxPacketSize) ok] ∧
      writesOf s1.trace = writesOf s.trace ++
        [(statusPacket USB_STATUS_INVALID_MAGIC_WORD s.m_epMaxPacketSize, ok)] ∧
      s1.nspState = s.nspState ∧ s1.fs = s.fs ∧ s1.usbIn = (readCommand s).2.usbIn ∧
      (ok = true → s1.m_stopRequested = false) ∧
      (s.m_stopRequested = false → ∀ fuel,
        commandHandlerLoop (fuel + 1) s = commandHandlerLoop fuel s1) ∧
      (s.m_stopRequested = false → s1.m_stopRequested = false → ∀ fuel,
        commandHandlerLoop (fuel + 2) s =
          match commandHandlerIteration s1 with
          | Except.error e => Except.error e
          | Except.ok (LoopCtl.stop, s2) => Except.ok s2
          | Except.ok (LoopCtl.next, s2) => commandHandlerLoop fuel s2) := by
  obtain ⟨hn, hf, -, hm, hw⟩ := readCommand_frame s
  have hiter : commandHandlerIteration s = Except.ok (LoopCtl.next,
      (usbSendStatus (readCommand s).2 USB_STATUS_INVALID_MAGIC_WORD).2) := by
    rw [commandHandlerIteration_of_read s cmdHeader cmdBlock hread]
    unfold processCommand
    rw [if_pos hmagic]
  have hloop : s.m_stopRequested = false → ∀ fuel, commandHandlerLoop (fuel + 1) s =
      commandHandlerLoop fuel
        (usbSendStatus (readCommand s).2 USB_STATUS_INVALID_MAGIC_WORD).2 := by
    intro hs fuel
    rw [commandHandlerLoop, if_neg (by rw [hs]; decide), hiter]
  refine ⟨(usbSendStatus (readCommand s).2 USB_STATUS_INVALID_MAGIC_WORD).1, _, hiter,
    ?_, ?_, ?_, ?_, ?_, usbSendStatus_true_no_stop _ _, hloop, ?_⟩
  · unfold usbSendStatus
    rw [usbWrite_trace, hm]
  · unfold usbSendStatus
    rw [usbWrite_trace, writesOf_append, hw, hm]
    rfl
  · unfold usbSendStatus
    rw [usbWrite_nspState, hn]
  · unfold usbSendStatus
    rw [usbWrite_fs, hf]
  · unfold usbSendStatus
    rw [usbWrite_usbIn]
  · intro hs hs1 fuel
    rw [hloop hs (fuel + 1), commandHandlerLoop, if_neg (by rw [hs1]; decide)]

/-- C10 at a concrete input: the header `XXDT | 4 | 0 | 0` with no block is
answered with INVALID_MAGIC_WORD and the iteration ends without `break`. -/
theorem commandHandlerIteration_invalid_magic_witness :
    (readCommand (idleManager 512
        [delivered (commandHeaderBytes [0x58, 0x58, 0x44, 0x54] 4 0)] [accepted])).1 =
      some (commandHeaderBytes [0x58, 0x58, 0x44, 0x54] 4 0, []) ∧
    (commandHeaderBytes [0x58, 0x58, 0x44, 0x54] 4 0).take 4 ≠ USB_MAGIC_WORD ∧
    ctlOf (commandHandlerIteration (idleManager 512
        [delivered (commandHeaderBytes [0x58, 0x58, 0x44, 0x54] 4 0)] [accepted])) =
      some LoopCtl.next := by
  refine ⟨by decide, by decide, ?_⟩
  obtain ⟨ok, s1, hr, -⟩ := commandHandlerIteration_invalid_magic
    (idleManager 512 [delivered (commandHeaderBytes [0x58, 0x58, 0x44, 0x54] 4 0)] [accepted])
    (commandHeaderBytes [0x58, 0x58, 0x44, 0x54] 4 0) [] (by decide) (by decide)
  rw [hr]
  rfl

/-! ## The receive loop, exit by exit -/

theorem readsOf_append (a b : List Event) : readsOf (a ++ b) = readsOf a ++ readsOf b := by
  induction a with
  | nil => rfl
  | cons e es ih => cases e <;> simp [readsOf, ih]

theorem chunksOf_append (a b : List Event) : chunksOf (a ++ b) = chunksOf a ++ chunksOf b := by
  induction a with
  | nil => rfl
  | cons e es ih => cases e <;> simp [chunksOf, ih]

theorem progressMarks_append (a b : List Event) :
    progressMarks (a ++ b) = progressMarks a ++ progressMarks b := by
  induction a with
  | nil => rfl
  | cons e es ih => cases e <;> simp [progressMarks, ih]

theorem receiveLoop_succ (fileSize : Int) (filename fullPath : QString)
    (useProgressBar : Bool) (fuel : Nat) (s : UsbManager) (file : QFile) (offset : Int)
    (blockSize : Nat) (hlt : offset < fileSize) :
    receiveLoop fileSize filename fullPath useProgressBar (fuel + 1) s file offset
        blockSize =
      if (usbRead s (chunkReadSize s fileSize offset blockSize) USB_TRANSFER_TIMEOUT).1 = [] then
        Except.ok (LoopExit.returned USB_STATUS_HOST_IO_ERROR,
          discardPartialFile
            (usbRead s (chunkReadSize s fileSize offset blockSize) USB_TRANSFER_TIMEOUT).2
            fullPath useProgressBar)
      else if isCancelChunk
          (usbRead s (chunkReadSize s fileSize offset blockSize) USB_TRANSFER_TIMEOUT).1 = true then
        Except.ok (LoopExit.returned USB_STATUS_SUCCESS,
          discardPartialFile
            (usbRead s (chunkReadSize s fileSize offset blockSize) USB_TRANSFER_TIMEOUT).2
            fullPath useProgressBar)
      else
        receiveLoop fileSize filename fullPath useProgressBar fuel
          (chunkReceived fileSize filename useProgressBar
            (usbRead s (chunkReadSize s fileSize offset blockSize) USB_TRANSFER_TIMEOUT).2
            file (usbRead s (chunkReadSize s fileSize offset blockSize) USB_TRANSFER_TIMEOUT).1
            (offset +
              (usbRead s (chunkReadSize s fileSize offset blockSize) USB_TRANSFER_TIMEOUT).1.length))
          (QFile.write
            (usbRead s (chunkReadSize s fileSize offset blockSize) USB_TRANSFER_TIMEOUT).2.fs file
            (usbRead s (chunkReadSize s fileSize offset blockSize) USB_TRANSFER_TIMEOUT).1).2
          (offset +
            (usbRead s (chunkReadSize s fileSize offset blockSize) USB_TRANSFER_TIMEOUT).1.length)
          (nextBlockSize fileSize offset blockSize) := by
  rw [receiveLoop, if_pos hlt]
  rfl

/-- Induction over the iterations of the receive loop: a relation between the
object at the loop head, the way the loop is left and the object then, holds as
soon as it holds for the three exits and is carried back over a received chunk. -/
theorem receiveLoop_induction (fileSize : Int) (filename fullPath : QString)
    (useProgressBar : Bool) (R : UsbManager → LoopExit → UsbManager → Prop)
    (hdone : ∀ s, R s LoopExit.completed s)
    (hfail : ∀ s n, (usbRead s n USB_TRANSFER_TIMEOUT).1 = [] →
      R s (LoopExit.returned USB_STATUS_HOST_IO_ERROR)
        (discardPartialFile (usbRead s n USB_TRANSFER_TIMEOUT).2 fullPath useProgressBar))
    (hcancel : ∀ s n, (usbRead s n USB_TRANSFER_TIMEOUT).1 ≠ [] →
      isCancelChunk (usbRead s n USB_TRANSFER_TIMEOUT).1 = true →
      R s (LoopExit.returned USB_STATUS_SUCCESS)
        (discardPartialFile (usbRead s n USB_TRANSFER_TIMEOUT).2 fullPath useProgressBar))
    (hstep : ∀ s n file off e s1, (usbRead s n USB_TRANSFER_TIMEOUT).1 ≠ [] →
      isCancelChunk (usbRead s n USB_TRANSFER_TIMEOUT).1 = false →
      R (chunkReceived fileSize filename useProgressBar (usbRead s n USB_TRANSFER_TIMEOUT).2
          file (usbRead s n USB_TRANSFER_TIMEOUT).1 off) e s1 →
      R s e s1) :
    ∀ (fuel : Nat) (s : UsbManager) (file : QFile) (offset : Int) (blockSize : Nat)
      (e : LoopExit) (s1 : UsbManager),
      receiveLoop fileSize filename fullPath useProgressBar fuel s file offset blockSize
        = Except.ok (e, s1) → R s e s1 := by
  intro fuel
  induction fuel with
  | zero =>
    intro s file offset blockSize e s1 h
    rw [receiveLoop] at h
    split_ifs at h
    cases h
    exact hdone s
  | succ k ih =>
    intro s file offset blockSize e s1 h
    by_cases hlt : offset < fileSize
    · rw [receiveLoop_succ fileSize filename fullPath useProgressBar k s file
        offset blockSize hlt] at h
      generalize chunkReadSize s fileSize offset blockSize = n at h
      by_cases hc : (usbRead s n USB_TRANSFER_TIMEOUT).1 = []
      · rw [if_pos hc] at h
        cases h
        exact hfail s n hc
      · rw [if_neg hc] at h
        by_cases hk : isCancelChunk (usbRead s n USB_TRANSFER_TIMEOUT).1 = true
        · rw [if_pos hk] at h
          cases h
          exact hcancel s n hc hk
        · rw [if_neg hk] at h
          exact hstep s n file _ e s1 hc (by simpa using hk) (ih _ _ _ _ _ _ h)
    · rw [receiveLoop, if_neg hlt] at h
      cases h
      exact hdone s

theorem usbReadPoll_queue (size : Nat) (timeout : Int) (q : List BulkIn) :
    ∀ stop, (usbReadPoll size timeout q stop).2.1.length ≤ q.length ∧
      ((usbReadPoll size timeout q stop).1 ≠ [] →
        (usbReadPoll size timeout q stop).2.1.length < q.length) := by
  induction q with
  | nil => intro stop; exact ⟨Nat.le_refl _, fun h => absurd rfl h⟩
  | cons t rest ih =>
    intro stop
    unfold usbReadPoll
    split_ifs with h1 h2 h3 h4 h5
    · exact ⟨Nat.le_refl _, fun h => absurd rfl h⟩
    · exact ⟨Nat.le_succ _, fun h => absurd rfl h⟩
    · obtain ⟨ha, hb⟩ := ih t.stop
      exact ⟨Nat.le_succ_of_le ha, fun h => Nat.lt_succ_of_lt (hb h)⟩
    · exact ⟨Nat.le_succ _, fun h => absurd rfl h⟩
    · exact ⟨Nat.le_succ _, fun h => absurd rfl h⟩
    · exact ⟨Nat.le_succ _, fun _ => Nat.lt_succ_self _⟩

theorem usbRead_usbIn (s : UsbManager) (size : Nat) (timeout : Int) :
    (usbRead s size timeout).2.usbIn.length ≤ s.usbIn.length ∧
      ((usbRead s size timeout).1 ≠ [] →
        (usbRead s size timeout).2.usbIn.length < s.usbIn.length) := by
  unfold usbRead
  split_ifs
  · exact ⟨Nat.le_refl _, fun h => absurd rfl h⟩
  · exact usbReadPoll_queue size timeout s.usbIn s.m_stopRequested

theorem usbReadPoll_stop (size : Nat) (timeout : Int) (q : List BulkIn) :
    ∀ stop, (usbReadPoll size timeout q stop).2.2 = true →
      (usbReadPoll size timeout q stop).1 = [] := by
  induction q with
  | nil => intro stop _; rfl
  | cons t rest ih =>
    intro stop
    unfold usbReadPoll
    split_ifs with h1 h2 h3 h4 h5
    · intro _; rfl
    · intro _; rfl
    · exact ih _
    · intro _; rfl
    · intro _; rfl
    · intro h
      exact absurd h h4

/-- A bulk read during which the stop flag is raised hands back nothing. -/
theorem usbRead_stop (s : UsbManager) (size : Nat) (timeout : Int)
    (h : (usbRead s size timeout).2.m_stopRequested = true) :
    (usbRead s size timeout).1 = [] := by
  by_cases hd : s.m_deviceHandle = false
  · simp [usbRead, hd]
  · simp only [usbRead, hd, if_false] at h ⊢
    exact usbReadPoll_stop _ _ _ _ h

theorem usbRead_fields (s : UsbManager) (size : Nat) (timeout : Int) :
    (usbRead s size timeout).2.m_deviceHandle = s.m_deviceHandle ∧
    (usbRead s size timeout).2.m_outputDir = s.m_outputDir ∧
    (usbRead s size timeout).2.m_disableFreeSpaceCheck = s.m_disableFreeSpaceCheck ∧
    (usbRead s size timeout).2.m_nspTransferMode = s.m_nspTransferMode ∧
    (usbRead s size timeout).2.m_nspSize = s.m_nspSize ∧
    (usbRead s size timeout).2.m_nspHeaderSize = s.m_nspHeaderSize ∧
    (usbRead s size timeout).2.m_nspRemainingSize = s.m_nspRemainingSize ∧
    (usbRead s size timeout).2.m_nspFile = s.m_nspFile ∧
    (usbRead s size timeout).2.m_nspFilePath = s.m_nspFilePath := by
  unfold usbRead
  split_ifs <;> exact ⟨rfl, rfl, rfl, rfl, rfl, rfl, rfl, rfl, rfl⟩

theorem usbWrite_fields (s : UsbManager) (data : QByteArray) (timeout : Int) :
    (usbWrite s data timeout).2.m_deviceHandle = s.m_deviceHandle ∧
    (usbWrite s data timeout).2.m_epMaxPacketSize = s.m_epMaxPacketSize ∧
    (usbWrite s data timeout).2.m_outputDir = s.m_outputDir ∧
    (usbWrite s data timeout).2.m_disableFreeSpaceCheck = s.m_disableFreeSpaceCheck ∧
    (usbWrite s data timeout).2.m_nspTransferMode = s.m_nspTransferMode ∧
    (usbWrite s data timeout).2.m_nspSize = s.m_nspSize ∧
    (usbWrite s data timeout).2.m_nspHeaderSize = s.m_nspHeaderSize ∧
    (usbWrite s data timeout).2.m_nspRemainingSize = s.m_nspRemainingSize ∧
    (usbWrite s data timeout).2.m_nspFile = s.m_nspFile ∧
    (usbWrite s data timeout).2.m_nspFilePath = s.m_nspFilePath := by
  unfold usbWrite
  split_ifs <;> exact ⟨rfl, rfl, rfl, rfl, rfl, rfl, rfl, rfl, rfl, rfl⟩

theorem resetNspInfo_nspState (s : UsbManager) (deleteFile : Bool) :
    (resetNspInfo s deleteFile).nspState = (false, 0, 0, 0, none, []) := by
  unfold resetNspInfo UsbManager.nspState
  cases hs : s.m_nspFile with
  | none => simp [hs]
  | some f =>
    dsimp only
    split_ifs <;> rfl

theorem resetNspInfo_frame (s : UsbManager) (deleteFile : Bool) :
    (resetNspInfo s deleteFile).trace = s.trace ∧
    (resetNspInfo s deleteFile).usbIn = s.usbIn ∧
    (resetNspInfo s deleteFile).usbOut = s.usbOut ∧
    (resetNspInfo s deleteFile).m_epMaxPacketSize = s.m_epMaxPacketSize ∧
    (resetNspInfo s deleteFile).m_stopRequested = s.m_stopRequested := by
  unfold resetNspInfo
  cases s.m_nspFile with
  | none => exact ⟨rfl, rfl, rfl, rfl, rfl⟩
  | some f =>
    dsimp only
    split_ifs <;> exact ⟨rfl, rfl, rfl, rfl, rfl⟩

theorem resetNspInfo_keeps_files (s : UsbManager) : (resetNspInfo s false).fs = s.fs := by
  unfold resetNspInfo
  cases s.m_nspFile with
  | none => rfl
  | some f =>
    dsimp only
    rw [if_neg (by rintro ⟨h, -⟩; cases h)]

theorem resetNspInfo_removes (s : UsbManager) (hf : s.m_nspFile ≠ none)
    (hp : s.m_nspFilePath ≠ []) :
    (resetNspInfo s true).fs.files s.m_nspFilePath = none ∧
    ∀ q, q ≠ s.m_nspFilePath → (resetNspInfo s true).fs.files q = s.fs.files q := by
  unfold resetNspInfo
  cases hs : s.m_nspFile with
  | none => exact absurd hs hf
  | some f =>
    dsimp only
    rw [if_pos ⟨rfl, hp⟩]
    constructor
    · simp [QFile.remove, FileSystem.set]
    · intro q hq
      simp [QFile.remove, FileSystem.set, hq]

theorem discardPartialFile_frame (s : UsbManager) (fullPath : QString) (u : Bool) :
    (discardPartialFile s fullPath u).usbIn = s.usbIn ∧
    (discardPartialFile s fullPath u).usbOut = s.usbOut ∧
    (discardPartialFile s fullPath u).m_epMaxPacketSize = s.m_epMaxPacketSize ∧
    (discardPartialFile s fullPath u).m_stopRequested = s.m_stopRequested ∧
    (discardPartialFile s fullPath u).trace =
      s.trace ++ (if u = true then [Event.progressEnd] else []) := by
  obtain ⟨h1, h2, h3, h4, h5⟩ := resetNspInfo_frame s true
  unfold discardPartialFile
  dsimp only
  by_cases hm : s.m_nspTransferMode = true <;> by_cases hu : u = true <;>
    simp [hm, hu, h1, h2, h3, h4, h5]

theorem discardPartialFile_nsp (s : UsbManager) (fullPath : QString) (u : Bool)
    (hm : s.m_nspTransferMode = true) :
    (discardPartialFile s fullPath u).nspState = (false, 0, 0, 0, none, []) ∧
    (s.m_nspFile ≠ none → s.m_nspFilePath ≠ [] →
      (discardPartialFile s fullPath u).fs.files s.m_nspFilePath = none) := by
  have h1 := resetNspInfo_nspState s true
  constructor
  · by_cases hu : u = true
    · simp only [discardPartialFile, hm, hu, if_true]
      exact h1
    · simp only [discardPartialFile, hm, hu, if_true, if_false]
      exact h1
  · intro hf hp
    have h2 := (resetNspInfo_removes s hf hp).1
    by_cases hu : u = true
    · simp only [discardPartialFile, hm, hu, if_true]
      exact h2
    · simp only [discardPartialFile, hm, hu, if_true, if_false]
      exact h2

theorem discardPartialFile_single (s : UsbManager) (fullPath : QString) (u : Bool)
    (hm : s.m_nspTransferMode = false) :
    (discardPartialFile s fullPath u).nspState = s.nspState ∧
    (discardPartialFile s fullPath u).fs.files fullPath = none := by
  by_cases hu : u = true <;>
    simp [discardPartialFile, hm, hu, QFile.remove, FileSystem.set, UsbManager.nspState]

theorem chunkReceived_frame (fileSize : Int) (filename : QString) (u : Bool)
    (s : UsbManager) (file : QFile) (chunk : QByteArray) (off : Int) :
    (chunkReceived fileSize filename u s file chunk off).usbIn = s.usbIn ∧
    (chunkReceived fileSize filename u s file chunk off).usbOut = s.usbOut ∧
    (chunkReceived fileSize filename u s file chunk off).m_epMaxPacketSize
      = s.m_epMaxPacketSize ∧
    (chunkReceived fileSize filename u s file chunk off).m_stopRequested
      = s.m_stopRequested ∧
    (chunkReceived fileSize filename u s file chunk off).m_nspTransferMode
      = s.m_nspTransferMode ∧
    (chunkReceived fileSize filename u s file chunk off).m_nspSize = s.m_nspSize ∧
    (chunkReceived fileSize filename u s file chunk off).m_nspHeaderSize
      = s.m_nspHeaderSize ∧
    (chunkReceived fileSize filename u s file chunk off).m_nspFilePath = s.m_nspFilePath ∧
    (chunkReceived fileSize filename u s file chunk off).trace =
      s.trace ++ (if u = true then [Event.progressUpdate off fileSize filename] else []) := by
  unfold chunkReceived
  dsimp only
  by_cases hm : s.m_nspTransferMode = true <;> by_cases hu : u = true <;> simp [hm, hu]

theorem chunkReceived_nsp (fileSize : Int) (filename : QString) (u : Bool)
    (s : UsbManager) (file : QFile) (chunk : QByteArray) (off : Int)
    (hm : s.m_nspTransferMode = true) :
    (chunkReceived fileSize filename u s file chunk off).m_nspFile ≠ none ∧
    (chunkReceived fileSize filename u s file chunk off).m_nspRemainingSize =
      s.m_nspRemainingSize - chunk.length := by
  unfold chunkReceived
  dsimp only
  by_cases hu : u = true <;> simp [hm, hu]

theorem chunkReceived_single (fileSize : Int) (filename : QString) (u : Bool)
    (s : UsbManager) (file : QFile) (chunk : QByteArray) (off : Int)
    (hm : s.m_nspTransferMode = false) :
    (chunkReceived fileSize filename u s file chunk off).nspState = s.nspState := by
  unfold chunkReceived UsbManager.nspState
  dsimp only
  by_cases hu : u = true <;> simp [hm, hu]

theorem writesOf_usbRead (s : UsbManager) (n : Nat) (t : Int) :
    writesOf (usbRead s n t).2.trace = writesOf s.trace := by
  rw [usbRead_trace, writesOf_append]
  simp [writesOf]

theorem progressMarks_usbRead (s : UsbManager) (n : Nat) (t : Int) :
    progressMarks (usbRead s n t).2.trace = progressMarks s.trace := by
  rw [usbRead_trace, progressMarks_append]
  simp [progressMarks]

/-- The receive loop writes nothing to the OUT endpoint and only consumes bulk IN
outcomes. -/
theorem receiveLoop_frame (fileSize : Int) (filename fullPath : QString) (u : Bool)
    (fuel : Nat) (s : UsbManager) (file : QFile) (offset : Int) (blockSize : Nat)
    (e : LoopExit) (s1 : UsbManager)
    (h : receiveLoop fileSize filename fullPath u fuel s file offset blockSize
      = Except.ok (e, s1)) :
    s1.usbOut = s.usbOut ∧ writesOf s1.trace = writesOf s.trace ∧
    s1.m_epMaxPacketSize = s.m_epMaxPacketSize ∧ s1.usbIn.length ≤ s.usbIn.length := by
  refine receiveLoop_induction fileSize filename fullPath u
    (fun s e s1 => s1.usbOut = s.usbOut ∧ writesOf s1.trace = writesOf s.trace ∧
      s1.m_epMaxPacketSize = s.m_epMaxPacketSize ∧ s1.usbIn.length ≤ s.usbIn.length)
    ?_ ?_ ?_ ?_ fuel s file offset blockSize e s1 h
  · intro s
    exact ⟨rfl, rfl, rfl, Nat.le_refl _⟩
  · intro s n _
    obtain ⟨h1, h2, h3, -, h5⟩ := discardPartialFile_frame (usbRead s n USB_TRANSFER_TIMEOUT).2
      fullPath u
    refine ⟨by rw [h2, usbRead_usbOut], ?_, by rw [h3, usbRead_maxPacketSize],
      by rw [h1]; exact (usbRead_usbIn s n _).1⟩
    rw [h5, writesOf_append, writesOf_usbRead]
    split_ifs <;> simp [writesOf]
  · intro s n _ _
    obtain ⟨h1, h2, h3, -, h5⟩ := discardPartialFile_frame (usbRead s n USB_TRANSFER_TIMEOUT).2
      fullPath u
    refine ⟨by rw [h2, usbRead_usbOut], ?_, by rw [h3, usbRead_maxPacketSize],
      by rw [h1]; exact (usbRead_usbIn s n _).1⟩
    rw [h5, writesOf_append, writesOf_usbRead]
    split_ifs <;> simp [writesOf]
  · intro s n file off e s1 _ _ ih
    obtain ⟨h1, h2, h3, -, -, -, -, -, h9⟩ := chunkReceived_frame fileSize filename u
      (usbRead s n USB_TRANSFER_TIMEOUT).2 file (usbRead s n USB_TRANSFER_TIMEOUT).1 off
    obtain ⟨i1, i2, i3, i4⟩ := ih
    refine ⟨by rw [i1, h2, usbRead_usbOut], ?_, by rw [i3, h3, usbRead_maxPacketSize],
      by rw [h1] at i4; exact Nat.le_trans i4 (usbRead_usbIn s n _).1⟩
    rw [i2, h9, writesOf_append, writesOf_usbRead]
    split_ifs <;> simp [writesOf]

/-- The receive loop emits no progress start, and a `progressEnd` only when it is
left by one of its `return`s with progress started. -/
theorem receiveLoop_marks (fileSize : Int) (filename fullPath : QString) (u : Bool)
    (fuel : Nat) (s : UsbManager) (file : QFile) (offset : Int) (blockSize : Nat)
    (e : LoopExit) (s1 : UsbManager)
    (h : receiveLoop fileSize filename fullPath u fuel s file offset blockSize
      = Except.ok (e, s1)) :
    progressMarks s1.trace = progressMarks s.trace ++
      (if e ≠ LoopExit.completed ∧ u = true then [false] else []) := by
  refine receiveLoop_induction fileSize filename fullPath u
    (fun s e s1 => progressMarks s1.trace = progressMarks s.trace ++
      (if e ≠ LoopExit.completed ∧ u = true then [false] else []))
    ?_ ?_ ?_ ?_ fuel s file offset blockSize e s1 h
  · intro s
    simp
  · intro s n _
    rw [(discardPartialFile_frame _ fullPath u).2.2.2.2, progressMarks_append,
      progressMarks_usbRead]
    by_cases hu : u = true <;> simp [hu, progressMarks]
  · intro s n _ _
    rw [(discardPartialFile_frame _ fullPath u).2.2.2.2, progressMarks_append,
      progressMarks_usbRead]
    by_cases hu : u = true <;> simp [hu, progressMarks]
  · intro s n file off e s1 _ _ ih
    rw [ih, (chunkReceived_frame fileSize filename u _ file _ off).2.2.2.2.2.2.2.2,
      progressMarks_append, progressMarks_usbRead]
    by_cases hu : u = true <;> simp [hu, progressMarks]

/-- What the reads of the receive loop handed back decides how it is left: by the
failed-read `return` exactly when a read handed back nothing, by its condition
exactly when every read succeeded and no chunk was taken for a cancel. -/
theorem receiveLoop_chunks (fileSize : Int) (filename fullPath : QString) (u : Bool)
    (fuel : Nat) (s : UsbManager) (file : QFile) (offset : Int) (blockSize : Nat)
    (e : LoopExit) (s1 : UsbManager)
    (h : receiveLoop fileSize filename fullPath u fuel s file offset blockSize
      = Except.ok (e, s1)) :
    ∃ cs, chunksOf s1.trace = chunksOf s.trace ++ cs ∧
      ([] ∈ cs ↔ e = LoopExit.returned USB_STATUS_HOST_IO_ERROR) ∧
      ((∀ c ∈ cs, c ≠ [] ∧ isCancelChunk c = false) ↔ e = LoopExit.completed) := by
  refine receiveLoop_induction fileSize filename fullPath u
    (fun s e s1 => ∃ cs, chunksOf s1.trace = chunksOf s.trace ++ cs ∧
      ([] ∈ cs ↔ e = LoopExit.returned USB_STATUS_HOST_IO_ERROR) ∧
      ((∀ c ∈ cs, c ≠ [] ∧ isCancelChunk c = false) ↔ e = LoopExit.completed))
    ?_ ?_ ?_ ?_ fuel s file offset blockSize e s1 h
  · intro s
    exact ⟨[], by simp, by simp, by simp⟩
  · intro s n hc
    refine ⟨[[]], ?_, by simp, by simp⟩
    rw [(discardPartialFile_frame _ fullPath u).2.2.2.2, chunksOf_append, usbRead_trace,
      chunksOf_append, hc]
    by_cases hu : u = true <;> simp [hu, chunksOf]
  · intro s n hc hk
    refine ⟨[(usbRead s n USB_TRANSFER_TIMEOUT).1], ?_, ?_, ?_⟩
    · rw [(discardPartialFile_frame _ fullPath u).2.2.2.2, chunksOf_append, usbRead_trace,
        chunksOf_append]
      by_cases hu : u = true <;> simp [hu, chunksOf]
    · simp only [List.mem_singleton]
      constructor
      · intro h0; exact absurd h0.symm hc
      · intro h0; exact absurd h0 (by decide)
    · simp only [List.mem_singleton, forall_eq]
      constructor
      · intro h0; rw [hk] at h0; exact absurd h0.2 (by decide)
      · intro h0; exact absurd h0 (by decide)
  · intro s n file off e s1 hc hk ih
    obtain ⟨cs, i1, i2, i3⟩ := ih
    refine ⟨(usbRead s n USB_TRANSFER_TIMEOUT).1 :: cs, ?_, ?_, ?_⟩
    · rw [i1, (chunkReceived_frame fileSize filename u _ file _ off).2.2.2.2.2.2.2.2,
        chunksOf_append, usbRead_trace, chunksOf_append]
      by_cases hu : u = true <;> simp [hu, chunksOf]
    · rw [← i2]
      simp only [List.mem_cons]
      constructor
      · rintro (h0 | h0)
        · exact absurd h0.symm hc
        · exact h0
      · intro h0; exact Or.inr h0
    · rw [← i3]
      simp only [List.mem_cons, forall_eq_or_imp]
      constructor
      · intro h0; exact h0.2
      · intro h0; exact ⟨⟨hc, hk⟩, h0⟩

/-- The receive loop in NSP mode: left by its condition it keeps the mode, the
file handle, total, reserve and path; left by a `return` it clears the NSP state
and removes the NSP file. -/
theorem receiveLoop_nsp (fileSize : Int) (filename fullPath : QString) (u : Bool)
    (fuel : Nat) (s : UsbManager) (file : QFile) (offset : Int) (blockSize : Nat)
    (e : LoopExit) (s1 : UsbManager)
    (h : receiveLoop fileSize filename fullPath u fuel s file offset blockSize
      = Except.ok (e, s1))
    (hm : s.m_nspTransferMode = true) :
    (e = LoopExit.completed → s1.m_nspTransferMode = true ∧
      (s.m_nspFile ≠ none → s1.m_nspFile ≠ none) ∧ s1.m_nspSize = s.m_nspSize ∧
      s1.m_nspHeaderSize = s.m_nspHeaderSize ∧ s1.m_nspFilePath = s.m_nspFilePath) ∧
    (e ≠ LoopExit.completed → s1.nspState = (false, 0, 0, 0, none, []) ∧
      (s.m_nspFile ≠ none → s.m_nspFilePath ≠ [] → s1.fs.files s.m_nspFilePath = none)) := by
  refine receiveLoop_induction fileSize filename fullPath u
    (fun s e s1 => s.m_nspTransferMode = true →
      (e = LoopExit.completed → s1.m_nspTransferMode = true ∧
        (s.m_nspFile ≠ none → s1.m_nspFile ≠ none) ∧ s1.m_nspSize = s.m_nspSize ∧
        s1.m_nspHeaderSize = s.m_nspHeaderSize ∧ s1.m_nspFilePath = s.m_nspFilePath) ∧
      (e ≠ LoopExit.completed → s1.nspState = (false, 0, 0, 0, none, []) ∧
        (s.m_nspFile ≠ none → s.m_nspFilePath ≠ [] → s1.fs.files s.m_nspFilePath = none)))
    ?_ ?_ ?_ ?_ fuel s file offset blockSize e s1 h hm
  · intro s hm
    exact ⟨fun _ => ⟨hm, fun hf => hf, rfl, rfl, rfl⟩, fun h0 => absurd rfl h0⟩
  · intro s n _ hm
    obtain ⟨-, -, -, f4, -, -, -, f8, f9⟩ := usbRead_fields s n USB_TRANSFER_TIMEOUT
    obtain ⟨d1, d2⟩ := discardPartialFile_nsp (usbRead s n USB_TRANSFER_TIMEOUT).2 fullPath u
      (by rw [f4]; exact hm)
    rw [f8, f9] at d2
    exact ⟨fun h0 => absurd h0 (by decide), fun _ => ⟨d1, d2⟩⟩
  · intro s n _ _ hm
    obtain ⟨-, -, -, f4, -, -, -, f8, f9⟩ := usbRead_fields s n USB_TRANSFER_TIMEOUT
    obtain ⟨d1, d2⟩ := discardPartialFile_nsp (usbRead s n USB_TRANSFER_TIMEOUT).2 fullPath u
      (by rw [f4]; exact hm)
    rw [f8, f9] at d2
    exact ⟨fun h0 => absurd h0 (by decide), fun _ => ⟨d1, d2⟩⟩
  · intro s n file off e s1 _ _ ih hm
    obtain ⟨-, -, -, f4, f5, f6, -, -, f9⟩ := usbRead_fields s n USB_TRANSFER_TIMEOUT
    obtain ⟨-, -, -, -, c5, c6, c7, c8, -⟩ := chunkReceived_frame fileSize filename u
      (usbRead s n USB_TRANSFER_TIMEOUT).2 file (usbRead s n USB_TRANSFER_TIMEOUT).1 off
    obtain ⟨n1, -⟩ := chunkReceived_nsp fileSize filename u
      (usbRead s n USB_TRANSFER_TIMEOUT).2 file (usbRead s n USB_TRANSFER_TIMEOUT).1 off
      (by rw [f4]; exact hm)
    obtain ⟨i1, i2⟩ := ih (by rw [c5, f4]; exact hm)
    constructor
    · intro he
      obtain ⟨j1, j2, j3, j4, j5⟩ := i1 he
      exact ⟨j1, fun _ => j2 n1, by rw [j3, c6, f5], by rw [j4, c7, f6], by rw [j5, c8, f9]⟩
    · intro he
      obtain ⟨j1, j2⟩ := i2 he
      refine ⟨j1, fun _ hp => ?_⟩
      have := j2 n1 (by rw [c8, f9]; exact hp)
      rw [c8, f9] at this
      exact this

/-- The receive loop outside NSP mode leaves the NSP state alone, and removes the
output file when it is left by a `return`. -/
theorem receiveLoop_single (fileSize : Int) (filename fullPath : QString) (u : Bool)
    (fuel : Nat) (s : UsbManager) (file : QFile) (offset : Int) (blockSize : Nat)
    (e : LoopExit) (s1 : UsbManager)
    (h : receiveLoop fileSize filename fullPath u fuel s file offset blockSize
      = Except.ok (e, s1))
    (hm : s.m_nspTransferMode = false) :
    s1.nspState = s.nspState ∧ (e ≠ LoopExit.completed → s1.fs.files fullPath = none) := by
  have hmode : ∀ a b : UsbManager, a.nspState = b.nspState →
      a.m_nspTransferMode = b.m_nspTransferMode := by
    intro a b hab
    simp only [UsbManager.nspState, Prod.mk.injEq] at hab
    exact hab.1
  have hread : ∀ (s : UsbManager) (n : Nat),
      (usbRead s n USB_TRANSFER_TIMEOUT).2.m_nspTransferMode = s.m_nspTransferMode :=
    fun s n => hmode _ _ (usbRead_nspState s n _)
  refine receiveLoop_induction fileSize filename fullPath u
    (fun s e s1 => s.m_nspTransferMode = false →
      s1.nspState = s.nspState ∧ (e ≠ LoopExit.completed → s1.fs.files fullPath = none))
    ?_ ?_ ?_ ?_ fuel s file offset blockSize e s1 h hm
  · intro s _
    exact ⟨rfl, fun h0 => absurd rfl h0⟩
  · intro s n _ hm
    obtain ⟨d1, d2⟩ := discardPartialFile_single (usbRead s n USB_TRANSFER_TIMEOUT).2 fullPath u
      (by rw [hread]; exact hm)
    exact ⟨by rw [d1, usbRead_nspState], fun _ => d2⟩
  · intro s n _ _ hm
    obtain ⟨d1, d2⟩ := discardPartialFile_single (usbRead s n USB_TRANSFER_TIMEOUT).2 fullPath u
      (by rw [hread]; exact hm)
    exact ⟨by rw [d1, usbRead_nspState], fun _ => d2⟩
  · intro s n file off e s1 _ _ ih hm
    have c1 := chunkReceived_single fileSize filename u
      (usbRead s n USB_TRANSFER_TIMEOUT).2 file (usbRead s n USB_TRANSFER_TIMEOUT).1 off
      (by rw [hread]; exact hm)
    obtain ⟨i1, i2⟩ := ih (by rw [hmode _ _ c1, hread]; exact hm)
    exact ⟨by rw [i1, c1, usbRead_nspState], i2⟩

/-! ## The data phase and the handler around it -/

theorem usbSendStatus_fields (s : UsbManager) (code : Nat) :
    (usbSendStatus s code).2.m_deviceHandle = s.m_deviceHandle ∧
    (usbSendStatus s code).2.m_epMaxPacketSize = s.m_epMaxPacketSize ∧
    (usbSendStatus s code).2.m_outputDir = s.m_outputDir ∧
    (usbSendStatus s code).2.m_disableFreeSpaceCheck = s.m_disableFreeSpaceCheck ∧
    (usbSendStatus s code).2.m_nspTransferMode = s.m_nspTransferMode ∧
    (usbSendStatus s code).2.m_nspSize = s.m_nspSize ∧
    (usbSendStatus s code).2.m_nspHeaderSize = s.m_nspHeaderSize ∧
    (usbSendStatus s code).2.m_nspRemainingSize = s.m_nspRemainingSize ∧
    (usbSendStatus s code).2.m_nspFile = s.m_nspFile ∧
    (usbSendStatus s code).2.m_nspFilePath = s.m_nspFilePath :=
  usbWrite_fields s _ _

theorem usbSendStatus_trace (s : UsbManager) (code : Nat) :
    (usbSendStatus s code).2.trace = s.trace ++
      [Event.usbWrite (statusPacket code s.m_epMaxPacketSize) (usbSendStatus s code).1] :=
  usbWrite_trace s _ _

theorem progressWanted_usbSendStatus (s : UsbManager) (code : Nat) (fileSize : Int) :
    progressWanted (usbSendStatus s code).2 fileSize = progressWanted s fileSize := by
  obtain ⟨-, -, -, -, h5, h6, -⟩ := usbSendStatus_fields s code
  unfold progressWanted
  rw [h5, h6]

theorem receiveFile_eq (s : UsbManager) (fileSize : Int) (filename fullPath : QString)
    (file : QFile) :
    receiveFile s fileSize filename fullPath file =
      match receiveLoop fileSize filename fullPath
          (progressWanted (usbSendStatus s USB_STATUS_SUCCESS).2 fileSize) fileSize.toNat
          (dataPhaseStart s fileSize filename) file 0 USB_TRANSFER_BLOCK_SIZE with
      | Except.error e => Except.error e
      | Except.ok (LoopExit.returned status, s3) => Except.ok (status, s3)
      | Except.ok (LoopExit.completed, s3) =>
        if progressWanted (usbSendStatus s USB_STATUS_SUCCESS).2 fileSize = true ∧
            (s3.m_nspTransferMode = false ∨ s3.m_nspRemainingSize = 0) then
          Except.ok (USB_STATUS_SUCCESS, { s3 with trace := s3.trace ++ [Event.progressEnd] })
        else Except.ok (USB_STATUS_SUCCESS, s3) := by
  rfl

theorem dataPhaseStart_frame (s : UsbManager) (fileSize : Int) (filename : QString) :
    (dataPhaseStart s fileSize filename).nspState = s.nspState ∧
    (dataPhaseStart s fileSize filename).fs = s.fs ∧
    (dataPhaseStart s fileSize filename).usbIn = s.usbIn ∧
    (dataPhaseStart s fileSize filename).m_epMaxPacketSize = s.m_epMaxPacketSize ∧
    (dataPhaseStart s fileSize filename).trace = s.trace ++
      Event.usbWrite (statusPacket USB_STATUS_SUCCESS s.m_epMaxPacketSize)
          (usbSendStatus s USB_STATUS_SUCCESS).1 ::
        (if progressWanted s fileSize = true then
          [Event.startOffset (if s.m_nspTransferMode = true then s.m_nspSize else fileSize)
            filename]
         else []) := by
  obtain ⟨-, f2, -, -, f5, f6, -⟩ := usbSendStatus_fields s USB_STATUS_SUCCESS
  have hn := usbWrite_nspState s (statusPacket USB_STATUS_SUCCESS s.m_epMaxPacketSize)
    USB_TRANSFER_TIMEOUT
  have hfs := usbWrite_fs s (statusPacket USB_STATUS_SUCCESS s.m_epMaxPacketSize)
    USB_TRANSFER_TIMEOUT
  have hin := usbWrite_usbIn s (statusPacket USB_STATUS_SUCCESS s.m_epMaxPacketSize)
    USB_TRANSFER_TIMEOUT
  have ht := usbSendStatus_trace s USB_STATUS_SUCCESS
  have hp := progressWanted_usbSendStatus s USB_STATUS_SUCCESS fileSize
  unfold dataPhaseStart
  dsimp only
  rw [hp]
  by_cases hu : progressWanted s fileSize = true
  · rw [if_pos hu, if_pos hu]
    refine ⟨hn, hfs, hin, f2, ?_⟩
    dsimp only
    rw [ht, f5, f6]
    simp
  · rw [if_neg hu, if_neg hu]
    exact ⟨hn, hfs, hin, f2, by rw [ht]⟩

/-- The data phase always returns; its result is the exit of the receive loop
run from `dataPhaseStart`, followed by the `progressEnd` of a completed
transfer. -/
theorem receiveFile_cases (s : UsbManager) (fileSize : Int) (filename fullPath : QString)
    (file : QFile) :
    ∃ e s3, receiveLoop fileSize filename fullPath (progressWanted s fileSize) fileSize.toNat
        (dataPhaseStart s fileSize filename) file 0 USB_TRANSFER_BLOCK_SIZE
        = Except.ok (e, s3) ∧
      ((e = LoopExit.completed ∧
          receiveFile s fileSize filename fullPath file =
            Except.ok (USB_STATUS_SUCCESS,
              if progressWanted s fileSize = true ∧
                  (s3.m_nspTransferMode = false ∨ s3.m_nspRemainingSize = 0) then
                { s3 with trace := s3.trace ++ [Event.progressEnd] }
              else s3)) ∨
        (e = LoopExit.returned USB_STATUS_SUCCESS ∧
          receiveFile s fileSize filename fullPath file = Except.ok (USB_STATUS_SUCCESS, s3)) ∨
        (e = LoopExit.returned USB_STATUS_HOST_IO_ERROR ∧
          receiveFile s fileSize filename fullPath file =
            Except.ok (USB_STATUS_HOST_IO_ERROR, s3))) := by
  obtain ⟨e, s3, he, hcase⟩ := receiveLoop_total fileSize filename fullPath
    (progressWanted s fileSize) fileSize.toNat (dataPhaseStart s fileSize filename) file 0
    USB_TRANSFER_BLOCK_SIZE (by omega)
  refine ⟨e, s3, he, ?_⟩
  rw [receiveFile_eq, progressWanted_usbSendStatus, he]
  rcases hcase with h | h | h
  · subst h
    left
    refine ⟨rfl, ?_⟩
    dsimp only
    split_ifs <;> rfl
  · subst h
    exact Or.inr (Or.inl ⟨rfl, rfl⟩)
  · subst h
    exact Or.inr (Or.inr ⟨rfl, rfl⟩)

theorem entersDataPhase_iff (s : UsbManager) (cmdBlock : QByteArray) :
    entersDataPhase s cmdBlock = true ↔
      (¬ (s.m_nspTransferMode = false ∧ readI64 cmdBlock 0 ≠ 0 ∧
          (readU32 cmdBlock 12 : Int) ≥ readI64 cmdBlock 0) ∧
       ¬ (s.m_nspTransferMode = true ∧ readU32 cmdBlock 12 ≠ 0) ∧
       (((enableNspTransferMode s (readI64 cmdBlock 0)
              (readU32 cmdBlock 12)).m_nspTransferMode = false ∨
           (enableNspTransferMode s (readI64 cmdBlock 0) (readU32 cmdBlock 12)).m_nspFile
             = none) →
         ((enableNspTransferMode s (readI64 cmdBlock 0) (readU32 cmdBlock 12)).fs.isDir
             (filePath s.m_outputDir (mid cmdBlock 16 (readU32 cmdBlock 8))) = false ∧
           readI64 cmdBlock 0 ≤
             (enableNspTransferMode s (readI64 cmdBlock 0)
               (readU32 cmdBlock 12)).fs.bytesAvailable
               (filePath s.m_outputDir (mid cmdBlock 16 (readU32 cmdBlock 8))) ∧
           (enableNspTransferMode s (readI64 cmdBlock 0) (readU32 cmdBlock 12)).fs.canOpen
             (filePath s.m_outputDir (mid cmdBlock 16 (readU32 cmdBlock 8))) = true)) ∧
       readI64 cmdBlock 0 ≠ 0 ∧
       ¬ ((enableNspTransferMode s (readI64 cmdBlock 0)
              (readU32 cmdBlock 12)).m_nspTransferMode = true ∧
           readI64 cmdBlock 0 =
             (enableNspTransferMode s (readI64 cmdBlock 0) (readU32 cmdBlock 12)).m_nspSize)) := by
  unfold entersDataPhase
  exact decide_eq_true_iff

theorem enableNspTransferMode_frame (s : UsbManager) (fileSize : Int) (hdr : Nat) :
    (enableNspTransferMode s fileSize hdr).trace = s.trace ∧
    (enableNspTransferMode s fileSize hdr).usbIn = s.usbIn ∧
    (enableNspTransferMode s fileSize hdr).usbOut = s.usbOut ∧
    (enableNspTransferMode s fileSize hdr).m_epMaxPacketSize = s.m_epMaxPacketSize ∧
    (enableNspTransferMode s fileSize hdr).m_stopRequested = s.m_stopRequested ∧
    (enableNspTransferMode s fileSize hdr).m_outputDir = s.m_outputDir ∧
    (enableNspTransferMode s fileSize hdr).fs = s.fs ∧
    (enableNspTransferMode s fileSize hdr).m_nspFile = s.m_nspFile ∧
    (enableNspTransferMode s fileSize hdr).m_nspFilePath = s.m_nspFilePath := by
  unfold enableNspTransferMode
  split_ifs <;> exact ⟨rfl, rfl, rfl, rfl, rfl, rfl, rfl, rfl, rfl⟩

/-- A block that leads to a data phase does not switch NSP mode on: a block that
does is the record announcing the whole NSP. -/
theorem enableNspTransferMode_of_data (s : UsbManager) (cmdBlock : QByteArray)
    (hd : entersDataPhase s cmdBlock = true) :
    enableNspTransferMode s (readI64 cmdBlock 0) (readU32 cmdBlock 12) = s := by
  obtain ⟨-, -, -, -, h5⟩ := (entersDataPhase_iff s cmdBlock).1 hd
  unfold enableNspTransferMode at h5 ⊢
  by_cases hc : s.m_nspTransferMode = false ∧ readI64 cmdBlock 0 ≠ 0 ∧ readU32 cmdBlock 12 ≠ 0
  · rw [if_pos hc] at h5
    exact absurd ⟨rfl, rfl⟩ h5
  · rw [if_neg hc]

theorem openOutputFile_frame (s : UsbManager) (fullPath : QString) :
    (openOutputFile s fullPath).1.trace = s.trace ∧
    (openOutputFile s fullPath).1.usbIn = s.usbIn ∧
    (openOutputFile s fullPath).1.usbOut = s.usbOut ∧
    (openOutputFile s fullPath).1.m_epMaxPacketSize = s.m_epMaxPacketSize ∧
    (openOutputFile s fullPath).1.m_stopRequested = s.m_stopRequested ∧
    (openOutputFile s fullPath).1.m_nspTransferMode = s.m_nspTransferMode ∧
    (openOutputFile s fullPath).1.m_nspSize = s.m_nspSize ∧
    (openOutputFile s fullPath).1.m_nspHeaderSize = s.m_nspHeaderSize ∧
    (openOutputFile s fullPath).1.m_nspRemainingSize = s.m_nspRemainingSize ∧
    (s.m_nspTransferMode = true → (openOutputFile s fullPath).1.m_nspFile ≠ none ∧
      (openOutputFile s fullPath).1.m_nspFilePath = fullPath) ∧
    (s.m_nspTransferMode = false →
      (openOutputFile s fullPath).1.m_nspFile = s.m_nspFile ∧
      (openOutputFile s fullPath).1.m_nspFilePath = s.m_nspFilePath) := by
  unfold openOutputFile
  dsimp only
  by_cases hm : s.m_nspTransferMode = true
  · rw [if_pos hm]
    refine ⟨rfl, rfl, rfl, rfl, rfl, rfl, rfl, rfl, rfl, fun _ => ⟨by simp, rfl⟩, fun h => ?_⟩
    rw [hm] at h
    cases h
  · rw [if_neg hm]
    exact ⟨rfl, rfl, rfl, rfl, rfl, rfl, rfl, rfl, rfl, fun h => absurd h hm,
      fun _ => ⟨rfl, rfl⟩⟩

theorem resolvedFile_frame (s : UsbManager) (cmdBlock : QByteArray) :
    (resolvedFile s cmdBlock).1.trace = s.trace ∧
    (resolvedFile s cmdBlock).1.usbIn = s.usbIn ∧
    (resolvedFile s cmdBlock).1.usbOut = s.usbOut ∧
    (resolvedFile s cmdBlock).1.m_epMaxPacketSize = s.m_epMaxPacketSize ∧
    (resolvedFile s cmdBlock).1.m_stopRequested = s.m_stopRequested := by
  obtain ⟨e1, e2, e3, e4, e5, -⟩ := enableNspTransferMode_frame s (readI64 cmdBlock 0)
    (readU32 cmdBlock 12)
  unfold resolvedFile
  dsimp only
  split_ifs with hc
  · obtain ⟨o1, o2, o3, o4, o5, -⟩ := openOutputFile_frame
      (enableNspTransferMode s (readI64 cmdBlock 0) (readU32 cmdBlock 12))
      (filePath (enableNspTransferMode s (readI64 cmdBlock 0) (readU32 cmdBlock 12)).m_outputDir
        (mid cmdBlock 16 (readU32 cmdBlock 8)))
    exact ⟨o1.trans e1, o2.trans e2, o3.trans e3, o4.trans e4, o5.trans e5⟩
  · cases (enableNspTransferMode s (readI64 cmdBlock 0) (readU32 cmdBlock 12)).m_nspFile <;>
      exact ⟨e1, e2, e3, e4, e5⟩

/-- A block that leads to a data phase is answered by the data phase run on the
resolved file. -/
theorem handleSendFileProperties_data (s : UsbManager) (cmdBlock : QByteArray)
    (h : 16 ≤ cmdBlock.length) (hd : entersDataPhase s cmdBlock = true) :
    handleSendFileProperties s cmdBlock =
      receiveFile (resolvedFile s cmdBlock).1 (readI64 cmdBlock 0)
        (mid cmdBlock 16 (readU32 cmdBlock 8)) (resolvedFile s cmdBlock).2.1
        (resolvedFile s cmdBlock).2.2 := by
  have hlen : ¬ cmdBlock.length < 16 := by omega
  have hen := enableNspTransferMode_of_data s cmdBlock hd
  obtain ⟨h1, h2, h3, h4, h5⟩ := (entersDataPhase_iff s cmdBlock).1 hd
  rw [hen] at h3 h5
  unfold handleSendFileProperties resolvedFile
  rw [if_neg hlen]
  dsimp only
  rw [if_neg h1, if_neg h2, hen]
  by_cases hr : s.m_nspTransferMode = false ∨ s.m_nspFile = none
  · obtain ⟨r1, r2, r3⟩ := h3 hr
    rw [if_pos hr, if_pos hr, if_neg (by rw [r1]; decide), if_neg (by omega),
      if_neg (by rw [r3]; decide)]
    have hmode := (openOutputFile_frame s
      (filePath s.m_outputDir (mid cmdBlock 16 (readU32 cmdBlock 8)))).2.2.2.2.2.1
    have hsize := (openOutputFile_frame s
      (filePath s.m_outputDir (mid cmdBlock 16 (readU32 cmdBlock 8)))).2.2.2.2.2.2.1
    unfold finishOrReceive
    rw [if_neg]
    rw [hmode, hsize]
    rintro (h0 | h0)
    · exact h4 h0
    · exact h5 h0
  · rw [if_neg hr, if_neg hr]
    rw [not_or] at hr
    cases hf : s.m_nspFile with
    | none => exact absurd hf hr.2
    | some f =>
      dsimp only
      unfold finishOrReceive
      rw [if_neg]
      rintro (h0 | h0)
      · exact h4 h0
      · exact h5 h0

/-- A block that does not lead to a data phase is answered without any bulk
transfer: trace and queues are as before. -/
theorem handleSendFileProperties_nodata (s : UsbManager) (cmdBlock : QByteArray)
    (h : 16 ≤ cmdBlock.length) (hd : entersDataPhase s cmdBlock = false) :
    ∃ st s1, handleSendFileProperties s cmdBlock = Except.ok (st, s1) ∧
      s1.trace = s.trace ∧ s1.usbIn = s.usbIn ∧ s1.usbOut = s.usbOut ∧
      s1.m_epMaxPacketSize = s.m_epMaxPacketSize ∧
      s1.m_stopRequested = s.m_stopRequested := by
  have hlen : ¬ cmdBlock.length < 16 := by omega
  have hnd : ¬ entersDataPhase s cmdBlock = true := by rw [hd]; decide
  rw [entersDataPhase_iff] at hnd
  obtain ⟨e1, e2, e3, e4, e5, e6, e7, -⟩ := enableNspTransferMode_frame s (readI64 cmdBlock 0)
    (readU32 cmdBlock 12)
  unfold handleSendFileProperties
  rw [if_neg hlen]
  dsimp only
  by_cases h1 : s.m_nspTransferMode = false ∧ readI64 cmdBlock 0 ≠ 0 ∧
      (readU32 cmdBlock 12 : Int) ≥ readI64 cmdBlock 0
  · rw [if_pos h1]
    exact ⟨_, _, rfl, rfl, rfl, rfl, rfl, rfl⟩
  · rw [if_neg h1]
    by_cases h2 : s.m_nspTransferMode = true ∧ readU32 cmdBlock 12 ≠ 0
    · rw [if_pos h2]
      exact ⟨_, _, rfl, rfl, rfl, rfl, rfl, rfl⟩
    · rw [if_neg h2]
      generalize hs1 : enableNspTransferMode s (readI64 cmdBlock 0) (readU32 cmdBlock 12) = s1
        at hnd e1 e2 e3 e4 e5 e6 e7
      obtain ⟨x1, x2, x3, x4, x5⟩ := resetNspInfo_frame s1 false
      have hreset : ∃ st s2, (Except.ok (USB_STATUS_HOST_IO_ERROR, resetNspInfo s1 false) :
          Except Fault (Nat × UsbManager)) = Except.ok (st, s2) ∧
          s2.trace = s.trace ∧ s2.usbIn = s.usbIn ∧ s2.usbOut = s.usbOut ∧
          s2.m_epMaxPacketSize = s.m_epMaxPacketSize ∧
          s2.m_stopRequested = s.m_stopRequested :=
        ⟨_, _, rfl, x1.trans e1, x2.trans e2, x3.trans e3, x4.trans e4, x5.trans e5⟩
      have hfin : ∀ (s2 : UsbManager) (file : QFile) (fp : QString),
          (readI64 cmdBlock 0 = 0 ∨
            (s2.m_nspTransferMode = true ∧ readI64 cmdBlock 0 = s2.m_nspSize)) →
          s2.trace = s.trace → s2.usbIn = s.usbIn → s2.usbOut = s.usbOut →
          s2.m_epMaxPacketSize = s.m_epMaxPacketSize →
          s2.m_stopRequested = s.m_stopRequested →
          ∃ st s3, finishOrReceive s2 (readI64 cmdBlock 0)
              (mid cmdBlock 16 (readU32 cmdBlock 8)) fp file = Except.ok (st, s3) ∧
            s3.trace = s.trace ∧ s3.usbIn = s.usbIn ∧ s3.usbOut = s.usbOut ∧
            s3.m_epMaxPacketSize = s.m_epMaxPacketSize ∧
            s3.m_stopRequested = s.m_stopRequested := by
        intro s2 file fp hc a1 a2 a3 a4 a5
        unfold finishOrReceive
        rw [if_pos hc]
        exact ⟨_, _, rfl, a1, a2, a3, a4, a5⟩
      by_cases hr : s1.m_nspTransferMode = false ∨ s1.m_nspFile = none
      · rw [if_pos hr]
        by_cases hdir : s1.fs.isDir (filePath s1.m_outputDir
            (mid cmdBlock 16 (readU32 cmdBlock 8))) = true
        · rw [if_pos hdir]; exact hreset
        · rw [if_neg hdir]
          by_cases hsp : s1.fs.bytesAvailable (filePath s1.m_outputDir
              (mid cmdBlock 16 (readU32 cmdBlock 8))) < readI64 cmdBlock 0
          · rw [if_pos hsp]; exact hreset
          · rw [if_neg hsp]
            by_cases hop : s1.fs.canOpen (filePath s1.m_outputDir
                (mid cmdBlock 16 (readU32 cmdBlock 8))) = false
            · rw [if_pos hop]; exact hreset
            · rw [if_neg hop]
              obtain ⟨o1, o2, o3, o4, o5, o6, o7, -⟩ := openOutputFile_frame s1
                (filePath s1.m_outputDir (mid cmdBlock 16 (readU32 cmdBlock 8)))
              apply hfin _ _ _ _ (o1.trans e1) (o2.trans e2) (o3.trans e3) (o4.trans e4)
                (o5.trans e5)
              rw [o6, o7]
              by_contra hcon
              rw [not_or] at hcon
              apply hnd
              refine ⟨h1, h2, fun _ => ⟨?_, ?_, ?_⟩, hcon.1, hcon.2⟩
              · rw [← e6]; simpa using hdir
              · rw [← e6]; omega
              · rw [← e6]; simpa using hop
      · rw [if_neg hr]
        have hr2 := hr
        rw [not_or] at hr2
        cases hf : s1.m_nspFile with
        | none => exact absurd hf hr2.2
        | some f =>
          dsimp only
          apply hfin _ _ _ _ e1 e2 e3 e4 e5
          by_contra hcon
          rw [not_or] at hcon
          exact hnd ⟨h1, h2, fun h0 => absurd h0 hr, hcon.1, hcon.2⟩

theorem receiveLoop_trace (fileSize : Int) (filename fullPath : QString) (u : Bool)
    (fuel : Nat) (s : UsbManager) (file : QFile) (offset : Int) (blockSize : Nat)
    (e : LoopExit) (s1 : UsbManager)
    (h : receiveLoop fileSize filename fullPath u fuel s file offset blockSize
      = Except.ok (e, s1)) :
    ∃ ev, s1.trace = s.trace ++ ev := by
  refine receiveLoop_induction fileSize filename fullPath u
    (fun s _ s1 => ∃ ev, s1.trace = s.trace ++ ev)
    ?_ ?_ ?_ ?_ fuel s file offset blockSize e s1 h
  · intro s
    exact ⟨[], by simp⟩
  · intro s n _
    rw [(discardPartialFile_frame _ fullPath u).2.2.2.2, usbRead_trace]
    exact ⟨_, List.append_assoc _ _ _⟩
  · intro s n _ _
    rw [(discardPartialFile_frame _ fullPath u).2.2.2.2, usbRead_trace]
    exact ⟨_, List.append_assoc _ _ _⟩
  · intro s n file off e s1 _ _ ih
    obtain ⟨ev, hev⟩ := ih
    rw [(chunkReceived_frame fileSize filename u _ file _ off).2.2.2.2.2.2.2.2,
      usbRead_trace] at hev
    exact ⟨_, by rw [hev, List.append_assoc, List.append_assoc]⟩

/-- The data phase on the wire: one status SUCCESS is written first, then come the
reads; the data phase writes nothing else to the OUT endpoint. -/
theorem receiveFile_writes (s : UsbManager) (fileSize : Int) (filename fullPath : QString)
    (file : QFile) :
    ∃ st s1 rest, receiveFile s fileSize filename fullPath file = Except.ok (st, s1) ∧
      s1.trace = s.trace ++
        Event.usbWrite (statusPacket USB_STATUS_SUCCESS s.m_epMaxPacketSize)
          (usbSendStatus s USB_STATUS_SUCCESS).1 :: rest ∧
      writesOf rest = [] ∧
      s1.m_epMaxPacketSize = s.m_epMaxPacketSize ∧
      s1.usbIn.length ≤ s.usbIn.length := by
  obtain ⟨d1, d2, d3, d4, d5⟩ := dataPhaseStart_frame s fileSize filename
  obtain ⟨e, s3, hloop, hcase⟩ := receiveFile_cases s fileSize filename fullPath file
  obtain ⟨-, f2, f3, f4⟩ := receiveLoop_frame _ _ _ _ _ _ _ _ _ _ _ hloop
  obtain ⟨ev, hev⟩ := receiveLoop_trace _ _ _ _ _ _ _ _ _ _ _ hloop
  rw [d5] at hev
  rw [d3] at f4
  have hst : writesOf (if progressWanted s fileSize = true then
      [Event.startOffset (if s.m_nspTransferMode = true then s.m_nspSize else fileSize)
        filename] else []) = [] := by
    split_ifs <;> rfl
  have hevw : writesOf ev = [] := by
    have h0 := f2
    rw [hev, writesOf_append, d5] at h0
    simpa using h0
  have hw : writesOf ((if progressWanted s fileSize = true then
      [Event.startOffset (if s.m_nspTransferMode = true then s.m_nspSize else fileSize)
        filename] else []) ++ ev) = [] := by
    rw [writesOf_append, hst, hevw]
    rfl
  have htr : s3.trace = s.trace ++
      Event.usbWrite (statusPacket USB_STATUS_SUCCESS s.m_epMaxPacketSize)
        (usbSendStatus s USB_STATUS_SUCCESS).1 ::
      ((if progressWanted s fileSize = true then
        [Event.startOffset (if s.m_nspTransferMode = true then s.m_nspSize else fileSize)
          filename] else []) ++ ev) := by
    rw [hev]
    simp
  rcases hcase with ⟨-, hr⟩ | ⟨-, hr⟩ | ⟨-, hr⟩
  · by_cases hp : progressWanted s fileSize = true ∧
        (s3.m_nspTransferMode = false ∨ s3.m_nspRemainingSize = 0)
    · rw [if_pos hp] at hr
      refine ⟨_, _, ((if progressWanted s fileSize = true then
        [Event.startOffset (if s.m_nspTransferMode = true then s.m_nspSize else fileSize)
          filename] else []) ++ ev) ++ [Event.progressEnd], hr, ?_, ?_,
        by rw [← d4]; exact f3, f4⟩
      · show s3.trace ++ [Event.progressEnd] = _
        rw [htr]
        simp
      · rw [writesOf_append, hw]
        rfl
    · rw [if_neg hp] at hr
      exact ⟨_, _, _, hr, htr, hw, by rw [← d4]; exact f3, f4⟩
  · exact ⟨_, _, _, hr, htr, hw, by rw [← d4]; exact f3, f4⟩
  · exact ⟨_, _, _, hr, htr, hw, by rw [← d4]; exact f3, f4⟩

/-! ## C11 – C12: unknown commands, the number of statuses -/

theorem routeCommand_unknown (s : UsbManager) (cmdId : Nat) (cmdBlock : QByteArray)
    (h : 6 < cmdId) :
    routeCommand s cmdId cmdBlock = Except.ok (USB_STATUS_UNSUPPORTED_CMD, s) := by
  unfold routeCommand
  simp only [USB_CMD_START_SESSION, USB_CMD_SEND_FILE_PROPERTIES, USB_CMD_CANCEL_FILE_TRANSFER,
    USB_CMD_SEND_NSP_HEADER, USB_CMD_END_SESSION, USB_CMD_START_EXTRACTED_FS_DUMP,
    USB_CMD_END_EXTRACTED_FS_DUMP]
  rw [if_neg (by omega), if_neg (by omega), if_neg (by omega), if_neg (by omega),
    if_neg (by omega), if_neg (by omega), if_neg (by omega)]

/-- C11. Take an iteration of the dispatcher loop that read a header with magic
`NXDT` and a cmdId greater than 6, and the block it declares.  After the reads the
iteration does one thing only, the write of one status with code UNSUPPORTED_CMD
(5): NSP state and files are as before.  The iteration ends without `break`
exactly when the status write succeeded, and then no stop is pending, so the loop
continues with its next iteration. -/
theorem commandHandlerIteration_unknown_command (s : UsbManager)
    (cmdHeader cmdBlock : QByteArray)
    (hread : (readCommand s).1 = some (cmdHeader, cmdBlock))
    (hmagic : cmdHeader.take 4 = USB_MAGIC_WORD)
    (hid : 6 < readU32 cmdHeader 4) :
    ∃ ok c s1, commandHandlerIteration s = Except.ok (c, s1) ∧
      s1.trace = (readCommand s).2.trace ++
        [Event.usbWrite (statusPacket USB_STATUS_UNSUPPORTED_CMD s.m_epMaxPacketSize) ok] ∧
      writesOf s1.trace = writesOf s.trace ++
        [(statusPacket USB_STATUS_UNSUPPORTED_CMD s.m_epMaxPacketSize, ok)] ∧
      s1.nspState = s.nspState ∧ s1.fs = s.fs ∧
      (c = LoopCtl.next ↔ ok = true) ∧
      (ok = true → s1.m_stopRequested = false ∧
        (s.m_stopRequested = false → ∀ fuel,
          commandHandlerLoop (fuel + 1) s = commandHandlerLoop fuel s1)) := by
  obtain ⟨hn, hf, -, hm, hw⟩ := readCommand_frame s
  have hroute := routeCommand_unknown (readCommand s).2 (readU32 cmdHeader 4) cmdBlock hid
  have hproc : processCommand (readCommand s).2 cmdHeader cmdBlock =
      if (usbSendStatus (readCommand s).2 USB_STATUS_UNSUPPORTED_CMD).1 = false then
        Except.ok (LoopCtl.stop, (usbSendStatus (readCommand s).2 USB_STATUS_UNSUPPORTED_CMD).2)
      else
        Except.ok (LoopCtl.next,
          (usbSendStatus (readCommand s).2 USB_STATUS_UNSUPPORTED_CMD).2) := by
    unfold processCommand
    rw [if_neg (not_not.mpr hmagic), hroute]
    dsimp only
    by_cases hok : (usbSendStatus (readCommand s).2 USB_STATUS_UNSUPPORTED_CMD).1 = false
    · rw [if_pos (Or.inl hok), if_pos hok]
    · rw [if_neg hok, if_neg]
      rintro (h0 | h0 | h0)
      · exact hok h0
      · rw [h0] at hid
        exact absurd hid (by decide)
      · exact absurd h0 (by decide)
  have htrace : (usbSendStatus (readCommand s).2 USB_STATUS_UNSUPPORTED_CMD).2.trace =
      (readCommand s).2.trace ++
        [Event.usbWrite (statusPacket USB_STATUS_UNSUPPORTED_CMD s.m_epMaxPacketSize)
          (usbSendStatus (readCommand s).2 USB_STATUS_UNSUPPORTED_CMD).1] := by
    rw [usbSendStatus_trace, hm]
  have hiter := commandHandlerIteration_of_read s cmdHeader cmdBlock hread
  rw [hproc] at hiter
  by_cases hok : (usbSendStatus (readCommand s).2 USB_STATUS_UNSUPPORTED_CMD).1 = false
  · rw [if_pos hok] at hiter
    refine ⟨_, _, _, hiter, htrace, ?_, ?_, ?_, ?_, ?_⟩
    · rw [htrace, writesOf_append, hw]
      rfl
    · unfold usbSendStatus
      rw [usbWrite_nspState, hn]
    · unfold usbSendStatus
      rw [usbWrite_fs, hf]
    · rw [hok]
      exact ⟨fun h0 => absurd h0 (by decide), fun h0 => absurd h0 (by decide)⟩
    · intro h0
      rw [hok] at h0
      exact absurd h0 (by decide)
  · rw [if_neg hok] at hiter
    have hok1 : (usbSendStatus (readCommand s).2 USB_STATUS_UNSUPPORTED_CMD).1 = true := by
      cases hb : (usbSendStatus (readCommand s).2 USB_STATUS_UNSUPPORTED_CMD).1
      · exact absurd hb hok
      · rfl
    refine ⟨_, _, _, hiter, htrace, ?_, ?_, ?_, ?_, ?_⟩
    · rw [htrace, writesOf_append, hw]
      rfl
    · unfold usbSendStatus
      rw [usbWrite_nspState, hn]
    · unfold usbSendStatus
      rw [usbWrite_fs, hf]
    · exact ⟨fun _ => hok1, fun _ => rfl⟩
    · intro _
      refine ⟨usbSendStatus_true_no_stop _ _ hok1, fun hs fuel => ?_⟩
      rw [commandHandlerLoop, if_neg (by rw [hs]; decide), hiter]

/-- C11 at a concrete input: the header `NXDT | 7 | 0 | 0` is answered with
UNSUPPORTED_CMD and the iteration ends without `break`. -/
theorem commandHandlerIteration_unknown_command_witness :
    (readCommand (idleManager 512 [delivered (commandHeaderBytes USB_MAGIC_WORD 7 0)]
        [accepted])).1 = some (commandHeaderBytes USB_MAGIC_WORD 7 0, []) ∧
    (commandHeaderBytes USB_MAGIC_WORD 7 0).take 4 = USB_MAGIC_WORD ∧
    6 < readU32 (commandHeaderBytes USB_MAGIC_WORD 7 0) 4 ∧
    ∃ ok, (stateOf (commandHandlerIteration (idleManager 512
        [delivered (commandHeaderBytes USB_MAGIC_WORD 7 0)] [accepted]))).map
      (fun s => writesOf s.trace) =
      some [(statusPacket USB_STATUS_UNSUPPORTED_CMD 512, ok)] := by
  refine ⟨by decide, by decide, by decide, ?_⟩
  obtain ⟨ok, c, s1, hr, -, hw, -⟩ := commandHandlerIteration_unknown_command
    (idleManager 512 [delivered (commandHeaderBytes USB_MAGIC_WORD 7 0)] [accepted])
    (commandHeaderBytes USB_MAGIC_WORD 7 0) [] (by decide) (by decide) (by decide)
  refine ⟨ok, ?_⟩
  rw [hr]
  show some (writesOf s1.trace) = _
  rw [hw]
  rfl

/-- Every handler but `handleSendFileProperties` returns without any bulk transfer,
provided the block is long enough and the NSP file is held in NSP mode. -/
theorem routeCommand_other (s : UsbManager) (cmdId : Nat) (cmdBlock : QByteArray)
    (hid : cmdId ≠ USB_CMD_SEND_FILE_PROPERTIES)
    (hfit : blockLongEnough cmdId cmdBlock)
    (hwf : s.m_nspTransferMode = true → s.m_nspFile ≠ none) :
    ∃ st s1, routeCommand s cmdId cmdBlock = Except.ok (st, s1) ∧
      s1.trace = s.trace ∧ s1.usbIn = s.usbIn ∧ s1.usbOut = s.usbOut ∧
      s1.m_epMaxPacketSize = s.m_epMaxPacketSize ∧
      s1.m_stopRequested = s.m_stopRequested := by
  obtain ⟨hf0, -, hf5⟩ := hfit
  unfold routeCommand
  by_cases h0 : cmdId = USB_CMD_START_SESSION
  · rw [if_pos h0]
    have h4 : ¬ cmdBlock.length < 4 := by have := hf0 h0; omega
    unfold handleStartSession
    rw [if_neg h4]
    dsimp only
    split_ifs <;> exact ⟨_, _, rfl, rfl, rfl, rfl, rfl, rfl⟩
  · rw [if_neg h0, if_neg hid]
    by_cases h2 : cmdId = USB_CMD_CANCEL_FILE_TRANSFER
    · rw [if_pos h2]
      unfold handleCancelFileTransfer
      obtain ⟨x1, x2, x3, x4, x5⟩ := resetNspInfo_frame s true
      split_ifs
      · exact ⟨_, _, rfl, x1, x2, x3, x4, x5⟩
      · exact ⟨_, _, rfl, rfl, rfl, rfl, rfl, rfl⟩
    · rw [if_neg h2]
      by_cases h3 : cmdId = USB_CMD_SEND_NSP_HEADER
      · rw [if_pos h3]
        unfold handleSendNspHeader
        by_cases hm : s.m_nspTransferMode = false
        · rw [if_pos hm]
          exact ⟨_, _, rfl, rfl, rfl, rfl, rfl, rfl⟩
        · rw [if_neg hm]
          have hmt : s.m_nspTransferMode = true := by
            cases hb : s.m_nspTransferMode
            · exact absurd hb hm
            · rfl
          by_cases hr : s.m_nspRemainingSize ≠ 0
          · rw [if_pos hr]
            exact ⟨_, _, rfl, rfl, rfl, rfl, rfl, rfl⟩
          · rw [if_neg hr]
            by_cases hl : (cmdBlock.length : Int) ≠ s.m_nspHeaderSize
            · rw [if_pos hl]
              exact ⟨_, _, rfl, rfl, rfl, rfl, rfl, rfl⟩
            · rw [if_neg hl]
              cases hf : s.m_nspFile with
              | none => exact absurd hf (hwf hmt)
              | some f =>
                dsimp only
                obtain ⟨x1, x2, x3, x4, x5⟩ := resetNspInfo_frame
                  { s with fs := (QFile.write s.fs { f with pos := 0 } cmdBlock).1,
                           m_nspFile := some (QFile.write s.fs { f with pos := 0 } cmdBlock).2 }
                  false
                exact ⟨_, _, rfl, x1, x2, x3, x4, x5⟩
      · rw [if_neg h3]
        by_cases h4 : cmdId = USB_CMD_END_SESSION
        · rw [if_pos h4]
          exact ⟨_, _, rfl, rfl, rfl, rfl, rfl, rfl⟩
        · rw [if_neg h4]
          by_cases h5 : cmdId = USB_CMD_START_EXTRACTED_FS_DUMP
          · rw [if_pos h5]
            unfold handleStartExtractedFsDump
            have h8 : ¬ cmdBlock.length < 8 := by have := hf5 h5; omega
            split_ifs <;> exact ⟨_, _, rfl, rfl, rfl, rfl, rfl, rfl⟩
          · rw [if_neg h5]
            by_cases h6 : cmdId = USB_CMD_END_EXTRACTED_FS_DUMP
            · rw [if_pos h6]
              exact ⟨_, _, rfl, rfl, rfl, rfl, rfl, rfl⟩
            · rw [if_neg h6]
              exact ⟨_, _, rfl, rfl, rfl, rfl, rfl, rfl⟩

theorem routeCommand_sendFileProperties (s : UsbManager) (cmdBlock : QByteArray) :
    routeCommand s USB_CMD_SEND_FILE_PROPERTIES cmdBlock =
      handleSendFileProperties s cmdBlock := by
  unfold routeCommand
  rw [if_neg (by decide), if_pos rfl]

/-- What a routed handler puts on the wire: the status SUCCESS that opens a data
phase, first of all, when the command is a SendFileProperties that enters one;
nothing otherwise. -/
theorem routeCommand_wire (s : UsbManager) (cmdId : Nat) (cmdBlock : QByteArray)
    (hfit : blockLongEnough cmdId cmdBlock)
    (hwf : s.m_nspTransferMode = true → s.m_nspFile ≠ none) :
    ∃ st s1, routeCommand s cmdId cmdBlock = Except.ok (st, s1) ∧
      s1.m_epMaxPacketSize = s.m_epMaxPacketSize ∧
      s1.usbIn.length ≤ s.usbIn.length ∧
      ((cmdId = USB_CMD_SEND_FILE_PROPERTIES ∧ entersDataPhase s cmdBlock = true) →
        ∃ ok rest, s1.trace = s.trace ++
            Event.usbWrite (statusPacket USB_STATUS_SUCCESS s.m_epMaxPacketSize) ok :: rest ∧
          writesOf rest = []) ∧
      (¬ (cmdId = USB_CMD_SEND_FILE_PROPERTIES ∧ entersDataPhase s cmdBlock = true) →
        s1.trace = s.trace) := by
  by_cases hid : cmdId = USB_CMD_SEND_FILE_PROPERTIES
  · subst hid
    have h16 : 16 ≤ cmdBlock.length := hfit.2.1 rfl
    rw [routeCommand_sendFileProperties]
    by_cases hd : entersDataPhase s cmdBlock = true
    · obtain ⟨r1, r2, -, r4, -⟩ := resolvedFile_frame s cmdBlock
      obtain ⟨st, s1, rest, hr, ht, hw, hm, hin⟩ := receiveFile_writes (resolvedFile s cmdBlock).1
        (readI64 cmdBlock 0) (mid cmdBlock 16 (readU32 cmdBlock 8)) (resolvedFile s cmdBlock).2.1
        (resolvedFile s cmdBlock).2.2
      rw [handleSendFileProperties_data s cmdBlock h16 hd]
      refine ⟨st, s1, hr, by rw [hm, r4], by rw [← r2]; exact hin,
        fun _ => ⟨(usbSendStatus (resolvedFile s cmdBlock).1 USB_STATUS_SUCCESS).1, rest, ?_, hw⟩,
        fun h0 => absurd ⟨rfl, hd⟩ h0⟩
      rw [ht, r1, r4]
    · have hd0 : entersDataPhase s cmdBlock = false := by
        cases hb : entersDataPhase s cmdBlock
        · rfl
        · exact absurd hb hd
      obtain ⟨st, s1, hr, n1, n2, -, n4, -⟩ := handleSendFileProperties_nodata s cmdBlock h16 hd0
      exact ⟨st, s1, hr, n4, by rw [n2], fun h0 => absurd h0.2 hd, fun _ => n1⟩
  · obtain ⟨st, s1, hr, o1, o2, -, o4, -⟩ := routeCommand_other s cmdId cmdBlock hid hfit hwf
    exact ⟨st, s1, hr, o4, by rw [o2], fun h0 => absurd h0.1 hid, fun _ => o1⟩

/-- The status count of an iteration whose block is long enough for its handler.
Take an iteration of the dispatcher loop that read a header with magic `NXDT` and
its block, the block being long enough for the handler and the NSP file held in
NSP mode (so that the handler returns).  The statuses written to the OUT
endpoint in the iteration are exactly two when the command is a SendFileProperties
that passes validation and file resolution with `fileSize != 0` and is not the
record announcing the whole NSP (`entersDataPhase`), the first of them being
SUCCESS and the first thing done after the command was read, so before any data
read; they are exactly one in every other case. -/
theorem commandHandlerIteration_status_count (s : UsbManager)
    (cmdHeader cmdBlock : QByteArray)
    (hread : (readCommand s).1 = some (cmdHeader, cmdBlock))
    (hmagic : cmdHeader.take 4 = USB_MAGIC_WORD)
    (hfit : blockLongEnough (readU32 cmdHeader 4) cmdBlock)
    (hwf : s.m_nspTransferMode = true → s.m_nspFile ≠ none) :
    ∃ c s1 ws, commandHandlerIteration s = Except.ok (c, s1) ∧
      writesOf s1.trace = writesOf (readCommand s).2.trace ++ ws ∧
      (∀ w ∈ ws, ∃ code, w.1 = statusPacket code s.m_epMaxPacketSize) ∧
      ws.length =
        (if readU32 cmdHeader 4 = USB_CMD_SEND_FILE_PROPERTIES ∧
            entersDataPhase (readCommand s).2 cmdBlock = true then 2 else 1) ∧
      ((readU32 cmdHeader 4 = USB_CMD_SEND_FILE_PROPERTIES ∧
          entersDataPhase (readCommand s).2 cmdBlock = true) →
        ∃ ok rest, s1.trace = (readCommand s).2.trace ++
          Event.usbWrite (statusPacket USB_STATUS_SUCCESS s.m_epMaxPacketSize) ok :: rest) := by
  obtain ⟨hn, -, -, hm, -⟩ := readCommand_frame s
  have hwf0 : (readCommand s).2.m_nspTransferMode = true → (readCommand s).2.m_nspFile ≠ none := by
    simp only [UsbManager.nspState, Prod.mk.injEq] at hn
    rw [hn.1, hn.2.2.2.2.1]
    exact hwf
  obtain ⟨st, s1, hroute, r1, -, rdata, rnodata⟩ := routeCommand_wire (readCommand s).2
    (readU32 cmdHeader 4) cmdBlock hfit hwf0
  rw [hm] at r1 rdata
  have hproc : ∃ c, processCommand (readCommand s).2 cmdHeader cmdBlock =
      Except.ok (c, (usbSendStatus s1 st).2) := by
    unfold processCommand
    rw [if_neg (not_not.mpr hmagic), hroute]
    dsimp only
    split_ifs
    · exact ⟨_, rfl⟩
    · exact ⟨_, rfl⟩
  obtain ⟨c, hc⟩ := hproc
  rw [← commandHandlerIteration_of_read s cmdHeader cmdBlock hread] at hc
  have hfinal : (usbSendStatus s1 st).2.trace = s1.trace ++
      [Event.usbWrite (statusPacket st s.m_epMaxPacketSize) (usbSendStatus s1 st).1] := by
    rw [usbSendStatus_trace, r1]
  by_cases hd : readU32 cmdHeader 4 = USB_CMD_SEND_FILE_PROPERTIES ∧
      entersDataPhase (readCommand s).2 cmdBlock = true
  · obtain ⟨ok, rest, ht, hw⟩ := rdata hd
    refine ⟨c, _, [(statusPacket USB_STATUS_SUCCESS s.m_epMaxPacketSize, ok),
      (statusPacket st s.m_epMaxPacketSize, (usbSendStatus s1 st).1)], hc, ?_, ?_, ?_, ?_⟩
    · rw [hfinal, ht, writesOf_append, writesOf_append]
      simp [writesOf, hw]
    · intro w hw0
      simp only [List.mem_cons, List.mem_singleton, List.not_mem_nil, or_false] at hw0
      rcases hw0 with h0 | h0
      · exact ⟨_, by rw [h0]⟩
      · exact ⟨_, by rw [h0]⟩
    · rw [if_pos hd]
      rfl
    · intro _
      exact ⟨ok, rest ++ [Event.usbWrite (statusPacket st s.m_epMaxPacketSize)
        (usbSendStatus s1 st).1], by rw [hfinal, ht]; simp⟩
  · have ht := rnodata hd
    refine ⟨c, _, [(statusPacket st s.m_epMaxPacketSize, (usbSendStatus s1 st).1)], hc, ?_, ?_,
      ?_, fun h0 => absurd h0 hd⟩
    · rw [hfinal, ht, writesOf_append]
      rfl
    · intro w hw0
      simp only [List.mem_singleton] at hw0
      exact ⟨_, by rw [hw0]⟩
    · rw [if_neg hd]
      rfl

/-- The status count at a concrete input: scenario 2 of the specification (a file
of 5 bytes, name `a`, block of 17 bytes) gives two statuses, both SUCCESS. -/
theorem commandHandlerIteration_status_count_witness :
    (readCommand (idleManager 512
        [delivered (commandHeaderBytes USB_MAGIC_WORD USB_CMD_SEND_FILE_PROPERTIES 17),
         delivered (filePropertiesBlock 5 0 [0x61]), delivered [1, 2, 3, 4, 5]]
        [accepted, accepted])).1 =
      some (commandHeaderBytes USB_MAGIC_WORD USB_CMD_SEND_FILE_PROPERTIES 17,
        filePropertiesBlock 5 0 [0x61]) ∧
    (stateOf (commandHandlerIteration (idleManager 512
        [delivered (commandHeaderBytes USB_MAGIC_WORD USB_CMD_SEND_FILE_PROPERTIES 17),
         delivered (filePropertiesBlock 5 0 [0x61]), delivered [1, 2, 3, 4, 5]]
        [accepted, accepted]))).map (fun s => (writesOf s.trace).length) = some 2 := by
  refine ⟨by decide, ?_⟩
  obtain ⟨c, s1, ws, hr, hw, -, hlen, -⟩ := commandHandlerIteration_status_count
    (idleManager 512
      [delivered (commandHeaderBytes USB_MAGIC_WORD USB_CMD_SEND_FILE_PROPERTIES 17),
       delivered (filePropertiesBlock 5 0 [0x61]), delivered [1, 2, 3, 4, 5]]
      [accepted, accepted])
    (commandHeaderBytes USB_MAGIC_WORD USB_CMD_SEND_FILE_PROPERTIES 17)
    (filePropertiesBlock 5 0 [0x61]) (by decide) (by decide)
    ⟨by decide, by decide, by decide⟩ (by decide)
  rw [hr]
  show some (writesOf s1.trace).length = some 2
  rw [hw, List.length_append, hlen, if_pos (by decide)]
  rfl

/-- C12 (the code departs from the claim). The header `NXDT | 0 | 0 | 0` is read
with no stop requested: its magic is valid and its block, declared empty, is read
as the empty array.  Nothing has been written when the header is routed, and
`handleStartSession` then reads `cmdBlock[0..3]` past the end of the block: the
iteration has no defined result, so it does not write the one status the claim
gives for every command other than a SendFileProperties with a data phase. -/
theorem commandHandlerIteration_short_block_no_status :
    (idleManager 512
        [delivered (commandHeaderBytes USB_MAGIC_WORD USB_CMD_START_SESSION 0)]
        [accepted]).m_stopRequested = false ∧
    (readCommand (idleManager 512
        [delivered (commandHeaderBytes USB_MAGIC_WORD USB_CMD_START_SESSION 0)]
        [accepted])).1 =
      some (commandHeaderBytes USB_MAGIC_WORD USB_CMD_START_SESSION 0, []) ∧
    (commandHeaderBytes USB_MAGIC_WORD USB_CMD_START_SESSION 0).take 4 = USB_MAGIC_WORD ∧
    (readCommand (idleManager 512
        [delivered (commandHeaderBytes USB_MAGIC_WORD USB_CMD_START_SESSION 0)]
        [accepted])).2.m_stopRequested = false ∧
    writesOf (readCommand (idleManager 512
        [delivered (commandHeaderBytes USB_MAGIC_WORD USB_CMD_START_SESSION 0)]
        [accepted])).2.trace = [] ∧
    (stateOf (commandHandlerIteration (idleManager 512
        [delivered (commandHeaderBytes USB_MAGIC_WORD USB_CMD_START_SESSION 0)]
        [accepted]))).map (fun s => (writesOf s.trace).length) = none ∧
    faultOf (commandHandlerIteration (idleManager 512
        [delivered (commandHeaderBytes USB_MAGIC_WORD USB_CMD_START_SESSION 0)]
        [accepted])) = some Fault.outOfBounds := by
  decide

/-! ## C13: the progress lifecycle -/

/-- C13 (the code departs from the claim). An NSP transfer with total 0x3000000
(48 MiB, above the 32 MiB threshold) and reserve 0x200 receives two entries of 5
bytes each, every transfer succeeding.  Each entry emits its own progress start
and neither emits `progressEnd` (remaining is not 0), so the trace holds two
progress starts with no `progressEnd` between them: starts and ends do not
alternate. -/
theorem commandHandlerLoop_nsp_entries_start_twice :
    (commandHandlerLoop 3 (nspManager 512 0x3000000 0x200 0
        [delivered (commandHeaderBytes USB_MAGIC_WORD USB_CMD_SEND_FILE_PROPERTIES 17),
         delivered (filePropertiesBlock 5 0 [0x61]), delivered [1, 2, 3, 4, 5],
         delivered (commandHeaderBytes USB_MAGIC_WORD USB_CMD_SEND_FILE_PROPERTIES 17),
         delivered (filePropertiesBlock 5 0 [0x62]), delivered [6, 7, 8, 9, 10]]
        [accepted, accepted, accepted, accepted])).toOption.map
      (fun s => (readsOf s.trace, progressMarks s.trace, alternates (progressMarks s.trace),
        s.m_nspRemainingSize)) =
      some ([16, 17, 5, 16, 17, 5, 16], [true, true], false, 0x3000000 - 0x200 - 10) := by
  decide

/-! ## C14 – C16: cancel, user stop, failed reads -/

/-- C14. In every state in which NSP mode implies that the NSP file is held under
a non-empty path: in NSP mode `handleCancelFileTransfer` returns SUCCESS, the NSP
file is closed and deleted (no other file changes), and the NSP state is cleared
(mode false, total = reserve = remaining = 0, no file, empty path); outside NSP
mode it returns MALFORMED_CMD (7) and changes nothing.  Nothing is sent or read in
either case. -/
theorem handleCancelFileTransfer_spec (s : UsbManager) (cmdBlock : QByteArray)
    (hwf : s.m_nspTransferMode = true → s.m_nspFile ≠ none ∧ s.m_nspFilePath ≠ []) :
    ∃ st s1, handleCancelFileTransfer s cmdBlock = Except.ok (st, s1) ∧
      (s.m_nspTransferMode = true →
        st = USB_STATUS_SUCCESS ∧ s1.nspState = (false, 0, 0, 0, none, []) ∧
        s1.fs.files s.m_nspFilePath = none ∧
        (∀ q, q ≠ s.m_nspFilePath → s1.fs.files q = s.fs.files q) ∧
        s1.trace = s.trace ∧ s1.usbIn = s.usbIn ∧ s1.usbOut = s.usbOut) ∧
      (s.m_nspTransferMode = false → st = USB_STATUS_MALFORMED_CMD ∧ s1 = s) := by
  unfold handleCancelFileTransfer
  by_cases hm : s.m_nspTransferMode = true
  · rw [if_pos hm]
    obtain ⟨hf, hp⟩ := hwf hm
    obtain ⟨x1, x2, x3, -, -⟩ := resetNspInfo_frame s true
    obtain ⟨y1, y2⟩ := resetNspInfo_removes s hf hp
    refine ⟨_, _, rfl, fun _ => ⟨rfl, resetNspInfo_nspState s true, y1, y2, x1, x2, x3⟩,
      fun h0 => ?_⟩
    rw [hm] at h0
    cases h0
  · rw [if_neg hm]
    exact ⟨_, _, rfl, fun h0 => absurd h0 hm, fun _ => ⟨rfl, rfl⟩⟩

/-- C14 at a concrete input: an NSP transfer into `/o/g` is cancelled. -/
theorem handleCancelFileTransfer_spec_witness :
    ((nspManager 512 0x400 0x200 5 [] []).m_nspTransferMode = true →
      (nspManager 512 0x400 0x200 5 [] []).m_nspFile ≠ none ∧
      (nspManager 512 0x400 0x200 5 [] []).m_nspFilePath ≠ []) ∧
    statusOf (handleCancelFileTransfer (nspManager 512 0x400 0x200 5 [] []) []) =
      some USB_STATUS_SUCCESS := by
  refine ⟨by decide, ?_⟩
  obtain ⟨st, s1, hr, hnsp, -⟩ := handleCancelFileTransfer_spec
    (nspManager 512 0x400 0x200 5 [] []) [] (by decide)
  rw [hr, (hnsp (by decide)).1]
  rfl

/-- C15 (the code departs from the claim). An NSP transfer into `/o/g`
(total 0x1000, reserve 0x200) is sent an entry of 5 bytes; `stopServer` runs while
the worker is blocked in the read of the entry's only chunk.  When the dispatcher
loop has ended the stop flag is set and the NSP file is gone, and the NSP state is
cleared: the partial NSP was deleted on a user stop. -/
theorem commandHandlerLoop_stop_in_chunk_read_deletes_nsp :
    ((nspManager 512 0x1000 0x200 0 [] []).fs.files [0x2F, 0x6F, 0x2F, 0x67]).isSome = true ∧
    (commandHandlerLoop 2 (nspManager 512 0x1000 0x200 0
        [delivered (commandHeaderBytes USB_MAGIC_WORD USB_CMD_SEND_FILE_PROPERTIES 17),
         delivered (filePropertiesBlock 5 0 [0x61]), stopDuringRead]
        [accepted, accepted])).toOption.map
      (fun s => (s.m_stopRequested, readsOf s.trace, s.fs.files [0x2F, 0x6F, 0x2F, 0x67],
        s.m_nspTransferMode)) =
      some (true, [16, 17, 5], none, false) := by
  decide

/-- The receive loop under a user stop: when the stop flag, clear at the loop
head, is found set afterwards, the loop was left by the failed-read `return`. -/
theorem receiveLoop_stop (fileSize : Int) (filename fullPath : QString) (u : Bool)
    (fuel : Nat) (s : UsbManager) (file : QFile) (offset : Int) (blockSize : Nat)
    (e : LoopExit) (s1 : UsbManager)
    (h : receiveLoop fileSize filename fullPath u fuel s file offset blockSize
      = Except.ok (e, s1))
    (hs : s.m_stopRequested = false) (hs1 : s1.m_stopRequested = true) :
    e = LoopExit.returned USB_STATUS_HOST_IO_ERROR := by
  have hnostop : ∀ (s : UsbManager) (n : Nat), (usbRead s n USB_TRANSFER_TIMEOUT).1 ≠ [] →
      (usbRead s n USB_TRANSFER_TIMEOUT).2.m_stopRequested = false := by
    intro s n hc
    cases hb : (usbRead s n USB_TRANSFER_TIMEOUT).2.m_stopRequested
    · rfl
    · exact absurd (usbRead_stop s n _ hb) hc
  refine receiveLoop_induction fileSize filename fullPath u
    (fun s e s1 => s.m_stopRequested = false → s1.m_stopRequested = true →
      e = LoopExit.returned USB_STATUS_HOST_IO_ERROR)
    ?_ ?_ ?_ ?_ fuel s file offset blockSize e s1 h hs hs1
  · intro s h0 h1
    rw [h0] at h1
    cases h1
  · intro s n _ _ _
    rfl
  · intro s n hc _ _ h1
    rw [(discardPartialFile_frame _ fullPath u).2.2.2.1, hnostop s n hc] at h1
    cases h1
  · intro s n file off e s1 hc _ ih _ h1
    apply ih _ h1
    rw [(chunkReceived_frame fileSize filename u _ file _ off).2.2.2.1]
    exact hnostop s n hc

theorem resolvedFile_nsp (s : UsbManager) (cmdBlock : QByteArray) (f : QFile)
    (hd : entersDataPhase s cmdBlock = true)
    (hm : s.m_nspTransferMode = true) (hf : s.m_nspFile = some f) :
    resolvedFile s cmdBlock = (s, s.m_nspFilePath, f) := by
  unfold resolvedFile
  dsimp only
  rw [enableNspTransferMode_of_data s cmdBlock hd, if_neg, hf]
  rw [hm, hf]
  simp

theorem resolvedFile_single (s : UsbManager) (cmdBlock : QByteArray)
    (hd : entersDataPhase s cmdBlock = true)
    (hm : s.m_nspTransferMode = false) :
    (resolvedFile s cmdBlock).2.1 = filePath s.m_outputDir (mid cmdBlock 16 (readU32 cmdBlock 8)) ∧
    (resolvedFile s cmdBlock).1.nspState = s.nspState := by
  unfold resolvedFile
  dsimp only
  rw [enableNspTransferMode_of_data s cmdBlock hd, if_pos (Or.inl hm)]
  refine ⟨rfl, ?_⟩
  obtain ⟨-, -, -, -, -, o6, o7, o8, o9, -, o11⟩ := openOutputFile_frame s
    (filePath s.m_outputDir (mid cmdBlock 16 (readU32 cmdBlock 8)))
  obtain ⟨o12, o13⟩ := o11 hm
  simp only [UsbManager.nspState, o6, o7, o8, o9, o12, o13]

theorem resolvedFile_mode (s : UsbManager) (cmdBlock : QByteArray)
    (hd : entersDataPhase s cmdBlock = true)
    (hwf : s.m_nspTransferMode = true → s.m_nspFile ≠ none) :
    (resolvedFile s cmdBlock).1.nspState = s.nspState := by
  cases hm : s.m_nspTransferMode
  · exact (resolvedFile_single s cmdBlock hd hm).2
  · cases hf : s.m_nspFile with
    | none => exact absurd hf (hwf hm)
    | some f => rw [resolvedFile_nsp s cmdBlock f hd hm hf]

theorem progressWanted_congr (a b : UsbManager) (fileSize : Int)
    (h : a.nspState = b.nspState) : progressWanted a fileSize = progressWanted b fileSize := by
  simp only [UsbManager.nspState, Prod.mk.injEq] at h
  unfold progressWanted
  rw [h.1, h.2.1]

/-- The run of a SendFileProperties block that enters a data phase, seen from the
object `s` the handler was called on: the receive loop starts after the status
and the optional progress start, and the handler returns what the loop exit
dictates. -/
theorem handleSendFileProperties_data_run (s : UsbManager) (cmdBlock : QByteArray)
    (h : 16 ≤ cmdBlock.length) (hd : entersDataPhase s cmdBlock = true)
    (hwf : s.m_nspTransferMode = true → s.m_nspFile ≠ none) :
    ∃ e s3 ok start, receiveLoop (readI64 cmdBlock 0) (mid cmdBlock 16 (readU32 cmdBlock 8))
        (resolvedFile s cmdBlock).2.1 (progressWanted s (readI64 cmdBlock 0))
        (readI64 cmdBlock 0).toNat start (resolvedFile s cmdBlock).2.2 0
        USB_TRANSFER_BLOCK_SIZE = Except.ok (e, s3) ∧
      start.nspState = s.nspState ∧
      start.m_stopRequested = (usbSendStatus (resolvedFile s cmdBlock).1
        USB_STATUS_SUCCESS).2.m_stopRequested ∧
      start.trace = s.trace ++
        Event.usbWrite (statusPacket USB_STATUS_SUCCESS s.m_epMaxPacketSize) ok ::
          (if progressWanted s (readI64 cmdBlock 0) = true then
            [Event.startOffset
              (if s.m_nspTransferMode = true then s.m_nspSize else readI64 cmdBlock 0)
              (mid cmdBlock 16 (readU32 cmdBlock 8))]
           else []) ∧
      ((e = LoopExit.completed ∧
          handleSendFileProperties s cmdBlock =
            Except.ok (USB_STATUS_SUCCESS,
              if progressWanted s (readI64 cmdBlock 0) = true ∧
                  (s3.m_nspTransferMode = false ∨ s3.m_nspRemainingSize = 0) then
                { s3 with trace := s3.trace ++ [Event.progressEnd] }
              else s3)) ∨
        (e = LoopExit.returned USB_STATUS_SUCCESS ∧
          handleSendFileProperties s cmdBlock = Except.ok (USB_STATUS_SUCCESS, s3)) ∨
        (e = LoopExit.returned USB_STATUS_HOST_IO_ERROR ∧
          handleSendFileProperties s cmdBlock = Except.ok (USB_STATUS_HOST_IO_ERROR, s3))) := by
  have hns := resolvedFile_mode s cmdBlock hd hwf
  have hp := progressWanted_congr _ _ (readI64 cmdBlock 0) hns
  obtain ⟨r1, -, -, r4, -⟩ := resolvedFile_frame s cmdBlock
  obtain ⟨e, s3, hloop, hcase⟩ := receiveFile_cases (resolvedFile s cmdBlock).1
    (readI64 cmdBlock 0) (mid cmdBlock 16 (readU32 cmdBlock 8)) (resolvedFile s cmdBlock).2.1
    (resolvedFile s cmdBlock).2.2
  obtain ⟨d1, -, -, -, d5⟩ := dataPhaseStart_frame (resolvedFile s cmdBlock).1
    (readI64 cmdBlock 0) (mid cmdBlock 16 (readU32 cmdBlock 8))
  rw [← handleSendFileProperties_data s cmdBlock h hd, hp] at hcase
  rw [hp] at hloop
  have hmode : (resolvedFile s cmdBlock).1.m_nspTransferMode = s.m_nspTransferMode ∧
      (resolvedFile s cmdBlock).1.m_nspSize = s.m_nspSize := by
    simp only [UsbManager.nspState, Prod.mk.injEq] at hns
    exact ⟨hns.1, hns.2.1⟩
  refine ⟨e, s3, (usbSendStatus (resolvedFile s cmdBlock).1 USB_STATUS_SUCCESS).1,
    dataPhaseStart (resolvedFile s cmdBlock).1 (readI64 cmdBlock 0)
      (mid cmdBlock 16 (readU32 cmdBlock 8)), hloop, d1.trans hns, ?_, ?_, hcase⟩
  · unfold dataPhaseStart
    dsimp only
    split_ifs <;> rfl
  · rw [d5, r1, r4, hp, hmode.1, hmode.2]

/-- What a user stop during a bulk read does, in general.  (a) If the stop flag
is raised while the worker is blocked in the read of the next command header,
the dispatcher loop ends at once with the
files and the NSP state as they were: a partial NSP file is not deleted.  (b) In
NSP mode with the NSP file held under a non-empty path, if no stop is pending when
the data reads of an entry begin and the stop flag is found set when
`handleSendFileProperties` returns, that is, it was raised during the read of a
chunk, then the handler returns HOST_IO_ERROR, the NSP file is removed and the NSP
state is cleared. -/
theorem stop_during_bulk_read (s : UsbManager) :
    ((usbRead s USB_CMD_HEADER_SIZE (-1)).2.m_stopRequested = true → ∀ fuel,
      ∃ s1, commandHandlerLoop (fuel + 1) s = Except.ok s1 ∧ s1.fs = s.fs ∧
        s1.nspState = s.nspState) ∧
    (∀ cmdBlock : QByteArray, 16 ≤ cmdBlock.length →
      s.m_nspTransferMode = true → s.m_nspFile ≠ none → s.m_nspFilePath ≠ [] →
      entersDataPhase s cmdBlock = true →
      (usbSendStatus s USB_STATUS_SUCCESS).2.m_stopRequested = false →
      ∃ st s1, handleSendFileProperties s cmdBlock = Except.ok (st, s1) ∧
        (s1.m_stopRequested = true →
          st = USB_STATUS_HOST_IO_ERROR ∧ s1.fs.files s.m_nspFilePath = none ∧
          s1.nspState = (false, 0, 0, 0, none, []))) := by
  constructor
  · intro hstop fuel
    have hempty := usbRead_stop s USB_CMD_HEADER_SIZE (-1) hstop
    have hrc : readCommand s = (none, (usbRead s USB_CMD_HEADER_SIZE (-1)).2) := by
      unfold readCommand
      dsimp only
      rw [if_pos hempty]
    have hit : commandHandlerIteration s =
        Except.ok (LoopCtl.stop, (usbRead s USB_CMD_HEADER_SIZE (-1)).2) := by
      unfold commandHandlerIteration
      rw [hrc]
    by_cases hs : s.m_stopRequested = true
    · exact ⟨s, by rw [commandHandlerLoop, if_pos hs], rfl, rfl⟩
    · refine ⟨_, by rw [commandHandlerLoop, if_neg hs, hit], usbRead_fs s _ _,
        usbRead_nspState s _ _⟩
  · intro cmdBlock h16 hm hf hp hd hns
    obtain ⟨f, hsome⟩ : ∃ f, s.m_nspFile = some f := by
      cases h0 : s.m_nspFile with
      | none => exact absurd h0 hf
      | some f => exact ⟨f, rfl⟩
    have hres := resolvedFile_nsp s cmdBlock f hd hm hsome
    obtain ⟨e, s3, ok, start, hloop, hstart, hstop, -, hcase⟩ :=
      handleSendFileProperties_data_run s cmdBlock h16 hd (fun _ => hf)
    rw [hres] at hstop hloop
    dsimp only at hstop hloop
    rw [hns] at hstop
    have hsm : start.m_nspTransferMode = true ∧ start.m_nspFile = s.m_nspFile ∧
        start.m_nspFilePath = s.m_nspFilePath := by
      simp only [UsbManager.nspState, Prod.mk.injEq] at hstart
      exact ⟨hstart.1.trans hm, hstart.2.2.2.2.1, hstart.2.2.2.2.2⟩
    obtain ⟨-, hret⟩ := receiveLoop_nsp _ _ _ _ _ _ _ _ _ _ _ hloop hsm.1
    rw [hsm.2.1, hsm.2.2] at hret
    rcases hcase with ⟨he, hr⟩ | ⟨he, hr⟩ | ⟨he, hr⟩
    · refine ⟨_, _, hr, fun h1 => ?_⟩
      have h2 : s3.m_stopRequested = true := by
        split_ifs at h1
        · exact h1
        · exact h1
      have := receiveLoop_stop _ _ _ _ _ _ _ _ _ _ _ hloop hstop h2
      rw [he] at this
      cases this
    · refine ⟨_, _, hr, fun h1 => ?_⟩
      have := receiveLoop_stop _ _ _ _ _ _ _ _ _ _ _ hloop hstop h1
      rw [he] at this
      cases this
    · refine ⟨_, _, hr, fun _ => ?_⟩
      obtain ⟨c1, c2⟩ := hret (by rw [he]; decide)
      exact ⟨rfl, c2 hf hp, c1⟩

/-- A user stop at a concrete input: the stop flag is raised while the worker
waits for the next header of an NSP transfer into `/o/g`; the loop ends and the
file is still there. -/
theorem stop_during_bulk_read_witness :
    (usbRead (nspManager 512 0x1000 0x200 5 [stopDuringRead] []) USB_CMD_HEADER_SIZE
      (-1)).2.m_stopRequested = true ∧
    ∃ s1, commandHandlerLoop 1 (nspManager 512 0x1000 0x200 5 [stopDuringRead] [])
        = Except.ok s1 ∧
      (s1.fs.files [0x2F, 0x6F, 0x2F, 0x67]).isSome = true := by
  refine ⟨by decide, ?_⟩
  obtain ⟨s1, hr, hfs, -⟩ := (stop_during_bulk_read
    (nspManager 512 0x1000 0x200 5 [stopDuringRead] [])).1 (by decide) 0
  refine ⟨s1, hr, ?_⟩
  rw [hfs]
  decide

theorem chunksOf_of_start (tr : List Event) (w : Event) (l : List Event)
    (hw : chunksOf [w] = []) (hl : chunksOf l = []) :
    chunksOf (tr ++ w :: l) = chunksOf tr := by
  have : tr ++ w :: l = tr ++ ([w] ++ l) := rfl
  rw [this, chunksOf_append, chunksOf_append, hw, hl]
  simp

/-- C16. For every SendFileProperties block of at least 16 bytes, received with
the NSP file held under a non-empty path when in NSP mode, the handler returns;
if one of its chunk reads fails (hands back nothing), the status is HOST_IO_ERROR
(8); in single-file mode the output file is removed and the NSP state is as
before, in NSP mode the NSP file is removed and the NSP state is cleared; and the
progress events of the call are a start followed by a `progressEnd` when progress
was started for the transfer, none at all when it was not. -/
theorem handleSendFileProperties_read_failure (s : UsbManager) (cmdBlock : QByteArray)
    (h : 16 ≤ cmdBlock.length)
    (hwf : s.m_nspTransferMode = true → s.m_nspFile ≠ none ∧ s.m_nspFilePath ≠ []) :
    ∃ st s1 cs, handleSendFileProperties s cmdBlock = Except.ok (st, s1) ∧
      chunksOf s1.trace = chunksOf s.trace ++ cs ∧
      ([] ∈ cs →
        st = USB_STATUS_HOST_IO_ERROR ∧
        (s.m_nspTransferMode = false →
          s1.fs.files (filePath s.m_outputDir (mid cmdBlock 16 (readU32 cmdBlock 8))) = none ∧
          s1.nspState = s.nspState) ∧
        (s.m_nspTransferMode = true →
          s1.fs.files s.m_nspFilePath = none ∧ s1.nspState = (false, 0, 0, 0, none, [])) ∧
        progressMarks s1.trace = progressMarks s.trace ++
          (if progressWanted s (readI64 cmdBlock 0) = true then [true, false] else [])) := by
  by_cases hd : entersDataPhase s cmdBlock = true
  · obtain ⟨e, s3, ok, start, hloop, hstart, -, htrace, hcase⟩ :=
      handleSendFileProperties_data_run s cmdBlock h hd (fun hm => (hwf hm).1)
    obtain ⟨cs, hcs, hfail, -⟩ := receiveLoop_chunks _ _ _ _ _ _ _ _ _ _ _ hloop
    have hmarks := receiveLoop_marks _ _ _ _ _ _ _ _ _ _ _ hloop
    have hc0 : chunksOf start.trace = chunksOf s.trace := by
      rw [htrace]
      apply chunksOf_of_start
      · rfl
      · split_ifs <;> rfl
    rw [hc0] at hcs
    have hsf : start.m_nspTransferMode = s.m_nspTransferMode ∧
        start.m_nspFile = s.m_nspFile ∧ start.m_nspFilePath = s.m_nspFilePath := by
      simp only [UsbManager.nspState, Prod.mk.injEq] at hstart
      exact ⟨hstart.1, hstart.2.2.2.2.1, hstart.2.2.2.2.2⟩
    rcases hcase with ⟨he, hr⟩ | ⟨he, hr⟩ | ⟨he, hr⟩
    · refine ⟨_, _, cs, hr, ?_, fun hmem => ?_⟩
      · split_ifs
        · show chunksOf (s3.trace ++ [Event.progressEnd]) = _
          rw [chunksOf_append, hcs]
          simp [chunksOf]
        · exact hcs
      · have := hfail.1 hmem
        rw [he] at this
        cases this
    · refine ⟨_, _, cs, hr, hcs, fun hmem => ?_⟩
      have := hfail.1 hmem
      rw [he] at this
      cases this
    · refine ⟨_, _, cs, hr, hcs, fun _ => ⟨rfl, fun hm => ?_, fun hm => ?_, ?_⟩⟩
      · obtain ⟨c1, c2⟩ := receiveLoop_single _ _ _ _ _ _ _ _ _ _ _ hloop (hsf.1.trans hm)
        have hpath := (resolvedFile_single s cmdBlock hd hm).1
        rw [hpath] at c2
        exact ⟨c2 (by rw [he]; decide), c1.trans hstart⟩
      · obtain ⟨-, c2⟩ := receiveLoop_nsp _ _ _ _ _ _ _ _ _ _ _ hloop (hsf.1.trans hm)
        obtain ⟨c3, c4⟩ := c2 (by rw [he]; decide)
        rw [hsf.2.1, hsf.2.2] at c4
        exact ⟨c4 (hwf hm).1 (hwf hm).2, c3⟩
      · rw [hmarks, htrace, he]
        have hsplit : ∀ l : List Event, s.trace ++
            Event.usbWrite (statusPacket USB_STATUS_SUCCESS s.m_epMaxPacketSize) ok :: l =
            s.trace ++ ([Event.usbWrite (statusPacket USB_STATUS_SUCCESS s.m_epMaxPacketSize) ok]
              ++ l) := fun _ => rfl
        rw [hsplit, progressMarks_append, progressMarks_append]
        by_cases hu : progressWanted s (readI64 cmdBlock 0) = true
        · simp [hu, progressMarks]
        · simp [hu, progressMarks]
  · have hd0 : entersDataPhase s cmdBlock = false := by
      cases hb : entersDataPhase s cmdBlock
      · rfl
      · exact absurd hb hd
    obtain ⟨st, s1, hr, n1, -⟩ := handleSendFileProperties_nodata s cmdBlock h hd0
    exact ⟨st, s1, [], hr, by rw [n1]; simp, fun hmem => absurd hmem (List.not_mem_nil _)⟩

/-- C16 at a concrete input: a single file of 5 bytes whose only chunk read fails
(the device is gone). -/
theorem handleSendFileProperties_read_failure_witness :
    16 ≤ (filePropertiesBlock 5 0 [0x61]).length ∧
    ((idleManager 512 [] [accepted]).m_nspTransferMode = true →
      (idleManager 512 [] [accepted]).m_nspFile ≠ none ∧
      (idleManager 512 [] [accepted]).m_nspFilePath ≠ []) ∧
    (stateOf (handleSendFileProperties (idleManager 512 [] [accepted])
      (filePropertiesBlock 5 0 [0x61]))).map (fun s => chunksOf s.trace) = some [[]] ∧
    statusOf (handleSendFileProperties (idleManager 512 [] [accepted])
      (filePropertiesBlock 5 0 [0x61])) = some USB_STATUS_HOST_IO_ERROR := by
  have hchunks : (stateOf (handleSendFileProperties (idleManager 512 [] [accepted])
      (filePropertiesBlock 5 0 [0x61]))).map (fun s => chunksOf s.trace) = some [[]] := by
    decide
  refine ⟨by decide, by decide, hchunks, ?_⟩
  obtain ⟨st, s1, cs, hr, hcs, hfail⟩ := handleSendFileProperties_read_failure
    (idleManager 512 [] [accepted]) (filePropertiesBlock 5 0 [0x61]) (by decide) (by decide)
  rw [hr] at hchunks ⊢
  have hcs1 : chunksOf s1.trace = [[]] := by
    simpa [stateOf] using hchunks
  have hmem : [] ∈ cs := by
    rw [hcs] at hcs1
    have : cs = [[]] := by simpa [idleManager, chunksOf] using hcs1
    rw [this]
    simp
  rw [(hfail hmem).1]
  rfl

/-! ## C17 and C20: the free-space flag, the length of the block -/

/-- C17 (the code departs from the claim). With the disable-free-space-check flag
set, a file of 5 bytes is announced while the target filesystem has 0 bytes
available: the handler returns HOST_IO_ERROR (8) from the free-space comparison,
reading nothing, whereas on a disk with ample space the same call receives the
file and returns SUCCESS. -/
theorem handleSendFileProperties_ignores_free_space_flag :
    (noSpaceCheckManager fullDisk [delivered [1, 2, 3, 4, 5]] [accepted]).m_disableFreeSpaceCheck
      = true ∧
    (stateOf (handleSendFileProperties
        (noSpaceCheckManager fullDisk [delivered [1, 2, 3, 4, 5]] [accepted])
        (filePropertiesBlock 5 0 [0x61]))).map (fun s => readsOf s.trace) = some [] ∧
    statusOf (handleSendFileProperties
        (noSpaceCheckManager fullDisk [delivered [1, 2, 3, 4, 5]] [accepted])
        (filePropertiesBlock 5 0 [0x61])) = some USB_STATUS_HOST_IO_ERROR ∧
    statusOf (handleSendFileProperties
        (noSpaceCheckManager emptyDisk [delivered [1, 2, 3, 4, 5]] [accepted])
        (filePropertiesBlock 5 0 [0x61])) = some USB_STATUS_SUCCESS := by
  decide

/-- C20 (the code departs from the claim). The header `NXDT | 0 | 0 | 0` declares
a StartSession with no block: the dispatcher reads no block and routes the empty
array to `handleStartSession`, which reads `cmdBlock[0..3]` past its end.  In the
same way a SendFileProperties with a block of 5 bytes and a StartExtractedFsDump
with no block are read past their end. -/
theorem commandHandlerIteration_short_block_out_of_bounds :
    (readCommand (idleManager 512
        [delivered (commandHeaderBytes USB_MAGIC_WORD USB_CMD_START_SESSION 0)]
        [accepted])).1 =
      some (commandHeaderBytes USB_MAGIC_WORD USB_CMD_START_SESSION 0, []) ∧
    faultOf (commandHandlerIteration (idleManager 512
        [delivered (commandHeaderBytes USB_MAGIC_WORD USB_CMD_START_SESSION 0)]
        [accepted])) = some Fault.outOfBounds ∧
    faultOf (commandHandlerIteration (idleManager 512
        [delivered (commandHeaderBytes USB_MAGIC_WORD USB_CMD_SEND_FILE_PROPERTIES 5),
         delivered [1, 2, 3, 4, 5]]
        [accepted])) = some Fault.outOfBounds ∧
    faultOf (commandHandlerIteration (idleManager 512
        [delivered (commandHeaderBytes USB_MAGIC_WORD USB_CMD_START_EXTRACTED_FS_DUMP 0)]
        [accepted])) = some Fault.outOfBounds := by
  decide

/-! ## C18: chunking -/

theorem isValueAligned_pow (s : UsbManager) (k : Nat) (hk : k ≤ 23)
    (hm : s.m_epMaxPacketSize = 2 ^ k) (v : Nat) :
    isValueAlignedToEndpointPacketSize s v = true ↔ v % 2 ^ k = 0 := by
  have h1 : 1 ≤ 2 ^ k := Nat.one_le_two_pow
  have h2 : 2 ^ k ≤ 2 ^ 23 := Nat.pow_le_pow_right (by decide) hk
  have hmask : toU64 (((2 ^ k : Nat) : Int) - 1) = 2 ^ k - 1 := by
    generalize 2 ^ k = m at h1 h2
    unfold toU64
    omega
  unfold isValueAlignedToEndpointPacketSize
  rw [hm, hmask, Nat.and_pow_two_sub_one_eq_mod]
  simp

theorem pow_dvd_blockSize (k : Nat) (hk : k ≤ 23) : 2 ^ k ∣ USB_TRANSFER_BLOCK_SIZE := by
  have : USB_TRANSFER_BLOCK_SIZE = 2 ^ 23 := by
    unfold USB_TRANSFER_BLOCK_SIZE
    norm_num
  rw [this]
  exact Nat.pow_dvd_pow 2 hk

theorem chunkReads_last (m R : Nat) (h0 : 0 < R) (hR : R ≤ USB_TRANSFER_BLOCK_SIZE) :
    chunkReads m R = [R + (if R % m = 0 then 1 else 0)] := by
  unfold chunkReads
  unfold USB_TRANSFER_BLOCK_SIZE at hR ⊢
  have hq : (R - 1) / 8388608 = 0 := by omega
  rw [hq]
  simp

theorem chunkReads_step (m R : Nat) (hm : m ∣ USB_TRANSFER_BLOCK_SIZE)
    (hR : USB_TRANSFER_BLOCK_SIZE < R) :
    chunkReads m R = USB_TRANSFER_BLOCK_SIZE :: chunkReads m (R - USB_TRANSFER_BLOCK_SIZE) := by
  have hmod : R % m = 0 ↔ (R - USB_TRANSFER_BLOCK_SIZE) % m = 0 := by
    rw [← Nat.dvd_iff_mod_eq_zero, ← Nat.dvd_iff_mod_eq_zero]
    constructor
    · intro h
      exact Nat.dvd_sub' h hm
    · intro h
      have : R = (R - USB_TRANSFER_BLOCK_SIZE) + USB_TRANSFER_BLOCK_SIZE := by omega
      rw [this]
      exact Nat.dvd_add h hm
  have hite : (if R % m = 0 then 1 else 0) =
      (if (R - USB_TRANSFER_BLOCK_SIZE) % m = 0 then 1 else 0) := by
    by_cases h : R % m = 0
    · rw [if_pos h, if_pos (hmod.1 h)]
    · rw [if_neg h, if_neg (fun h1 => h (hmod.2 h1))]
  unfold chunkReads
  rw [hite]
  unfold USB_TRANSFER_BLOCK_SIZE at hR ⊢
  have hq : (R - 1) / 8388608 = (R - 8388608 - 1) / 8388608 + 1 := by omega
  have hl : R - 8388608 * ((R - 1) / 8388608) =
      (R - 8388608) - 8388608 * ((R - 8388608 - 1) / 8388608) := by omega
  rw [hl, hq, List.replicate_succ, List.cons_append]

/-- The read sizes requested by a receive loop that is left by its condition. -/
theorem receiveLoop_reads (k N : Nat) (hk : k ≤ 23) (hN : (N : Int) < 2 ^ 63)
    (filename fullPath : QString) (u : Bool) :
    ∀ (fuel : Nat) (s : UsbManager) (file : QFile) (offset : Int) (blockSize : Nat)
      (s1 : UsbManager),
      s.m_epMaxPacketSize = 2 ^ k →
      ((N : Int) ≤ offset ∨ (0 ≤ offset ∧ blockSize = USB_TRANSFER_BLOCK_SIZE)) →
      receiveLoop (N : Int) filename fullPath u fuel s file offset blockSize
        = Except.ok (LoopExit.completed, s1) →
      readsOf s1.trace = readsOf s.trace ++
        (if (N : Int) ≤ offset then [] else chunkReads (2 ^ k) ((N : Int) - offset).toNat) := by
  intro fuel
  induction fuel with
  | zero =>
    intro s file offset blockSize s1 _ _ h
    rw [receiveLoop] at h
    split_ifs at h with hlt
    cases h
    rw [if_pos (by omega)]
    simp
  | succ n ih =>
    intro s file offset blockSize s1 hm hinv h
    by_cases hlt : offset < (N : Int)
    · have hoff : 0 ≤ offset ∧ blockSize = USB_TRANSFER_BLOCK_SIZE := by
        rcases hinv with h0 | h0
        · omega
        · exact h0
      obtain ⟨hoff0, hbs⟩ := hoff
      subst hbs
      rw [receiveLoop_succ _ _ _ _ _ _ _ _ _ hlt] at h
      have hnb : nextBlockSize (N : Int) offset USB_TRANSFER_BLOCK_SIZE =
          min USB_TRANSFER_BLOCK_SIZE ((N : Int) - offset).toNat := by
        unfold nextBlockSize toU64 USB_TRANSFER_BLOCK_SIZE
        split_ifs <;> omega
      have hrs : chunkReadSize s (N : Int) offset USB_TRANSFER_BLOCK_SIZE =
          if USB_TRANSFER_BLOCK_SIZE < ((N : Int) - offset).toNat then USB_TRANSFER_BLOCK_SIZE
          else ((N : Int) - offset).toNat +
            (if ((N : Int) - offset).toNat % 2 ^ k = 0 then 1 else 0) := by
        unfold chunkReadSize
        rw [hnb]
        have hal := isValueAligned_pow s k hk hm
          (min USB_TRANSFER_BLOCK_SIZE ((N : Int) - offset).toNat)
        by_cases hbig : USB_TRANSFER_BLOCK_SIZE < ((N : Int) - offset).toNat
        · rw [if_pos hbig, if_neg, Nat.min_eq_left (Nat.le_of_lt hbig)]
          rintro ⟨hge, -⟩
          rw [Nat.min_eq_left (Nat.le_of_lt hbig)] at hge
          unfold toU64 USB_TRANSFER_BLOCK_SIZE at hge hbig
          omega
        · rw [if_neg hbig]
          have hmin : min USB_TRANSFER_BLOCK_SIZE ((N : Int) - offset).toNat =
              ((N : Int) - offset).toNat := Nat.min_eq_right (by omega)
          rw [hmin] at hal ⊢
          have hge : toU64 (offset + (((N : Int) - offset).toNat : Nat)) ≥ toU64 (N : Int) := by
            unfold toU64
            omega
          by_cases ha : ((N : Int) - offset).toNat % 2 ^ k = 0
          · rw [if_pos ⟨hge, hal.2 ha⟩, if_pos ha]
          · rw [if_neg (fun h0 => ha (hal.1 h0.2)), if_neg ha]
            rfl
      generalize hn : chunkReadSize s (N : Int) offset USB_TRANSFER_BLOCK_SIZE = rs at h hrs
      by_cases hc : (usbRead s rs USB_TRANSFER_TIMEOUT).1 = []
      · rw [if_pos hc] at h
        cases h
      · rw [if_neg hc] at h
        by_cases hcan : isCancelChunk (usbRead s rs USB_TRANSFER_TIMEOUT).1 = true
        · rw [if_pos hcan] at h
          cases h
        · rw [if_neg hcan] at h
          have hlen : (usbRead s rs USB_TRANSFER_TIMEOUT).1.length = rs :=
            (usbRead_length s rs USB_TRANSFER_TIMEOUT).resolve_left hc
          rw [hlen] at h
          have hm3 : (chunkReceived (N : Int) filename u (usbRead s rs USB_TRANSFER_TIMEOUT).2
              file (usbRead s rs USB_TRANSFER_TIMEOUT).1 (offset + rs)).m_epMaxPacketSize
              = 2 ^ k := by
            rw [(chunkReceived_frame _ _ _ _ _ _ _).2.2.1, usbRead_maxPacketSize, hm]
          have htr : readsOf (chunkReceived (N : Int) filename u
              (usbRead s rs USB_TRANSFER_TIMEOUT).2 file (usbRead s rs USB_TRANSFER_TIMEOUT).1
              (offset + rs)).trace = readsOf s.trace ++ [rs] := by
            rw [(chunkReceived_frame _ _ _ _ _ _ _).2.2.2.2.2.2.2.2, readsOf_append,
              usbRead_trace, readsOf_append]
            by_cases hu : u = true <;> simp [hu, readsOf]
          by_cases hbig : USB_TRANSFER_BLOCK_SIZE < ((N : Int) - offset).toNat
          · rw [if_pos hbig] at hrs
            subst hrs
            have hnb2 : nextBlockSize (N : Int) offset USB_TRANSFER_BLOCK_SIZE =
                USB_TRANSFER_BLOCK_SIZE := by
              rw [hnb]
              exact Nat.min_eq_left (Nat.le_of_lt hbig)
            rw [hnb2] at h
            have hrec := ih _ _ _ _ _ hm3 (Or.inr ⟨by omega, rfl⟩) h
            have hnotle : ¬ (N : Int) ≤ offset + (USB_TRANSFER_BLOCK_SIZE : Nat) := by
              unfold USB_TRANSFER_BLOCK_SIZE at hbig ⊢
              omega
            have hnotle0 : ¬ (N : Int) ≤ offset := by omega
            rw [hrec, htr, if_neg hnotle, if_neg hnotle0, List.append_assoc,
              chunkReads_step (2 ^ k) _ (pow_dvd_blockSize k hk) hbig]
            have hsub : ((N : Int) - (offset + (USB_TRANSFER_BLOCK_SIZE : Nat))).toNat =
                ((N : Int) - offset).toNat - USB_TRANSFER_BLOCK_SIZE := by
              unfold USB_TRANSFER_BLOCK_SIZE at hbig ⊢
              omega
            rw [hsub]
            rfl
          · rw [if_neg hbig] at hrs
            have hge : (N : Int) ≤ offset + (rs : Nat) := by
              rw [hrs]
              split_ifs <;> omega
            have hrec := ih _ _ _ _ _ hm3 (Or.inl hge) h
            have hnotle0 : ¬ (N : Int) ≤ offset := by omega
            rw [hrec, htr, if_pos hge, if_neg hnotle0,
              chunkReads_last (2 ^ k) _ (by omega) (by omega), hrs]
            simp
    · rw [receiveLoop, if_neg hlt] at h
      cases h
      rw [if_pos (by omega)]
      simp

theorem chunkReads_shape (k N : Nat) (hk : k ≤ 23) (hN0 : 0 < N) :
    (chunkReads (2 ^ k) N).length
      = (N + USB_TRANSFER_BLOCK_SIZE - 1) / USB_TRANSFER_BLOCK_SIZE ∧
    (chunkReads (2 ^ k) N).dropLast
      = List.replicate ((N + USB_TRANSFER_BLOCK_SIZE - 1) / USB_TRANSFER_BLOCK_SIZE - 1)
          USB_TRANSFER_BLOCK_SIZE ∧
    (chunkReads (2 ^ k) N).getLast?
      = some (N - USB_TRANSFER_BLOCK_SIZE *
            ((N + USB_TRANSFER_BLOCK_SIZE - 1) / USB_TRANSFER_BLOCK_SIZE - 1) +
          (if (N - USB_TRANSFER_BLOCK_SIZE *
              ((N + USB_TRANSFER_BLOCK_SIZE - 1) / USB_TRANSFER_BLOCK_SIZE - 1)) % 2 ^ k = 0
            then 1 else 0)) ∧
    ((N - USB_TRANSFER_BLOCK_SIZE *
        ((N + USB_TRANSFER_BLOCK_SIZE - 1) / USB_TRANSFER_BLOCK_SIZE - 1)) % 2 ^ k = 0
      ↔ N % 2 ^ k = 0) ∧
    (chunkReads (2 ^ k) N).sum = (if N % 2 ^ k = 0 then N + 1 else N) := by
  have hdvd := pow_dvd_blockSize k hk
  have hq : (N + USB_TRANSFER_BLOCK_SIZE - 1) / USB_TRANSFER_BLOCK_SIZE - 1
      = (N - 1) / USB_TRANSFER_BLOCK_SIZE := by
    unfold USB_TRANSFER_BLOCK_SIZE
    omega
  have hle : USB_TRANSFER_BLOCK_SIZE * ((N - 1) / USB_TRANSFER_BLOCK_SIZE) ≤ N := by
    unfold USB_TRANSFER_BLOCK_SIZE
    omega
  have hmod : (N - USB_TRANSFER_BLOCK_SIZE * ((N - 1) / USB_TRANSFER_BLOCK_SIZE)) % 2 ^ k = 0
      ↔ N % 2 ^ k = 0 := by
    rw [← Nat.dvd_iff_mod_eq_zero, ← Nat.dvd_iff_mod_eq_zero]
    have hd2 : 2 ^ k ∣ USB_TRANSFER_BLOCK_SIZE * ((N - 1) / USB_TRANSFER_BLOCK_SIZE) :=
      Dvd.dvd.mul_right hdvd _
    constructor
    · intro h
      have hsum := Nat.dvd_add h hd2
      rwa [Nat.sub_add_cancel hle] at hsum
    · intro h
      exact Nat.dvd_sub' h hd2
  have hite : (if N % 2 ^ k = 0 then 1 else 0) =
      (if (N - USB_TRANSFER_BLOCK_SIZE * ((N - 1) / USB_TRANSFER_BLOCK_SIZE)) % 2 ^ k = 0
        then 1 else 0) := by
    by_cases h : N % 2 ^ k = 0
    · rw [if_pos h, if_pos (hmod.2 h)]
    · rw [if_neg h, if_neg (fun h1 => h (hmod.1 h1))]
  rw [hq]
  refine ⟨?_, ?_, ?_, hmod, ?_⟩
  · unfold chunkReads
    rw [List.length_append, List.length_replicate, List.length_singleton]
    unfold USB_TRANSFER_BLOCK_SIZE
    omega
  · unfold chunkReads
    rw [List.dropLast_concat]
  · unfold chunkReads
    rw [List.getLast?_concat, hite]
  · unfold chunkReads
    rw [List.sum_append, List.sum_replicate, List.sum_singleton, smul_eq_mul]
    rw [Nat.mul_comm ((N - 1) / USB_TRANSFER_BLOCK_SIZE) USB_TRANSFER_BLOCK_SIZE]
    by_cases h : N % 2 ^ k = 0
    · rw [if_pos h, if_pos h]
      omega
    · rw [if_neg h, if_neg h]
      omega

/-- C18. For every file size `0 < N < 2 ^ 63` and every endpoint packet size
`m = 2 ^ k` dividing 0x800000, the receive loop as `handleSendFileProperties`
starts it (offset 0, block size 0x800000) returns; when none of the chunks it
was handed is empty or a cancel packet, it ran to completion and asked for
exactly `ceil(N / 0x800000)` reads: all but the last of 0x800000 bytes, the last
of `L = N - 0x800000 * (ceil(N / 0x800000) - 1)` bytes plus one exactly when
`m` divides `L`, which is exactly when `m` divides `N`; the requested sizes add
up to `N + 1` when `m` divides `N` and to `N` otherwise. -/
theorem receiveLoop_chunking (k N : Nat) (hk : k ≤ 23) (hN0 : 0 < N)
    (hN : (N : Int) < 2 ^ 63) (filename fullPath : QString) (u : Bool)
    (s : UsbManager) (file : QFile) (hm : s.m_epMaxPacketSize = 2 ^ k) :
    ∃ e s1 cs rs,
      receiveLoop (N : Int) filename fullPath u N s file 0 USB_TRANSFER_BLOCK_SIZE
        = Except.ok (e, s1) ∧
      chunksOf s1.trace = chunksOf s.trace ++ cs ∧
      ((∀ c ∈ cs, c ≠ [] ∧ isCancelChunk c = false) →
        e = LoopExit.completed ∧
        readsOf s1.trace = readsOf s.trace ++ rs ∧
        rs.length = (N + USB_TRANSFER_BLOCK_SIZE - 1) / USB_TRANSFER_BLOCK_SIZE ∧
        rs.dropLast
          = List.replicate ((N + USB_TRANSFER_BLOCK_SIZE - 1) / USB_TRANSFER_BLOCK_SIZE - 1)
              USB_TRANSFER_BLOCK_SIZE ∧
        rs.getLast?
          = some (N - USB_TRANSFER_BLOCK_SIZE *
                ((N + USB_TRANSFER_BLOCK_SIZE - 1) / USB_TRANSFER_BLOCK_SIZE - 1) +
              (if (N - USB_TRANSFER_BLOCK_SIZE *
                  ((N + USB_TRANSFER_BLOCK_SIZE - 1) / USB_TRANSFER_BLOCK_SIZE - 1)) % 2 ^ k = 0
                then 1 else 0)) ∧
        ((N - USB_TRANSFER_BLOCK_SIZE *
            ((N + USB_TRANSFER_BLOCK_SIZE - 1) / USB_TRANSFER_BLOCK_SIZE - 1)) % 2 ^ k = 0
          ↔ N % 2 ^ k = 0) ∧
        rs.sum = (if N % 2 ^ k = 0 then N + 1 else N)) := by
  obtain ⟨e, s1, hr, -⟩ := receiveLoop_total (N : Int) filename fullPath u N s file 0
    USB_TRANSFER_BLOCK_SIZE (by omega)
  obtain ⟨cs, hcs, -, hall⟩ := receiveLoop_chunks _ _ _ _ _ _ _ _ _ _ _ hr
  refine ⟨e, s1, cs, chunkReads (2 ^ k) N, hr, hcs, fun hgood => ?_⟩
  have he := hall.1 hgood
  subst he
  have hreads := receiveLoop_reads k N hk hN filename fullPath u N s file 0
    USB_TRANSFER_BLOCK_SIZE s1 hm (Or.inr ⟨Int.le_refl 0, rfl⟩) hr
  have hn0 : ¬ (N : Int) ≤ 0 := by omega
  have hto : ((N : Int) - 0).toNat = N := by omega
  rw [if_neg hn0, hto] at hreads
  exact ⟨rfl, hreads, chunkReads_shape k N hk hN0⟩

/-- C18 at a concrete input: a 5-byte file over 512-byte packets is fetched by one
read of 5 bytes. -/
theorem receiveLoop_chunking_witness :
    (9 ≤ 23 ∧ 0 < 5 ∧ ((5 : Nat) : Int) < 2 ^ 63 ∧
      (idleManager 512 [delivered [1, 2, 3, 4, 5]] []).m_epMaxPacketSize = 2 ^ 9) ∧
    ∃ e s1 cs rs,
      receiveLoop ((5 : Nat) : Int) [] [] false 5
          (idleManager 512 [delivered [1, 2, 3, 4, 5]] []) (QFile.mk [] 0) 0
          USB_TRANSFER_BLOCK_SIZE
        = Except.ok (e, s1) ∧
      chunksOf s1.trace
        = chunksOf (idleManager 512 [delivered [1, 2, 3, 4, 5]] []).trace ++ cs ∧
      ((∀ c ∈ cs, c ≠ [] ∧ isCancelChunk c = false) →
        e = LoopExit.completed ∧
        readsOf s1.trace
          = readsOf (idleManager 512 [delivered [1, 2, 3, 4, 5]] []).trace ++ rs ∧
        rs.length = (5 + USB_TRANSFER_BLOCK_SIZE - 1) / USB_TRANSFER_BLOCK_SIZE ∧
        rs.dropLast
          = List.replicate ((5 + USB_TRANSFER_BLOCK_SIZE - 1) / USB_TRANSFER_BLOCK_SIZE - 1)
              USB_TRANSFER_BLOCK_SIZE ∧
        rs.getLast?
          = some (5 - USB_TRANSFER_BLOCK_SIZE *
                ((5 + USB_TRANSFER_BLOCK_SIZE - 1) / USB_TRANSFER_BLOCK_SIZE - 1) +
              (if (5 - USB_TRANSFER_BLOCK_SIZE *
                  ((5 + USB_TRANSFER_BLOCK_SIZE - 1) / USB_TRANSFER_BLOCK_SIZE - 1)) % 2 ^ 9 = 0
                then 1 else 0)) ∧
        ((5 - USB_TRANSFER_BLOCK_SIZE *
            ((5 + USB_TRANSFER_BLOCK_SIZE - 1) / USB_TRANSFER_BLOCK_SIZE - 1)) % 2 ^ 9 = 0
          ↔ 5 % 2 ^ 9 = 0) ∧
        rs.sum = (if 5 % 2 ^ 9 = 0 then 5 + 1 else 5)) :=
  ⟨⟨by decide, by decide, by decide, by decide⟩,
    receiveLoop_chunking 9 5 (by decide) (by decide) (by decide) [] [] false
      (idleManager 512 [delivered [1, 2, 3, 4, 5]] []) (QFile.mk [] 0) (by decide)⟩

/-! ## C19: the NSP state invariant -/

theorem nspInvariant_congr (a b : UsbManager) (h : a.nspState = b.nspState)
    (hb : NspInvariant b) : NspInvariant a := by
  simp only [UsbManager.nspState, Prod.mk.injEq] at h
  obtain ⟨h1, h2, h3, h4, h5, h6⟩ := h
  unfold NspInvariant at hb ⊢
  rw [h1, h2, h3, h4, h5, h6]
  exact hb

theorem nspInvariant_cleared (a : UsbManager)
    (h : a.nspState = (false, 0, 0, 0, none, [])) : NspInvariant a := by
  simp only [UsbManager.nspState, Prod.mk.injEq] at h
  obtain ⟨h1, h2, h3, h4, h5, h6⟩ := h
  unfold NspInvariant
  rw [h1, h2, h3, h4, h5, h6]
  simp

theorem resetNspInfo_invariant (s : UsbManager) (deleteFile : Bool) :
    NspInvariant (resetNspInfo s deleteFile) :=
  nspInvariant_cleared _ (resetNspInfo_nspState s deleteFile)

theorem receiveFile_invariant (s : UsbManager) (fileSize : Int) (filename fullPath : QString)
    (file : QFile) (st : Nat) (s1 : UsbManager) (hinv : NspInvariant s)
    (h : receiveFile s fileSize filename fullPath file = Except.ok (st, s1)) :
    NspInvariant s1 := by
  obtain ⟨e, s3, hloop, hcase⟩ := receiveFile_cases s fileSize filename fullPath file
  have hstart := (dataPhaseStart_frame s fileSize filename).1
  have hs3 : NspInvariant s3 := by
    by_cases hm : s.m_nspTransferMode = true
    · have hfields : (dataPhaseStart s fileSize filename).m_nspTransferMode = true ∧
          (dataPhaseStart s fileSize filename).m_nspFile = s.m_nspFile ∧
          (dataPhaseStart s fileSize filename).m_nspSize = s.m_nspSize ∧
          (dataPhaseStart s fileSize filename).m_nspHeaderSize = s.m_nspHeaderSize := by
        simp only [UsbManager.nspState, Prod.mk.injEq] at hstart
        exact ⟨hstart.1.trans hm, hstart.2.2.2.2.1, hstart.2.1, hstart.2.2.1⟩
      obtain ⟨hdone, hfail⟩ := receiveLoop_nsp _ _ _ _ _ _ _ _ _ _ _ hloop hfields.1
      by_cases he : e = LoopExit.completed
      · obtain ⟨a1, a2, a3, a4, -⟩ := hdone he
        have hf : s3.m_nspFile ≠ none := by
          apply a2
          rw [hfields.2.1]
          exact hinv.1.1 hm
        unfold NspInvariant
        refine ⟨⟨fun _ => hf, fun _ => a1⟩, fun _ => ?_, fun h0 => ?_⟩
        · rw [a3, a4, hfields.2.2.1, hfields.2.2.2]
          exact hinv.2.1 hm
        · rw [a1] at h0
          cases h0
      · exact nspInvariant_cleared _ (hfail he).1
    · have hmf : (dataPhaseStart s fileSize filename).m_nspTransferMode = false := by
        simp only [UsbManager.nspState, Prod.mk.injEq] at hstart
        rw [hstart.1]
        cases hb : s.m_nspTransferMode
        · rfl
        · exact absurd hb hm
      have h1 := (receiveLoop_single _ _ _ _ _ _ _ _ _ _ _ hloop hmf).1
      exact nspInvariant_congr _ _ (h1.trans hstart) hinv
  rcases hcase with ⟨-, hr⟩ | ⟨-, hr⟩ | ⟨-, hr⟩
  · rw [hr] at h
    injection h with h
    injection h with _ h2
    rw [← h2]
    split_ifs
    · exact hs3
    · exact hs3
  · rw [hr] at h
    injection h with h
    injection h with _ h2
    rw [← h2]
    exact hs3
  · rw [hr] at h
    injection h with h
    injection h with _ h2
    rw [← h2]
    exact hs3

theorem finishOrReceive_invariant (s : UsbManager) (fileSize : Int)
    (filename fullPath : QString) (file : QFile) (st : Nat) (s1 : UsbManager)
    (hinv : NspInvariant s)
    (h : finishOrReceive s fileSize filename fullPath file = Except.ok (st, s1)) :
    NspInvariant s1 := by
  unfold finishOrReceive at h
  by_cases hc : fileSize = 0 ∨ (s.m_nspTransferMode = true ∧ fileSize = s.m_nspSize)
  · rw [if_pos hc] at h
    injection h with h
    injection h with _ h2
    rw [← h2]
    exact hinv
  · rw [if_neg hc] at h
    exact receiveFile_invariant s fileSize filename fullPath file st s1 hinv h

theorem handleSendFileProperties_invariant (s : UsbManager) (cmdBlock : QByteArray)
    (st : Nat) (s1 : UsbManager) (hinv : NspInvariant s)
    (h : handleSendFileProperties s cmdBlock = Except.ok (st, s1)) :
    NspInvariant s1 := by
  unfold handleSendFileProperties at h
  by_cases hlen : cmdBlock.length < 16
  · rw [if_pos hlen] at h
    cases h
  rw [if_neg hlen] at h
  dsimp only at h
  by_cases h1 : s.m_nspTransferMode = false ∧ readI64 cmdBlock 0 ≠ 0 ∧
      (readU32 cmdBlock 12 : Int) ≥ readI64 cmdBlock 0
  · rw [if_pos h1] at h
    injection h with h
    injection h with _ h2
    rw [← h2]
    exact hinv
  rw [if_neg h1] at h
  by_cases h2 : s.m_nspTransferMode = true ∧ readU32 cmdBlock 12 ≠ 0
  · rw [if_pos h2] at h
    injection h with h
    injection h with _ h3
    rw [← h3]
    exact hinv
  rw [if_neg h2] at h
  have hen : NspInvariant (enableNspTransferMode s (readI64 cmdBlock 0) (readU32 cmdBlock 12))
      ∨ ((enableNspTransferMode s (readI64 cmdBlock 0) (readU32 cmdBlock 12)).m_nspTransferMode
          = true ∧
        (enableNspTransferMode s (readI64 cmdBlock 0) (readU32 cmdBlock 12)).m_nspFile = none ∧
        0 < (enableNspTransferMode s (readI64 cmdBlock 0) (readU32 cmdBlock 12)).m_nspHeaderSize
          ∧
        (enableNspTransferMode s (readI64 cmdBlock 0) (readU32 cmdBlock 12)).m_nspHeaderSize <
          (enableNspTransferMode s (readI64 cmdBlock 0) (readU32 cmdBlock 12)).m_nspSize) := by
    unfold enableNspTransferMode
    by_cases hc : s.m_nspTransferMode = false ∧ readI64 cmdBlock 0 ≠ 0 ∧ readU32 cmdBlock 12 ≠ 0
    · rw [if_pos hc]
      right
      refine ⟨rfl, ?_, ?_, ?_⟩
      · show s.m_nspFile = none
        by_contra hf
        have := hinv.1.2 hf
        rw [hc.1] at this
        cases this
      · show (0 : Int) < (readU32 cmdBlock 12 : Nat)
        have := hc.2.2
        omega
      · show ((readU32 cmdBlock 12 : Nat) : Int) < readI64 cmdBlock 0
        have hn : ¬ ((readU32 cmdBlock 12 : Int) ≥ readI64 cmdBlock 0) :=
          fun hge => h1 ⟨hc.1, hc.2.1, hge⟩
        omega
    · rw [if_neg hc]
      exact Or.inl hinv
  generalize enableNspTransferMode s (readI64 cmdBlock 0) (readU32 cmdBlock 12) = t at h hen
  by_cases hr : t.m_nspTransferMode = false ∨ t.m_nspFile = none
  · rw [if_pos hr] at h
    have hreset : ∀ (x : Except Fault (Nat × UsbManager)),
        x = Except.ok (USB_STATUS_HOST_IO_ERROR, resetNspInfo t false) →
        x = Except.ok (st, s1) → NspInvariant s1 := by
      intro x hx hx1
      rw [hx] at hx1
      injection hx1 with hx1
      injection hx1 with _ hx2
      rw [← hx2]
      exact resetNspInfo_invariant t false
    by_cases hdir : t.fs.isDir (filePath t.m_outputDir
        (mid cmdBlock 16 (readU32 cmdBlock 8))) = true
    · rw [if_pos hdir] at h
      exact hreset _ rfl h
    rw [if_neg hdir] at h
    by_cases hsp : t.fs.bytesAvailable (filePath t.m_outputDir
        (mid cmdBlock 16 (readU32 cmdBlock 8))) < readI64 cmdBlock 0
    · rw [if_pos hsp] at h
      exact hreset _ rfl h
    rw [if_neg hsp] at h
    by_cases hop : t.fs.canOpen (filePath t.m_outputDir
        (mid cmdBlock 16 (readU32 cmdBlock 8))) = false
    · rw [if_pos hop] at h
      exact hreset _ rfl h
    rw [if_neg hop] at h
    refine finishOrReceive_invariant _ _ _ _ _ st s1 ?_ h
    obtain ⟨-, -, -, -, -, o6, o7, o8, o9, o10, o11⟩ := openOutputFile_frame t
      (filePath t.m_outputDir (mid cmdBlock 16 (readU32 cmdBlock 8)))
    generalize (openOutputFile t
      (filePath t.m_outputDir (mid cmdBlock 16 (readU32 cmdBlock 8)))).1 = o
      at o6 o7 o8 o9 o10 o11
    by_cases hm : t.m_nspTransferMode = true
    · have hbounds : 0 < t.m_nspHeaderSize ∧ t.m_nspHeaderSize < t.m_nspSize := by
        rcases hen with hi | hi
        · exact hi.2.1 hm
        · exact ⟨hi.2.2.1, hi.2.2.2⟩
      unfold NspInvariant
      rw [o6, o7, o8]
      refine ⟨⟨fun _ => (o10 hm).1, fun _ => hm⟩, fun _ => hbounds, fun h0 => ?_⟩
      rw [hm] at h0
      cases h0
    · have hmf : t.m_nspTransferMode = false := by
        cases hb : t.m_nspTransferMode
        · rfl
        · exact absurd hb hm
      have hti : NspInvariant t := by
        rcases hen with hi | hi
        · exact hi
        · exact absurd hi.1 hm
      apply nspInvariant_congr o t _ hti
      simp only [UsbManager.nspState, Prod.mk.injEq]
      exact ⟨o6, o7, o8, o9, (o11 hmf).1, (o11 hmf).2⟩
  · rw [if_neg hr] at h
    have hti : NspInvariant t := by
      rcases hen with hi | hi
      · exact hi
      · exact absurd (Or.inr hi.2.1) hr
    cases hf : t.m_nspFile with
    | none => exact absurd (Or.inr hf) hr
    | some file =>
      rw [hf] at h
      exact finishOrReceive_invariant _ _ _ _ _ st s1 hti h

theorem routeCommand_invariant (s : UsbManager) (cmdId : Nat) (cmdBlock : QByteArray)
    (st : Nat) (s1 : UsbManager) (hinv : NspInvariant s)
    (h : routeCommand s cmdId cmdBlock = Except.ok (st, s1)) : NspInvariant s1 := by
  have hsame : ∀ (x : Except Fault (Nat × UsbManager)) (c : Nat),
      x = Except.ok (c, s) → x = Except.ok (st, s1) → NspInvariant s1 := by
    intro x c hx hx1
    rw [hx] at hx1
    injection hx1 with hx1
    injection hx1 with _ hx2
    rw [← hx2]
    exact hinv
  unfold routeCommand at h
  split_ifs at h
  · unfold handleStartSession at h
    dsimp only at h
    split_ifs at h
    · injection h with h
      injection h with _ h2
      rw [← h2]
      exact nspInvariant_congr _ s rfl hinv
    · injection h with h
      injection h with _ h2
      rw [← h2]
      exact nspInvariant_congr _ s rfl hinv
  · exact handleSendFileProperties_invariant s cmdBlock st s1 hinv h
  · unfold handleCancelFileTransfer at h
    split_ifs at h
    · injection h with h
      injection h with _ h2
      rw [← h2]
      exact resetNspInfo_invariant s true
    · exact hsame _ _ rfl h
  · unfold handleSendNspHeader at h
    split_ifs at h
    · exact hsame _ _ rfl h
    · exact hsame _ _ rfl h
    · exact hsame _ _ rfl h
    · cases hf : s.m_nspFile with
      | none =>
        rw [hf] at h
        cases h
      | some f =>
        rw [hf] at h
        injection h with h
        injection h with _ h2
        rw [← h2]
        exact resetNspInfo_invariant _ false
  · exact hsame _ _ rfl h
  · unfold handleStartExtractedFsDump at h
    split_ifs at h
    · exact hsame _ _ rfl h
    · exact hsame _ _ rfl h
  · exact hsame _ _ rfl h
  · exact hsame _ _ rfl h

theorem handleSendNspHeader_returns (s : UsbManager) (cmdBlock : QByteArray)
    (hwf : s.m_nspTransferMode = true → s.m_nspFile ≠ none) :
    ∃ st s1, handleSendNspHeader s cmdBlock = Except.ok (st, s1) := by
  unfold handleSendNspHeader
  split_ifs with c1 c2 c3
  · exact ⟨_, _, rfl⟩
  · exact ⟨_, _, rfl⟩
  · exact ⟨_, _, rfl⟩
  · have hm : s.m_nspTransferMode = true := by
      cases hb : s.m_nspTransferMode
      · exact absurd hb c1
      · rfl
    cases hf : s.m_nspFile with
    | none => exact absurd hf (hwf hm)
    | some f => exact ⟨_, _, rfl⟩

theorem routeCommand_fault (s : UsbManager) (cmdId : Nat) (cmdBlock : QByteArray)
    (hwf : s.m_nspTransferMode = true → s.m_nspFile ≠ none) (f : Fault)
    (h : routeCommand s cmdId cmdBlock = Except.error f) : f = Fault.outOfBounds := by
  unfold routeCommand at h
  split_ifs at h
  · unfold handleStartSession at h
    dsimp only at h
    split_ifs at h
    injection h with h
    exact h.symm
  · by_cases hlen : 16 ≤ cmdBlock.length
    · obtain ⟨c1, c2⟩ := handleSendFileProperties_cases s cmdBlock hlen
      by_cases hc : (s.m_nspTransferMode = false ∧ readI64 cmdBlock 0 ≠ 0 ∧
            (readU32 cmdBlock 12 : Int) ≥ readI64 cmdBlock 0) ∨
          (s.m_nspTransferMode = true ∧ readU32 cmdBlock 12 ≠ 0)
      · rw [c1 hc] at h
        cases h
      · obtain ⟨st, s1, hr, -⟩ := c2 hc
        rw [hr] at h
        cases h
    · unfold handleSendFileProperties at h
      rw [if_pos (by omega)] at h
      injection h with h
      exact h.symm
  · unfold handleCancelFileTransfer at h
    split_ifs at h
  · obtain ⟨st, s1, hr⟩ := handleSendNspHeader_returns s cmdBlock hwf
    rw [hr] at h
    cases h
  · cases h
  · unfold handleStartExtractedFsDump at h
    split_ifs at h
    injection h with h
    exact h.symm
  · cases h

theorem routeCommand_usbIn (s : UsbManager) (cmdId : Nat) (cmdBlock : QByteArray)
    (hwf : s.m_nspTransferMode = true → s.m_nspFile ≠ none) (st : Nat) (s1 : UsbManager)
    (h : routeCommand s cmdId cmdBlock = Except.ok (st, s1)) :
    s1.usbIn.length ≤ s.usbIn.length := by
  by_cases hfit : blockLongEnough cmdId cmdBlock
  · obtain ⟨st0, s0, hr, -, hle, -⟩ := routeCommand_wire s cmdId cmdBlock hfit hwf
    rw [hr] at h
    injection h with h
    injection h with _ h2
    rw [← h2]
    exact hle
  · have hsame : s1 = s := by
      unfold routeCommand at h
      unfold blockLongEnough at hfit
      split_ifs at h with i1 i2 i3 i4 i5 i6 i7
      · unfold handleStartSession at h
        dsimp only at h
        by_cases hlen : cmdBlock.length < 4
        · rw [if_pos hlen] at h
          cases h
        · exfalso
          apply hfit
          refine ⟨fun _ => by omega, fun h0 => ?_, fun h0 => ?_⟩
          · rw [i1] at h0
            exact absurd h0 (by decide)
          · rw [i1] at h0
            exact absurd h0 (by decide)
      · unfold handleSendFileProperties at h
        by_cases hlen : cmdBlock.length < 16
        · rw [if_pos hlen] at h
          cases h
        · exfalso
          apply hfit
          refine ⟨fun h0 => absurd h0 i1, fun _ => by omega, fun h0 => ?_⟩
          rw [i2] at h0
          exact absurd h0 (by decide)
      · exfalso
        apply hfit
        refine ⟨fun h0 => absurd h0 i1, fun h0 => absurd h0 i2, fun h0 => ?_⟩
        rw [i3] at h0
        exact absurd h0 (by decide)
      · exfalso
        apply hfit
        refine ⟨fun h0 => absurd h0 i1, fun h0 => absurd h0 i2, fun h0 => ?_⟩
        rw [i4] at h0
        exact absurd h0 (by decide)
      · exfalso
        apply hfit
        refine ⟨fun h0 => absurd h0 i1, fun h0 => absurd h0 i2, fun h0 => ?_⟩
        rw [i5] at h0
        exact absurd h0 (by decide)
      · unfold handleStartExtractedFsDump at h
        split_ifs at h with j1 j2
        · injection h with h
          injection h with _ h2
          exact h2.symm
        · exfalso
          apply hfit
          exact ⟨fun h0 => absurd h0 i1, fun h0 => absurd h0 i2, fun _ => by omega⟩
      · exfalso
        exact hfit ⟨fun h0 => absurd h0 i1, fun h0 => absurd h0 i2, fun h0 => absurd h0 i6⟩
      · exfalso
        exact hfit ⟨fun h0 => absurd h0 i1, fun h0 => absurd h0 i2, fun h0 => absurd h0 i6⟩
    rw [hsame]

theorem usbSendStatus_nspState (s : UsbManager) (code : Nat) :
    (usbSendStatus s code).2.nspState = s.nspState := by
  unfold usbSendStatus
  exact usbWrite_nspState _ _ _

theorem usbSendStatus_usbIn (s : UsbManager) (code : Nat) :
    (usbSendStatus s code).2.usbIn = s.usbIn := by
  unfold usbSendStatus
  exact usbWrite_usbIn _ _ _

theorem readCommand_usbIn (s : UsbManager) (p : QByteArray × QByteArray)
    (h : (readCommand s).1 = some p) :
    (readCommand s).2.usbIn.length < s.usbIn.length := by
  have h1 := usbRead_usbIn s USB_CMD_HEADER_SIZE (-1)
  unfold readCommand at h ⊢
  dsimp only at h ⊢
  by_cases hh : (usbRead s USB_CMD_HEADER_SIZE (-1)).1 = []
  · rw [if_pos hh] at h
    cases h
  · rw [if_neg hh] at h ⊢
    have hlt := h1.2 hh
    by_cases hb : readU32 (usbRead s USB_CMD_HEADER_SIZE (-1)).1 8 > 0
    · rw [if_pos hb] at h ⊢
      generalize hrs : (if isValueAlignedToEndpointPacketSize
          (usbRead s USB_CMD_HEADER_SIZE (-1)).2
          (readU32 (usbRead s USB_CMD_HEADER_SIZE (-1)).1 8) = true
        then readU32 (usbRead s USB_CMD_HEADER_SIZE (-1)).1 8 + 1
        else readU32 (usbRead s USB_CMD_HEADER_SIZE (-1)).1 8) = n at h ⊢
      have h2 := (usbRead_usbIn (usbRead s USB_CMD_HEADER_SIZE (-1)).2 n
        USB_TRANSFER_TIMEOUT).1
      split_ifs
      · exact Nat.lt_of_le_of_lt h2 hlt
      · exact Nat.lt_of_le_of_lt h2 hlt
    · rw [if_neg hb]
      exact hlt

theorem processCommand_invariant (s : UsbManager) (cmdHeader cmdBlock : QByteArray)
    (hinv : NspInvariant s) :
    (∀ c s1, processCommand s cmdHeader cmdBlock = Except.ok (c, s1) →
      NspInvariant s1 ∧ s1.usbIn.length ≤ s.usbIn.length) ∧
    (∀ f, processCommand s cmdHeader cmdBlock = Except.error f → f = Fault.outOfBounds) := by
  have hwf : s.m_nspTransferMode = true → s.m_nspFile ≠ none := hinv.1.1
  unfold processCommand
  by_cases hmagic : cmdHeader.take 4 ≠ USB_MAGIC_WORD
  · rw [if_pos hmagic]
    constructor
    · intro c s1 h
      injection h with h
      injection h with _ h2
      rw [← h2]
      exact ⟨nspInvariant_congr _ s (usbSendStatus_nspState s _) hinv,
        Nat.le_of_eq (congrArg List.length (usbSendStatus_usbIn s _))⟩
    · intro f h
      cases h
  · rw [if_neg hmagic]
    cases hr : routeCommand s (readU32 cmdHeader 4) cmdBlock with
    | error e =>
      constructor
      · intro c s1 h
        cases h
      · intro f h
        injection h with h
        rw [← h]
        exact routeCommand_fault s _ cmdBlock hwf e hr
    | ok p =>
      obtain ⟨status, t⟩ := p
      have hti := routeCommand_invariant s _ cmdBlock status t hinv hr
      have htu := routeCommand_usbIn s _ cmdBlock hwf status t hr
      have hfin : NspInvariant (usbSendStatus t status).2 ∧
          (usbSendStatus t status).2.usbIn.length ≤ s.usbIn.length :=
        ⟨nspInvariant_congr _ t (usbSendStatus_nspState t _) hti, by
          rw [usbSendStatus_usbIn]
          exact htu⟩
      dsimp only
      constructor
      · intro c s1 h
        split_ifs at h
        · injection h with h
          injection h with _ h2
          rw [← h2]
          exact hfin
        · injection h with h
          injection h with _ h2
          rw [← h2]
          exact hfin
      · intro f h
        split_ifs at h

theorem commandHandlerIteration_invariant (s : UsbManager) (hinv : NspInvariant s) :
    (∀ c s1, commandHandlerIteration s = Except.ok (c, s1) → NspInvariant s1) ∧
    (∀ s1, commandHandlerIteration s = Except.ok (LoopCtl.next, s1) →
      s1.usbIn.length < s.usbIn.length) ∧
    (∀ f, commandHandlerIteration s = Except.error f → f = Fault.outOfBounds) := by
  have hfr := (readCommand_frame s).1
  have hri : NspInvariant (readCommand s).2 := nspInvariant_congr _ s hfr hinv
  cases hro : (readCommand s).1 with
  | none =>
    have hit : commandHandlerIteration s = Except.ok (LoopCtl.stop, (readCommand s).2) := by
      unfold commandHandlerIteration
      generalize readCommand s = rc at hro
      obtain ⟨o, t⟩ := rc
      simp only at hro
      subst hro
      rfl
    rw [hit]
    refine ⟨fun c s1 h => ?_, fun s1 h => ?_, fun f h => ?_⟩
    · injection h with h
      injection h with _ h2
      rw [← h2]
      exact hri
    · injection h with h
      injection h with h1 _
      cases h1
    · cases h
  | some p =>
    obtain ⟨cmdHeader, cmdBlock⟩ := p
    rw [commandHandlerIteration_of_read s cmdHeader cmdBlock hro]
    obtain ⟨p1, p2⟩ := processCommand_invariant (readCommand s).2 cmdHeader cmdBlock hri
    have hlt := readCommand_usbIn s _ hro
    exact ⟨fun c s1 h => (p1 c s1 h).1,
      fun s1 h => Nat.lt_of_le_of_lt (p1 _ s1 h).2 hlt, p2⟩

theorem commandHandlerLoop_invariant :
    ∀ (fuel : Nat) (s : UsbManager), NspInvariant s → s.usbIn.length < fuel →
      (∀ s1, commandHandlerLoop fuel s = Except.ok s1 → NspInvariant s1) ∧
      (∀ f, commandHandlerLoop fuel s = Except.error f → f = Fault.outOfBounds) := by
  intro fuel
  induction fuel with
  | zero =>
    intro s _ hlt
    exact absurd hlt (Nat.not_lt_zero _)
  | succ n ih =>
    intro s hinv hlt
    obtain ⟨i1, i2, i3⟩ := commandHandlerIteration_invariant s hinv
    rw [commandHandlerLoop]
    by_cases hstop : s.m_stopRequested = true
    · rw [if_pos hstop]
      refine ⟨fun s1 h => ?_, fun f h => ?_⟩
      · injection h with h
        rw [← h]
        exact hinv
      · cases h
    · rw [if_neg hstop]
      cases hit : commandHandlerIteration s with
      | error e =>
        dsimp only
        refine ⟨fun s1 h => ?_, fun f h => ?_⟩
        · cases h
        · injection h with h
          rw [← h]
          exact i3 e hit
      | ok p =>
        obtain ⟨c, t⟩ := p
        cases c with
        | stop =>
          dsimp only
          refine ⟨fun s1 h => ?_, fun f h => ?_⟩
          · injection h with h
            rw [← h]
            exact i1 _ t hit
          · cases h
        | next =>
          dsimp only
          exact ih t (i1 _ t hit) (by have := i2 t hit; omega)

/-- C19. The NSP state invariant (NSP mode exactly when the NSP file is held; in
NSP mode `0 < reserve < total`; outside it total = reserve = remaining = 0 and
the path is empty) holds in the state `commandHandler` establishes before its
loop, for whatever object `s` and endpoint size `m` it starts from.  From any
state `t` in which it holds, whatever command id and block arrive and whatever
the transfers and the filesystem do: a handler that returns leaves it holding, a
handler that does not return has read past the end of its block (the null
dereference is not among the faults), every handler returns on a block long
enough for its fixed fields, and `handleSendNspHeader` always returns.  A whole
dispatcher iteration preserves it, and so `commandHandler` as a whole either
returns with the invariant holding or stops at such an out-of-bounds read. -/
theorem commandHandler_nsp_invariant (s : UsbManager) (m : Nat) :
    NspInvariant (resetNspInfo (getDeviceEndpoints s (some m)).2 false) ∧
    (∀ (t : UsbManager) (cmdId : Nat) (cmdBlock : QByteArray), NspInvariant t →
      (∀ st t1, routeCommand t cmdId cmdBlock = Except.ok (st, t1) → NspInvariant t1) ∧
      (∀ f, routeCommand t cmdId cmdBlock = Except.error f → f = Fault.outOfBounds) ∧
      (blockLongEnough cmdId cmdBlock →
        ∃ st t1, routeCommand t cmdId cmdBlock = Except.ok (st, t1)) ∧
      (∃ st t1, handleSendNspHeader t cmdBlock = Except.ok (st, t1))) ∧
    (∀ (t : UsbManager) (c : LoopCtl) (t1 : UsbManager), NspInvariant t →
      commandHandlerIteration t = Except.ok (c, t1) → NspInvariant t1) ∧
    (∀ s1, commandHandler s (some m) = Except.ok s1 → NspInvariant s1) ∧
    (∀ f, commandHandler s (some m) = Except.error f → f = Fault.outOfBounds) := by
  have hstart : NspInvariant (resetNspInfo (getDeviceEndpoints s (some m)).2 false) :=
    resetNspInfo_invariant _ false
  have hrun : commandHandler s (some m) =
      commandHandlerLoop ((resetNspInfo (getDeviceEndpoints s (some m)).2 false).usbIn.length + 1)
        (resetNspInfo (getDeviceEndpoints s (some m)).2 false) := rfl
  obtain ⟨l1, l2⟩ := commandHandlerLoop_invariant _ _ hstart (Nat.lt_succ_self _)
  refine ⟨hstart, fun t cmdId cmdBlock hinv => ⟨?_, ?_, ?_, ?_⟩, fun t c t1 hinv h => ?_,
    fun s1 h => ?_, fun f h => ?_⟩
  · intro st t1 h
    exact routeCommand_invariant t cmdId cmdBlock st t1 hinv h
  · intro f h
    exact routeCommand_fault t cmdId cmdBlock hinv.1.1 f h
  · intro hfit
    obtain ⟨st, t1, hr, -⟩ := routeCommand_wire t cmdId cmdBlock hfit hinv.1.1
    exact ⟨st, t1, hr⟩
  · exact handleSendNspHeader_returns t cmdBlock hinv.1.1
  · exact (commandHandlerIteration_invariant t hinv).1 c t1 h
  · rw [hrun] at h
    exact l1 s1 h
  · rw [hrun] at h
    exact l2 f h

/-- C19 at a concrete session: the console announces an NSP of 0x400 bytes with a
0x200-byte header reserve and then goes silent; the worker ends in NSP mode with
the invariant holding. -/
theorem commandHandler_nsp_invariant_witness :
    ∃ s1, commandHandler (idleManager 0
        [delivered (commandHeaderBytes USB_MAGIC_WORD USB_CMD_SEND_FILE_PROPERTIES 17),
         delivered (filePropertiesBlock 0x400 0x200 [0x67])] [accepted]) (some 512)
        = Except.ok s1 ∧
      s1.m_nspTransferMode = true ∧ NspInvariant s1 := by
  have hmode : (commandHandler (idleManager 0
        [delivered (commandHeaderBytes USB_MAGIC_WORD USB_CMD_SEND_FILE_PROPERTIES 17),
         delivered (filePropertiesBlock 0x400 0x200 [0x67])] [accepted]) (some 512)).toOption.map
      (fun s => s.m_nspTransferMode) = some true := by
    decide
  cases h : commandHandler (idleManager 0
        [delivered (commandHeaderBytes USB_MAGIC_WORD USB_CMD_SEND_FILE_PROPERTIES 17),
         delivered (filePropertiesBlock 0x400 0x200 [0x67])] [accepted]) (some 512) with
  | error f =>
    rw [h] at hmode
    cases hmode
  | ok s1 =>
    rw [h] at hmode
    exact ⟨s1, rfl, by simpa [Except.toOption] using hmode,
      (commandHandler_nsp_invariant _ 512).2.2.2.1 s1 h⟩

/-! ## C22: the range of the NSP remaining size -/

/-- C22 (the code departs from the claim). From the cleared state the console
announces an NSP of 40 bytes with a 16-byte header reserve (remaining 24) and then
sends an entry of 29 bytes, every transfer succeeding.  The entry is accepted and
received, and when `commandHandler` has returned the session is in NSP mode with
remaining = 24 - 29 = -5. -/
theorem commandHandler_nsp_remaining_below_zero :
    (commandHandler (idleManager 0
        [delivered (commandHeaderBytes USB_MAGIC_WORD USB_CMD_SEND_FILE_PROPERTIES 17),
         delivered (filePropertiesBlock 40 16 [0x67]),
         delivered (commandHeaderBytes USB_MAGIC_WORD USB_CMD_SEND_FILE_PROPERTIES 17),
         delivered (filePropertiesBlock 29 0 [0x61]),
         delivered (List.replicate 29 0x55)]
        [accepted, accepted, accepted]) (some 512)).toOption.map
      (fun s => (s.m_nspTransferMode, s.m_nspSize, s.m_nspHeaderSize, s.m_nspRemainingSize,
        readsOf s.trace)) =
      some (true, 40, 16, -5, [16, 17, 16, 17, 29, 16]) := by
  decide

/-! ## C21: a final chunk of 16 bytes that looks like a cancel -/

theorem byteAt_lt (b : QByteArray) (i : Nat) : byteAt b i < 256 := by
  unfold byteAt
  exact (b.getD i 0).isLt

theorem readI64_lt (b : QByteArray) (off : Nat) : readI64 b off < 2 ^ 63 := by
  have h0 := byteAt_lt b off
  have h1 := byteAt_lt b (off + 1)
  have h2 := byteAt_lt b (off + 2)
  have h3 := byteAt_lt b (off + 3)
  have h4 := byteAt_lt b (off + 4)
  have h5 := byteAt_lt b (off + 4 + 1)
  have h6 := byteAt_lt b (off + 4 + 2)
  have h7 := byteAt_lt b (off + 4 + 3)
  unfold readI64 readU64 readU32
  split_ifs with h
  · omega
  · omega

theorem isValueAligned_congr (a b : UsbManager) (v : Nat)
    (h : a.m_epMaxPacketSize = b.m_epMaxPacketSize) :
    isValueAlignedToEndpointPacketSize a v = isValueAlignedToEndpointPacketSize b v := by
  unfold isValueAlignedToEndpointPacketSize
  rw [h]

theorem isValueAligned_sixteen (s : UsbManager) (k : Nat) (hk4 : 4 < k) (hk : k ≤ 23)
    (hm : s.m_epMaxPacketSize = 2 ^ k) :
    isValueAlignedToEndpointPacketSize s 16 = false := by
  cases hb : isValueAlignedToEndpointPacketSize s 16
  · rfl
  · exfalso
    have h1 := (isValueAligned_pow s k hk hm 16).1 hb
    have h2 : 2 ^ 5 ≤ 2 ^ k := Nat.pow_le_pow_right (by decide) hk4
    have h3 : 16 % 2 ^ k = 16 := Nat.mod_eq_of_lt (by omega)
    omega

theorem writeAt_read (content : QByteArray) (pos : Nat) (data : QByteArray) :
    ((writeAt content pos data).drop pos).take data.length = data := by
  have hlen : (content.take pos ++ List.replicate (pos - content.length) 0).length = pos := by
    rw [List.length_append, List.length_take, List.length_replicate]
    omega
  unfold writeAt
  rw [List.append_assoc, List.drop_left' hlen, List.take_left' rfl]

theorem chunkReceived_fs (fileSize : Int) (filename : QString) (u : Bool)
    (s : UsbManager) (file : QFile) (chunk : QByteArray) (off : Int) :
    (chunkReceived fileSize filename u s file chunk off).fs = (QFile.write s.fs file chunk).1 := by
  unfold chunkReceived
  dsimp only
  split_ifs <;> rfl

theorem receiveLoop_done (fileSize : Int) (filename fullPath : QString) (u : Bool)
    (fuel : Nat) (s : UsbManager) (file : QFile) (offset : Int) (blockSize : Nat)
    (h : ¬ offset < fileSize) :
    receiveLoop fileSize filename fullPath u fuel s file offset blockSize
      = Except.ok (LoopExit.completed, s) := by
  cases fuel with
  | zero => rw [receiveLoop, if_neg h]
  | succ n => rw [receiveLoop, if_neg h]

theorem isCancelChunk_length (c : QByteArray) (h : isCancelChunk c = true) : c.length = 16 := by
  unfold isCancelChunk at h
  simp only [decide_eq_true_eq] at h
  exact h.1

theorem receiveLoop_tail16 (N : Int) (hN : N < 2 ^ 63) (filename fullPath : QString)
    (u : Bool) :
    ∀ (fuel : Nat) (s : UsbManager) (file : QFile) (offset : Int) (blockSize : Nat)
      (e : LoopExit) (s1 : UsbManager),
      isValueAlignedToEndpointPacketSize s 16 = false →
      (N ≤ offset ∨ (0 ≤ offset ∧ blockSize = USB_TRANSFER_BLOCK_SIZE ∧
        (N - offset) % ((USB_TRANSFER_BLOCK_SIZE : Nat) : Int) = 16)) →
      receiveLoop N filename fullPath u fuel s file offset blockSize = Except.ok (e, s1) →
      ∃ cs, chunksOf s1.trace = chunksOf s.trace ++ cs ∧
        ∀ c, cs.getLast? = some c → c.length = 16 →
          cs.length = (N - offset).toNat / USB_TRANSFER_BLOCK_SIZE + 1 ∧
          (isCancelChunk c = true → e = LoopExit.returned USB_STATUS_SUCCESS) ∧
          (isCancelChunk c = false → e = LoopExit.completed ∧
            ∃ content, s1.fs.files file.path = some content ∧
              (content.drop (file.pos + ((N - offset).toNat - 16))).take 16 = c) := by
  intro fuel
  induction fuel with
  | zero =>
    intro s file offset blockSize e s1 _ _ h
    rw [receiveLoop] at h
    split_ifs at h
    injection h with h
    injection h with _ h2
    subst h2
    exact ⟨[], by simp, fun c hc => by simp at hc⟩
  | succ n ih =>
    intro s file offset blockSize e s1 hal hinv h
    by_cases hlt : offset < N
    · have hoff : 0 ≤ offset ∧ blockSize = USB_TRANSFER_BLOCK_SIZE ∧
          (N - offset) % ((USB_TRANSFER_BLOCK_SIZE : Nat) : Int) = 16 := by
        rcases hinv with h0 | h0
        · omega
        · exact h0
      obtain ⟨hoff0, hbs, hmod⟩ := hoff
      subst hbs
      rw [receiveLoop_succ _ _ _ _ _ _ _ _ _ hlt] at h
      have hnb : nextBlockSize N offset USB_TRANSFER_BLOCK_SIZE =
          min USB_TRANSFER_BLOCK_SIZE (N - offset).toNat := by
        unfold nextBlockSize toU64 USB_TRANSFER_BLOCK_SIZE
        split_ifs <;> omega
      have hcase : (USB_TRANSFER_BLOCK_SIZE < (N - offset).toNat ∧
            (N - offset).toNat / USB_TRANSFER_BLOCK_SIZE
              = ((N - (offset + (USB_TRANSFER_BLOCK_SIZE : Nat))).toNat
                  / USB_TRANSFER_BLOCK_SIZE) + 1 ∧
            (N - (offset + (USB_TRANSFER_BLOCK_SIZE : Nat)))
              % ((USB_TRANSFER_BLOCK_SIZE : Nat) : Int) = 16 ∧
            (N - offset).toNat - 16 =
              USB_TRANSFER_BLOCK_SIZE +
                ((N - (offset + (USB_TRANSFER_BLOCK_SIZE : Nat))).toNat - 16)) ∨
          ((N - offset).toNat = 16 ∧ (N - offset).toNat / USB_TRANSFER_BLOCK_SIZE = 0) := by
        unfold USB_TRANSFER_BLOCK_SIZE at hmod ⊢
        omega
      have hrs : chunkReadSize s N offset USB_TRANSFER_BLOCK_SIZE =
          if USB_TRANSFER_BLOCK_SIZE < (N - offset).toNat then USB_TRANSFER_BLOCK_SIZE
          else 16 := by
        unfold chunkReadSize
        rw [hnb]
        rcases hcase with ⟨hbig, -⟩ | ⟨h16, -⟩
        · rw [if_pos hbig, if_neg, Nat.min_eq_left (Nat.le_of_lt hbig)]
          rintro ⟨hge, -⟩
          rw [Nat.min_eq_left (Nat.le_of_lt hbig)] at hge
          unfold toU64 USB_TRANSFER_BLOCK_SIZE at hge hbig
          omega
        · have hsmall : ¬ USB_TRANSFER_BLOCK_SIZE < (N - offset).toNat := by
            unfold USB_TRANSFER_BLOCK_SIZE
            omega
          have hmin : min USB_TRANSFER_BLOCK_SIZE (N - offset).toNat = 16 := by
            rw [h16]
            decide
          rw [if_neg hsmall, hmin, if_neg]
          rintro ⟨-, ha⟩
          rw [hal] at ha
          cases ha
      generalize hn : chunkReadSize s N offset USB_TRANSFER_BLOCK_SIZE = rs at h hrs
      have htr0 : chunksOf (usbRead s rs USB_TRANSFER_TIMEOUT).2.trace =
          chunksOf s.trace ++ [(usbRead s rs USB_TRANSFER_TIMEOUT).1] := by
        rw [usbRead_trace, chunksOf_append]
        rfl
      have hdisc : chunksOf (discardPartialFile (usbRead s rs USB_TRANSFER_TIMEOUT).2 fullPath
          u).trace = chunksOf s.trace ++ [(usbRead s rs USB_TRANSFER_TIMEOUT).1] := by
        rw [(discardPartialFile_frame _ fullPath u).2.2.2.2, chunksOf_append, htr0]
        by_cases hu : u = true <;> simp [hu, chunksOf]
      by_cases hc : (usbRead s rs USB_TRANSFER_TIMEOUT).1 = []
      · rw [if_pos hc] at h
        injection h with h
        injection h with _ h2
        subst h2
        refine ⟨[(usbRead s rs USB_TRANSFER_TIMEOUT).1], hdisc, fun c hlast hlen => ?_⟩
        rw [hc] at hlast
        simp only [List.getLast?_singleton, Option.some.injEq] at hlast
        rw [← hlast] at hlen
        cases hlen
      · rw [if_neg hc] at h
        have hlen : (usbRead s rs USB_TRANSFER_TIMEOUT).1.length = rs :=
          (usbRead_length s rs USB_TRANSFER_TIMEOUT).resolve_left hc
        by_cases hcan : isCancelChunk (usbRead s rs USB_TRANSFER_TIMEOUT).1 = true
        · rw [if_pos hcan] at h
          injection h with h
          injection h with h1 h2
          subst h1 h2
          refine ⟨[(usbRead s rs USB_TRANSFER_TIMEOUT).1], hdisc, fun c hlast _ => ?_⟩
          simp only [List.getLast?_singleton, Option.some.injEq] at hlast
          subst hlast
          have hrs16 : rs = 16 := by
            rw [← hlen]
            exact isCancelChunk_length _ hcan
          have hq : (N - offset).toNat / USB_TRANSFER_BLOCK_SIZE = 0 := by
            rcases hcase with ⟨hbig, -⟩ | ⟨-, hq⟩
            · rw [if_pos hbig] at hrs
              rw [hrs16] at hrs
              exact absurd hrs (by decide)
            · exact hq
          refine ⟨by rw [hq]; rfl, fun _ => rfl, fun hno => ?_⟩
          rw [hcan] at hno
          cases hno
        · rw [if_neg hcan, hlen] at h
          have hcanf : isCancelChunk (usbRead s rs USB_TRANSFER_TIMEOUT).1 = false := by
            cases hb : isCancelChunk (usbRead s rs USB_TRANSFER_TIMEOUT).1
            · rfl
            · exact absurd hb hcan
          have hal3 : isValueAlignedToEndpointPacketSize
              (chunkReceived N filename u (usbRead s rs USB_TRANSFER_TIMEOUT).2 file
                (usbRead s rs USB_TRANSFER_TIMEOUT).1 (offset + rs)) 16 = false := by
            rw [isValueAligned_congr _ s 16, hal]
            rw [(chunkReceived_frame _ _ _ _ _ _ _).2.2.1, usbRead_maxPacketSize]
          have htr : chunksOf (chunkReceived N filename u (usbRead s rs USB_TRANSFER_TIMEOUT).2
              file (usbRead s rs USB_TRANSFER_TIMEOUT).1 (offset + rs)).trace =
              chunksOf s.trace ++ [(usbRead s rs USB_TRANSFER_TIMEOUT).1] := by
            rw [(chunkReceived_frame _ _ _ _ _ _ _).2.2.2.2.2.2.2.2, chunksOf_append, htr0]
            by_cases hu : u = true <;> simp [hu, chunksOf]
          rcases hcase with ⟨hbig, hq, hmod2, hpos⟩ | ⟨h16, hq⟩
          · rw [if_pos hbig] at hrs
            subst hrs
            have hnb2 : nextBlockSize N offset USB_TRANSFER_BLOCK_SIZE =
                USB_TRANSFER_BLOCK_SIZE := by
              rw [hnb]
              exact Nat.min_eq_left (Nat.le_of_lt hbig)
            rw [hnb2] at h
            obtain ⟨cs, i1, i2⟩ := ih _ _ _ _ _ _ hal3
              (Or.inr ⟨by omega, rfl, hmod2⟩) h
            refine ⟨(usbRead s USB_TRANSFER_BLOCK_SIZE USB_TRANSFER_TIMEOUT).1 :: cs, ?_,
              fun c hlast hlen16 => ?_⟩
            · rw [i1, htr, List.append_assoc]
              rfl
            · cases cs with
              | nil =>
                simp only [List.getLast?_singleton, Option.some.injEq] at hlast
                rw [← hlast, hlen] at hlen16
                exact absurd hlen16 (by decide)
              | cons a l =>
                rw [List.getLast?_cons_cons] at hlast
                obtain ⟨j1, j2, j3⟩ := i2 c hlast hlen16
                refine ⟨?_, j2, fun hno => ?_⟩
                · rw [List.length_cons, j1, hq]
                · obtain ⟨k1, content, k2, k3⟩ := j3 hno
                  refine ⟨k1, content, k2, ?_⟩
                  rw [← k3]
                  show List.take 16 (List.drop _ content) =
                    List.take 16 (List.drop (file.pos +
                      (usbRead s USB_TRANSFER_BLOCK_SIZE USB_TRANSFER_TIMEOUT).1.length +
                      ((N - (offset + (USB_TRANSFER_BLOCK_SIZE : Nat))).toNat - 16)) content)
                  rw [hlen, hpos, Nat.add_assoc]
          · have hsmall : ¬ USB_TRANSFER_BLOCK_SIZE < (N - offset).toNat := by
              unfold USB_TRANSFER_BLOCK_SIZE
              omega
            rw [if_neg hsmall] at hrs
            subst hrs
            rw [receiveLoop_done _ _ _ _ _ _ _ _ _ (by omega)] at h
            injection h with h
            injection h with h1 h2
            subst h1 h2
            refine ⟨[(usbRead s 16 USB_TRANSFER_TIMEOUT).1], htr, fun c hlast _ => ?_⟩
            simp only [List.getLast?_singleton, Option.some.injEq] at hlast
            subst hlast
            refine ⟨by rw [hq]; rfl, fun hyes => ?_, fun _ => ⟨rfl, ?_⟩⟩
            · rw [hcanf] at hyes
              cases hyes
            · refine ⟨writeAt (((usbRead s 16 USB_TRANSFER_TIMEOUT).2.fs.files file.path).getD [])
                file.pos (usbRead s 16 USB_TRANSFER_TIMEOUT).1, ?_, ?_⟩
              · rw [chunkReceived_fs]
                simp [QFile.write, FileSystem.set]
              · rw [h16]
                have := writeAt_read
                  (((usbRead s 16 USB_TRANSFER_TIMEOUT).2.fs.files file.path).getD [])
                  file.pos (usbRead s 16 USB_TRANSFER_TIMEOUT).1
                rw [hlen] at this
                exact this
    · rw [receiveLoop, if_neg hlt] at h
      injection h with h
      injection h with _ h2
      subst h2
      exact ⟨[], by simp, fun c hc => by simp at hc⟩

theorem resolvedFile_single_file (s : UsbManager) (cmdBlock : QByteArray)
    (hd : entersDataPhase s cmdBlock = true)
    (hm : s.m_nspTransferMode = false) :
    (resolvedFile s cmdBlock).2.2 =
      { path := filePath s.m_outputDir (mid cmdBlock 16 (readU32 cmdBlock 8)), pos := 0 } := by
  unfold resolvedFile
  dsimp only
  rw [enableNspTransferMode_of_data s cmdBlock hd, if_pos (Or.inl hm)]
  unfold openOutputFile
  dsimp only
  rw [if_neg (by rw [hm]; decide)]

theorem isCancelChunk_iff (c : QByteArray) (hlen : c.length = 16) :
    isCancelChunk c = true ↔
      (c.take 4 = USB_MAGIC_WORD ∧ readU32 c 4 = USB_CMD_CANCEL_FILE_TRANSFER) := by
  unfold isCancelChunk
  simp only [decide_eq_true_eq]
  constructor
  · intro h0
    exact h0.2
  · intro h0
    exact ⟨hlen, h0⟩

/-- C21. Take a SendFileProperties block that enters a data phase for a file
whose size is 16 modulo 0x800000, at an endpoint packet size for which 16 is not
packet-aligned (any power of two above 16), so that the final chunk is requested
as exactly 16 bytes.  The handler returns, and if the last chunk delivered in the
call has 16 bytes, then it is the final chunk (chunk number `fileSize / 0x800000
+ 1`), the status is SUCCESS, and: when the 16 bytes begin with `NXDT` followed
by the little-endian 32-bit value 2, the output file is removed (in NSP mode the
NSP file is removed and the NSP state cleared), so none of the bytes is kept;
for every other content the 16 bytes stand in the file at its last 16 positions
of the transfer. -/
theorem handleSendFileProperties_cancel_lookalike (s : UsbManager) (cmdBlock : QByteArray)
    (h : 16 ≤ cmdBlock.length) (hd : entersDataPhase s cmdBlock = true)
    (hwf : s.m_nspTransferMode = true → s.m_nspFile ≠ none ∧ s.m_nspFilePath ≠ [])
    (hmod : readI64 cmdBlock 0 % ((USB_TRANSFER_BLOCK_SIZE : Nat) : Int) = 16)
    (hal : isValueAlignedToEndpointPacketSize s 16 = false) :
    ∃ st s1 cs, handleSendFileProperties s cmdBlock = Except.ok (st, s1) ∧
      chunksOf s1.trace = chunksOf s.trace ++ cs ∧
      ∀ c, cs.getLast? = some c → c.length = 16 →
        st = USB_STATUS_SUCCESS ∧
        cs.length = (readI64 cmdBlock 0).toNat / USB_TRANSFER_BLOCK_SIZE + 1 ∧
        ((c.take 4 = USB_MAGIC_WORD ∧ readU32 c 4 = USB_CMD_CANCEL_FILE_TRANSFER) →
          (s.m_nspTransferMode = false →
            s1.fs.files (filePath s.m_outputDir (mid cmdBlock 16 (readU32 cmdBlock 8))) = none ∧
            s1.nspState = s.nspState) ∧
          (s.m_nspTransferMode = true →
            s1.fs.files s.m_nspFilePath = none ∧
            s1.nspState = (false, 0, 0, 0, none, []))) ∧
        (¬ (c.take 4 = USB_MAGIC_WORD ∧ readU32 c 4 = USB_CMD_CANCEL_FILE_TRANSFER) →
          (s.m_nspTransferMode = false →
            ∃ content,
              s1.fs.files (filePath s.m_outputDir (mid cmdBlock 16 (readU32 cmdBlock 8)))
                = some content ∧
              (content.drop ((readI64 cmdBlock 0).toNat - 16)).take 16 = c) ∧
          (∀ f, s.m_nspTransferMode = true → s.m_nspFile = some f →
            ∃ content, s1.fs.files f.path = some content ∧
              (content.drop (f.pos + ((readI64 cmdBlock 0).toNat - 16))).take 16 = c)) := by
  have hns := resolvedFile_mode s cmdBlock hd (fun hm => (hwf hm).1)
  have hp := progressWanted_congr _ _ (readI64 cmdBlock 0) hns
  obtain ⟨r1, -, -, r4, -⟩ := resolvedFile_frame s cmdBlock
  obtain ⟨e, s3, hloop, hcase⟩ := receiveFile_cases (resolvedFile s cmdBlock).1
    (readI64 cmdBlock 0) (mid cmdBlock 16 (readU32 cmdBlock 8)) (resolvedFile s cmdBlock).2.1
    (resolvedFile s cmdBlock).2.2
  obtain ⟨d1, -, -, d4, d5⟩ := dataPhaseStart_frame (resolvedFile s cmdBlock).1
    (readI64 cmdBlock 0) (mid cmdBlock 16 (readU32 cmdBlock 8))
  rw [← handleSendFileProperties_data s cmdBlock h hd] at hcase
  generalize hst : dataPhaseStart (resolvedFile s cmdBlock).1 (readI64 cmdBlock 0)
    (mid cmdBlock 16 (readU32 cmdBlock 8)) = start at hloop d1 d4 d5
  have hstart : start.nspState = s.nspState := d1.trans hns
  have hal0 : isValueAlignedToEndpointPacketSize start 16 = false := by
    rw [isValueAligned_congr start s 16 (d4.trans r4), hal]
  have hc0 : chunksOf start.trace = chunksOf s.trace := by
    rw [d5, r1]
    apply chunksOf_of_start
    · rfl
    · split_ifs <;> rfl
  have hinv : readI64 cmdBlock 0 ≤ 0 ∨ ((0 : Int) ≤ 0 ∧
      USB_TRANSFER_BLOCK_SIZE = USB_TRANSFER_BLOCK_SIZE ∧
      (readI64 cmdBlock 0 - 0) % ((USB_TRANSFER_BLOCK_SIZE : Nat) : Int) = 16) := by
    right
    refine ⟨Int.le_refl 0, rfl, ?_⟩
    rw [Int.sub_zero]
    exact hmod
  obtain ⟨cs, hcs, hlast⟩ := receiveLoop_tail16 (readI64 cmdBlock 0) (readI64_lt cmdBlock 0) _ _ _
    _ _ _ _ _ _ _ hal0 hinv hloop
  rw [hc0] at hcs
  simp only [Int.sub_zero] at hlast
  have hsf : start.m_nspTransferMode = s.m_nspTransferMode ∧
      start.m_nspFile = s.m_nspFile ∧ start.m_nspFilePath = s.m_nspFilePath := by
    simp only [UsbManager.nspState, Prod.mk.injEq] at hstart
    exact ⟨hstart.1, hstart.2.2.2.2.1, hstart.2.2.2.2.2⟩
  have hwritten : ∀ c, e = LoopExit.completed →
      (∃ content, s3.fs.files (resolvedFile s cmdBlock).2.2.path = some content ∧
        (content.drop ((resolvedFile s cmdBlock).2.2.pos +
          ((readI64 cmdBlock 0).toNat - 16))).take 16 = c) →
      (s.m_nspTransferMode = false →
        ∃ content,
          s3.fs.files (filePath s.m_outputDir (mid cmdBlock 16 (readU32 cmdBlock 8)))
            = some content ∧
          (content.drop ((readI64 cmdBlock 0).toNat - 16)).take 16 = c) ∧
      (∀ f, s.m_nspTransferMode = true → s.m_nspFile = some f →
        ∃ content, s3.fs.files f.path = some content ∧
          (content.drop (f.pos + ((readI64 cmdBlock 0).toNat - 16))).take 16 = c) := by
    intro c _ hex
    constructor
    · intro hm
      rw [resolvedFile_single_file s cmdBlock hd hm] at hex
      obtain ⟨content, x1, x2⟩ := hex
      refine ⟨content, x1, ?_⟩
      rw [← x2]
      show _ = List.take 16 (List.drop (0 + ((readI64 cmdBlock 0).toNat - 16)) content)
      rw [Nat.zero_add]
    · intro f hm hf
      rw [resolvedFile_nsp s cmdBlock f hd hm hf] at hex
      exact hex
  have hremoved : e = LoopExit.returned USB_STATUS_SUCCESS →
      (s.m_nspTransferMode = false →
        s3.fs.files (filePath s.m_outputDir (mid cmdBlock 16 (readU32 cmdBlock 8))) = none ∧
        s3.nspState = s.nspState) ∧
      (s.m_nspTransferMode = true →
        s3.fs.files s.m_nspFilePath = none ∧ s3.nspState = (false, 0, 0, 0, none, [])) := by
    intro he
    constructor
    · intro hm
      obtain ⟨c1, c2⟩ := receiveLoop_single _ _ _ _ _ _ _ _ _ _ _ hloop (hsf.1.trans hm)
      have hpath := (resolvedFile_single s cmdBlock hd hm).1
      rw [hpath] at c2
      exact ⟨c2 (by rw [he]; decide), c1.trans hstart⟩
    · intro hm
      obtain ⟨-, c2⟩ := receiveLoop_nsp _ _ _ _ _ _ _ _ _ _ _ hloop (hsf.1.trans hm)
      obtain ⟨c3, c4⟩ := c2 (by rw [he]; decide)
      rw [hsf.2.1, hsf.2.2] at c4
      exact ⟨c4 (hwf hm).1 (hwf hm).2, c3⟩
  rcases hcase with ⟨he, hr⟩ | ⟨he, hr⟩ | ⟨he, hr⟩
  · refine ⟨_, _, cs, hr, ?_, fun c hl hlen => ?_⟩
    · split_ifs
      · show chunksOf (s3.trace ++ [Event.progressEnd]) = _
        rw [chunksOf_append, hcs]
        simp [chunksOf]
      · exact hcs
    · obtain ⟨j1, j2, j3⟩ := hlast c hl hlen
      refine ⟨rfl, j1, fun hlook => ?_, fun hnot => ?_⟩
      · have := j2 ((isCancelChunk_iff c hlen).2 hlook)
        rw [he] at this
        cases this
      · have hno : isCancelChunk c = false := by
          cases hb : isCancelChunk c
          · rfl
          · exact absurd ((isCancelChunk_iff c hlen).1 hb) hnot
        have hw := hwritten c he (j3 hno).2
        split_ifs
        · exact hw
        · exact hw
  · refine ⟨_, _, cs, hr, hcs, fun c hl hlen => ?_⟩
    obtain ⟨j1, j2, j3⟩ := hlast c hl hlen
    refine ⟨rfl, j1, fun _ => hremoved he, fun hnot => ?_⟩
    have hno : isCancelChunk c = false := by
      cases hb : isCancelChunk c
      · rfl
      · exact absurd ((isCancelChunk_iff c hlen).1 hb) hnot
    have := (j3 hno).1
    rw [he] at this
    cases this
  · refine ⟨_, _, cs, hr, hcs, fun c hl hlen => ?_⟩
    obtain ⟨-, j2, j3⟩ := hlast c hl hlen
    exfalso
    cases hb : isCancelChunk c
    · have := (j3 hb).1
      rw [he] at this
      cases this
    · have := j2 hb
      rw [he] at this
      revert this
      decide

/-- C21 at a concrete input: a single file of 16 bytes over 512-byte packets whose
content is `NXDT | 2 | 0 | 0`; the handler answers SUCCESS and the file `/o/a` is
gone. -/
theorem handleSendFileProperties_cancel_lookalike_witness :
    (16 ≤ (filePropertiesBlock 16 0 [0x61]).length ∧
      entersDataPhase (idleManager 512 [delivered cancelPacket] [accepted])
        (filePropertiesBlock 16 0 [0x61]) = true ∧
      readI64 (filePropertiesBlock 16 0 [0x61]) 0 % ((USB_TRANSFER_BLOCK_SIZE : Nat) : Int) = 16 ∧
      isValueAlignedToEndpointPacketSize (idleManager 512 [delivered cancelPacket] [accepted]) 16
        = false) ∧
    ∃ st s1, handleSendFileProperties (idleManager 512 [delivered cancelPacket] [accepted])
        (filePropertiesBlock 16 0 [0x61]) = Except.ok (st, s1) ∧
      st = USB_STATUS_SUCCESS ∧ s1.fs.files [0x2F, 0x6F, 0x2F, 0x61] = none := by
  have h1 : 16 ≤ (filePropertiesBlock 16 0 [0x61]).length := by decide
  have h2 : entersDataPhase (idleManager 512 [delivered cancelPacket] [accepted])
      (filePropertiesBlock 16 0 [0x61]) = true := by decide
  have h3 : readI64 (filePropertiesBlock 16 0 [0x61]) 0
      % ((USB_TRANSFER_BLOCK_SIZE : Nat) : Int) = 16 := by decide
  have h4 : isValueAlignedToEndpointPacketSize
      (idleManager 512 [delivered cancelPacket] [accepted]) 16 = false := by decide
  refine ⟨⟨h1, h2, h3, h4⟩, ?_⟩
  obtain ⟨st, s1, cs, hr, hcs, hl⟩ := handleSendFileProperties_cancel_lookalike
    (idleManager 512 [delivered cancelPacket] [accepted]) (filePropertiesBlock 16 0 [0x61])
    h1 h2 (by decide) h3 h4
  have hch : (stateOf (handleSendFileProperties
      (idleManager 512 [delivered cancelPacket] [accepted])
      (filePropertiesBlock 16 0 [0x61]))).map (fun t => chunksOf t.trace)
      = some [cancelPacket] := by decide
  rw [hr] at hch
  have hch1 : chunksOf s1.trace = [cancelPacket] := by
    simpa [stateOf] using hch
  have hcs1 : cs = [cancelPacket] := by
    rw [hch1] at hcs
    exact hcs.symm
  obtain ⟨a1, -, a3, -⟩ := hl cancelPacket (by rw [hcs1]; rfl) (by decide)
  exact ⟨st, s1, hr, a1, ((a3 (by decide)).1 (by decide)).1⟩

end NxdtHost
